import Mathlib

/-!
# rdsrecorder: time-window log archival

A shallow embedding of the Go packages `processhelper`, `aws` and `process`
of the rdsrecorder repository, together with the parts of the Go standard
library (`time`, `strconv`, `strings`, `regexp`) that these packages call.

Conventions of the embedding

* Go strings are lists of characters (`String` at the interface, `List Char`
  inside the text-processing functions).
* `time.Time` is an instant counted in nanoseconds since
  0001-01-01 00:00:00 UTC (the instant of the zero value `time.Time{}`)
  together with a fixed-offset location.  Machine-integer wrap-around of the
  standard library is not modelled: instants are unbounded integers.
* A Go function returning `(T, error)` returns a pair `T × Option String`,
  the error being its message; a function that can panic at run time returns
  an `Option`, `none` standing for the panic.
-/

namespace RdsRecorder

/-! ## Package `time` -/

/-- A fixed-offset time zone: the zone abbreviation and the offset in seconds
east of UTC. -/
structure Location where
  name : String
  offset : Int
  deriving DecidableEq, Repr

/-- The location `time.UTC`. -/
def UTC : Location := ⟨"UTC", 0⟩

/-- An instant (`time.Time`): nanoseconds since 0001-01-01 00:00:00 UTC, and
the location used to display it. -/
structure Time where
  ns : Int
  loc : Location
  deriving DecidableEq, Repr

/-- The zero value `time.Time{}`. -/
def Time.zero : Time := ⟨0, UTC⟩

/-! A `time.Duration` is a count of nanoseconds, an integer here. -/

def Nanosecond : Int := 1
def Microsecond : Int := 1000 * Nanosecond
def Millisecond : Int := 1000 * Microsecond
def Second : Int := 1000 * Millisecond
def Minute : Int := 60 * Second
def Hour : Int := 60 * Minute

def minDuration : Int := -9223372036854775808
def maxDuration : Int := 9223372036854775807

def secondsPerMinute : Int := 60
def secondsPerHour : Int := 60 * secondsPerMinute
def secondsPerDay : Int := 24 * secondsPerHour
def daysPer400Years : Int := 365 * 400 + 97
def daysPer100Years : Int := 365 * 100 + 24
def daysPer4Years : Int := 365 * 4 + 1

/-- The year of the absolute epoch of package `time`. -/
def absoluteZeroYear : Int := -292277022399

/-- Seconds from the absolute epoch to 0001-01-01 (`-absoluteToInternal`). -/
def internalToAbsolute : Int := 9223371966579724800

/-- Seconds from 0001-01-01 to 1970-01-01. -/
def unixToInternal : Int := (1969 * 365 + 1969 / 4 - 1969 / 100 + 1969 / 400) * secondsPerDay

def internalToUnix : Int := -unixToInternal

/-- Whole seconds since 0001-01-01 00:00:00 UTC (`t.sec()`). -/
def Time.sec (t : Time) : Int := t.ns / 1000000000

/-- Nanoseconds within the second (`t.nsec()`), in `[0, 999999999]`. -/
def Time.nsec (t : Time) : Int := t.ns % 1000000000

/-- Go `t.After(u)`. -/
def Time.After (t u : Time) : Bool :=
  decide (t.sec > u.sec) || (decide (t.sec = u.sec) && decide (t.nsec > u.nsec))

/-- Go `t.Before(u)`. -/
def Time.Before (t u : Time) : Bool :=
  decide (t.sec < u.sec) || (decide (t.sec = u.sec) && decide (t.nsec < u.nsec))

/-- Go `t.Equal(u)`: the same instant, whatever the locations. -/
def Time.Equal (t u : Time) : Bool :=
  decide (t.sec = u.sec) && decide (t.nsec = u.nsec)

/-- Go `t.IsZero()`. -/
def Time.IsZero (t : Time) : Bool :=
  decide (t.sec = 0) && decide (t.nsec = 0)

/-- Go `t.Add(d)`. -/
def Time.Add (t : Time) (d : Int) : Time := ⟨t.ns + d, t.loc⟩

/-- Go `t.Sub(u)`: the duration `t - u`, saturated to the range of `Duration`. -/
def Time.Sub (t u : Time) : Int :=
  let d := (t.sec - u.sec) * Second + (t.nsec - u.nsec)
  if minDuration ≤ d ∧ d ≤ maxDuration then d
  else if t.Before u then minDuration
  else maxDuration

/-- Go `t.UTC()`. -/
def Time.UTC (t : Time) : Time := ⟨t.ns, RdsRecorder.UTC⟩

/-- Go `t.Location()`. -/
def Time.Location (t : Time) : Location := t.loc

/-- Go `t.Zone()`: the abbreviation and the offset of the zone in effect. -/
def Time.Zone (t : Time) : String × Int := (t.loc.name, t.loc.offset)

/-- Go `t.Unix()`: seconds since 1970-01-01 00:00:00 UTC. -/
def Time.Unix (t : Time) : Int := t.sec + internalToUnix

/-- Go `t.abs()`: seconds since the absolute epoch, on the wall clock of the
location of `t`. -/
def Time.abs (t : Time) : Int :=
  t.Unix + t.loc.offset + (unixToInternal + internalToAbsolute)

/-- Go `isLeap(year)`. -/
def isLeap (year : Int) : Bool :=
  year % 4 == 0 && (year % 100 != 0 || year % 400 == 0)

/-- The table `daysBefore`: `daysBefore m` is the number of days of a
non-leap year before month `m + 1`. -/
def daysBefore (m : Int) : Int :=
  if m = 0 then 0
  else if m = 1 then 31
  else if m = 2 then 31 + 28
  else if m = 3 then 31 + 28 + 31
  else if m = 4 then 31 + 28 + 31 + 30
  else if m = 5 then 31 + 28 + 31 + 30 + 31
  else if m = 6 then 31 + 28 + 31 + 30 + 31 + 30
  else if m = 7 then 31 + 28 + 31 + 30 + 31 + 30 + 31
  else if m = 8 then 31 + 28 + 31 + 30 + 31 + 30 + 31 + 31
  else if m = 9 then 31 + 28 + 31 + 30 + 31 + 30 + 31 + 31 + 30
  else if m = 10 then 31 + 28 + 31 + 30 + 31 + 30 + 31 + 31 + 30 + 31
  else if m = 11 then 31 + 28 + 31 + 30 + 31 + 30 + 31 + 31 + 30 + 31 + 30
  else 31 + 28 + 31 + 30 + 31 + 30 + 31 + 31 + 30 + 31 + 30 + 31

/-- Go `daysIn(m, year)`: the number of days of month `m` in `year`. -/
def daysIn (m year : Int) : Int :=
  if m = 2 ∧ isLeap year = true then 29
  else daysBefore m - daysBefore (m - 1)

/-- The number of days of `year`. -/
def yearLength (year : Int) : Int := if isLeap year = true then 366 else 365

/-- The zero-based day of the year of the civil date `year`-`m`-`d`, as
`time.Date` counts it. -/
def yearDay (year m d : Int) : Int :=
  let n := daysBefore (m - 1)
  let n := if isLeap year = true ∧ m ≥ 3 then n + 1 else n
  n + (d - 1)

/-- A real calendar date: a month from 1 to 12 and a day of that month. -/
def validDate (year m d : Int) : Prop :=
  1 ≤ m ∧ m ≤ 12 ∧ 1 ≤ d ∧ d ≤ daysIn m year

instance (year m d : Int) : Decidable (validDate year m d) := by
  unfold validDate; infer_instance

/-- Go `norm(hi, lo, base)`: brings `lo` into `[0, base)`, carrying into `hi`. -/
def norm (hi lo base : Int) : Int × Int :=
  let (hi, lo) :=
    if lo < 0 then
      let n := (-lo - 1) / base + 1
      (hi - n, lo + n * base)
    else (hi, lo)
  if lo ≥ base then
    let n := lo / base
    (hi + n, lo - n * base)
  else (hi, lo)

/-- Go `daysSinceEpoch(year)`: days from the absolute epoch to January 1 of
`year`. -/
def daysSinceEpoch (year : Int) : Int :=
  let y := year - absoluteZeroYear
  let n := y / 400
  let y := y - 400 * n
  let d := daysPer400Years * n
  let n := y / 100
  let y := y - 100 * n
  let d := d + daysPer100Years * n
  let n := y / 4
  let y := y - 4 * n
  let d := d + daysPer4Years * n
  let n := y
  d + 365 * n

/-- Go `time.Date(year, month, day, hour, min, sec, nsec, loc)`. -/
def Date (year month day hour min sec nsec : Int) (loc : Location) : Time :=
  let m := month - 1
  let (year, m) := norm year m 12
  let month := m + 1
  let (sec, nsec) := norm sec nsec 1000000000
  let (min, sec) := norm min sec 60
  let (hour, min) := norm hour min 60
  let (day, hour) := norm day hour 24
  let d := daysSinceEpoch year
  let d := d + daysBefore (month - 1)
  let d := if isLeap year = true ∧ month ≥ 3 then d + 1 else d
  let d := d + (day - 1)
  let abs := d * secondsPerDay
  let abs := abs + (hour * secondsPerHour + min * secondsPerMinute + sec)
  let unix := abs + (-internalToAbsolute + internalToUnix)
  let unix := unix - loc.offset
  ⟨(unix + unixToInternal) * 1000000000 + nsec, loc⟩

/-- The year and the zero-based day of the year of a day count since the
absolute epoch (the first half of `absDate`). -/
def absYear (days : Int) : Int × Int :=
  let d := days
  let n := d / daysPer400Years
  let y := 400 * n
  let d := d - daysPer400Years * n
  let n := d / daysPer100Years
  let n := n - n / 4
  let y := y + 100 * n
  let d := d - daysPer100Years * n
  let n := d / daysPer4Years
  let y := y + 4 * n
  let d := d - daysPer4Years * n
  let n := d / 365
  let n := n - n / 4
  let y := y + n
  let d := d - 365 * n
  (y + absoluteZeroYear, d)

/-- The month and the day of the month of the zero-based day `yday` of
`year` (the second half of `absDate`). -/
def absMonthDay (year yday : Int) : Int × Int :=
  if isLeap year = true ∧ yday = 31 + 29 - 1 then (2, 29)
  else
    let day := if isLeap year = true ∧ yday > 31 + 29 - 1 then yday - 1 else yday
    let month := day / 31
    let «end» := daysBefore (month + 1)
    let (month, begin) :=
      if day ≥ «end» then (month + 1, «end») else (month, daysBefore month)
    (month + 1, day - begin + 1)

/-- Go `absDate(abs, true)`: year, month, day of the month and zero-based day of
the year. -/
def absDate (abs : Int) : Int × Int × Int × Int :=
  let (year, yday) := absYear (abs / secondsPerDay)
  let (month, day) := absMonthDay year yday
  (year, month, day, yday)

/-- Go `t.Year()`. -/
def Time.Year (t : Time) : Int := (absDate t.abs).1

/-- Go `t.Month()`. -/
def Time.Month (t : Time) : Int := (absDate t.abs).2.1

/-- Go `t.Day()`. -/
def Time.Day (t : Time) : Int := (absDate t.abs).2.2.1

/-- Go `t.Hour()`. -/
def Time.Hour (t : Time) : Int := t.abs % secondsPerDay / secondsPerHour

/-- Go `t.Minute()`. -/
def Time.Minute (t : Time) : Int := t.abs % secondsPerHour / secondsPerMinute

/-- Go `t.Second()`. -/
def Time.Second (t : Time) : Int := t.abs % secondsPerMinute

/-- Go `t.Nanosecond()`. -/
def Time.Nanosecond (t : Time) : Int := t.nsec

/-! ## Packages `strconv`, `strings` and `fmt` -/

/-- An ASCII decimal digit (the class `\d` of package `regexp`, and the
characters `strconv.Atoi` accepts). -/
def isDigit (c : Char) : Bool := decide ('0' ≤ c) && decide (c ≤ '9')

/-- The value of a digit character. -/
def digitVal (c : Char) : Int := (c.toNat : Int) - 48

/-- The digit loop of `strconv.Atoi`: `n = n*10 + int(ch - '0')`, failing on
the first character that is not a digit. -/
def atoiLoop : Int → List Char → Option Int
  | n, [] => some n
  | n, ch :: rest => if isDigit ch then atoiLoop (n * 10 + digitVal ch) rest else none

/-- Go `strconv.Atoi(s)` with its error flag (`true` when the error is not
nil): an optional sign followed by one or more digits; the value is 0 on a
syntax error and is clamped to the range of `int` on a range error. -/
def AtoiErr (s : List Char) : Int × Bool :=
  match s with
  | [] => (0, true)
  | c :: rest =>
    let negative := c == '-'
    let body := if c == '-' || c == '+' then rest else c :: rest
    match body with
    | [] => (0, true)
    | _ :: _ =>
      match atoiLoop 0 body with
      | none => (0, true)
      | some n =>
        let v := if negative then -n else n
        if v > 9223372036854775807 then (9223372036854775807, true)
        else if v < -9223372036854775808 then (-9223372036854775808, true)
        else (v, false)

/-- The value of `strconv.Atoi(s)`, its error dropped (`n, _ := Atoi(s)`). -/
def Atoi (s : List Char) : Int := (AtoiErr s).1

/-- The number that a string of decimal digits denotes, most significant
digit first. -/
def decimal : List Char → Nat
  | [] => 0
  | c :: cs => (c.toNat - 48) * 10 ^ cs.length + decimal cs

/-- Go `strings.Split(s, sep)` for a separator of one character. -/
def Split (sep : Char) : List Char → List (List Char)
  | [] => [[]]
  | c :: cs =>
    if c = sep then [] :: Split sep cs
    else
      match Split sep cs with
      | [] => [[c]]
      | f :: fs => (c :: f) :: fs

/-- The verb `%d` of package `fmt` on an integer. -/
def formatInt (i : Int) : String :=
  match i with
  | Int.ofNat n => Nat.repr n
  | Int.negSucc n => "-" ++ Nat.repr (n + 1)

/-! ## Formatting and parsing of instants (package `time`) -/

/-- The decimal digits of `n`, padded with zeros on the left to `width`
characters. -/
def padNat (n width : Nat) : String :=
  String.mk (List.replicate (width - (Nat.repr n).length) '0') ++ Nat.repr n

/-- An integer printed like a year: at least `width` digits, a minus sign in
front of a negative number. -/
def padInt (i : Int) (width : Nat) : String :=
  match i with
  | Int.ofNat n => padNat n width
  | Int.negSucc n => "-" ++ padNat (n + 1) width

/-- The layout `2006-01-02 15:04:05.000 UTC` (`TimeStampFormat`). -/
def TimeStampFormat : String := "2006-01-02 15:04:05.000 UTC"

/-- Go `t.Format(TimeStampFormat)`: the wall clock of `t` with milliseconds,
followed by the literal text ` UTC`. -/
def Time.Format (t : Time) : String :=
  padInt t.Year 4 ++ "-" ++ padInt t.Month 2 ++ "-" ++ padInt t.Day 2 ++ " " ++
    padInt t.Hour 2 ++ ":" ++ padInt t.Minute 2 ++ ":" ++ padInt t.Second 2 ++ "." ++
    padNat (t.nsec / 1000000).toNat 3 ++ " UTC"

/-- The digits of a fraction of a second without its trailing zeros. -/
def trimZeros (s : List Char) : List Char :=
  (s.reverse.dropWhile (fun c => c == '0')).reverse

/-- The element `-0700` of a layout: the zone offset as sign, hours and
minutes. -/
def formatOffset (offset : Int) : String :=
  let zone := Int.tdiv offset 60
  let sign := if zone < 0 then "-" else "+"
  let zone := if zone < 0 then -zone else zone
  sign ++ padNat (zone / 60).toNat 2 ++ padNat (zone % 60).toNat 2

/-- Go `t.String()`: the layout `2006-01-02 15:04:05.999999999 -0700 MST`. -/
def Time.String (t : Time) : String :=
  padInt t.Year 4 ++ "-" ++ padInt t.Month 2 ++ "-" ++ padInt t.Day 2 ++ " " ++
    padInt t.Hour 2 ++ ":" ++ padInt t.Minute 2 ++ ":" ++ padInt t.Second 2 ++
    (if t.nsec = 0 then "" else "." ++ String.mk (trimZeros (padNat t.nsec.toNat 9).data)) ++
    " " ++ formatOffset t.loc.offset ++ " " ++
    (if t.loc.name = "" then formatOffset t.loc.offset else t.loc.name)

/-- The function `getnum` of package `time`: a number of one or two digits
(of exactly two when `fixed`) at the start of `s`, and the rest of `s`. -/
def getnum (s : List Char) (fixed : Bool) : Option (Int × List Char) :=
  match s with
  | [] => none
  | [c] => if !isDigit c || fixed then none else some (digitVal c, [])
  | c :: c' :: rest =>
    if !isDigit c then none
    else if !isDigit c' then (if fixed then none else some (digitVal c, c' :: rest))
    else some (digitVal c * 10 + digitVal c', rest)

/-- The function `skip` of package `time` on a literal piece of a layout: a
run of spaces of the layout stands for a run of spaces of the value. -/
def skip : List Char → List Char → Option (List Char)
  | value, [] => some value
  | value, p :: ps =>
    if p = ' ' then
      match value with
      | [] => skip [] ps
      | v :: vs =>
        if v ≠ ' ' then none
        else
          match ps with
          | ' ' :: _ => skip (v :: vs) ps
          | _ => skip ((v :: vs).dropWhile (fun c => c == ' ')) ps
    else
      match value with
      | [] => none
      | v :: vs => if v = p then skip vs ps else none

/-- The error of `time.Parse`; the text that says what could not be parsed is
left out. -/
def parseError (value : String) : String :=
  "parsing time \"" ++ value ++ "\" as \"" ++ TimeStampFormat ++ "\""

/-- The fields that `time.Parse` reads with the layout `TimeStampFormat`:
year, month, day, hour, minute, second and nanosecond; `none` when the value
does not follow the layout or a field is out of range. -/
def parseFields (value : List Char) : Option (Int × Int × Int × Int × Int × Int × Int) :=
  if value.length < 4 ∨ !(value.take 4).all isDigit then none
  else
    let year := Atoi (value.take 4)
    match skip (value.drop 4) ['-'] with
    | none => none
    | some value =>
    match getnum value true with
    | none => none
    | some (month, value) =>
    if month ≤ 0 ∨ 12 < month then none
    else
    match skip value ['-'] with
    | none => none
    | some value =>
    match getnum value true with
    | none => none
    | some (day, value) =>
    match skip value [' '] with
    | none => none
    | some value =>
    match getnum value false with
    | none => none
    | some (hour, value) =>
    if hour < 0 ∨ 24 ≤ hour then none
    else
    match skip value [':'] with
    | none => none
    | some value =>
    match getnum value true with
    | none => none
    | some (min, value) =>
    if min < 0 ∨ 60 ≤ min then none
    else
    match skip value [':'] with
    | none => none
    | some value =>
    match getnum value true with
    | none => none
    | some (sec, value) =>
    if sec < 0 ∨ 60 ≤ sec then none
    else
    if value.length < 4 then none
    else
    match value with
    | [] => none
    | dot :: frac =>
    if dot ≠ '.' ∧ dot ≠ ',' then none
    else
    let (ns, bad) := AtoiErr (frac.take 3)
    if bad ∨ ns < 0 then none
    else
    match skip (frac.drop 3) [' ', 'U', 'T', 'C'] with
    | none => none
    | some value =>
    if value.length ≠ 0 then none
    else if day < 1 ∨ day > daysIn month year then none
    else some (year, month, day, hour, min, sec, ns * 1000000)

/-- Go `time.Parse(TimeStampFormat, value)`. -/
def Parse (value : String) : Time × Option String :=
  match parseFields value.data with
  | none => (Time.zero, some (parseError value))
  | some (year, month, day, hour, min, sec, nsec) =>
    (Date year month day hour min sec nsec UTC, none)

/-! ## Package `regexp`

The fragment of regular expressions the program uses: a sequence of pieces,
each a character class repeated between `min` and `max` times, greedily.
Matching is leftmost-first, as a backtracking search finds it. -/

/-- One piece `c{min,max}` of a pattern; no `max` for `c{min,}`. -/
structure Piece where
  cls : Char → Bool
  min : Nat
  max : Option Nat

/-- The most repetitions of a piece worth trying on the input `s`. -/
def Piece.cap (p : Piece) (s : List Char) : Nat :=
  match p.max with
  | some n => n
  | none => s.length

/-- The number of leading characters of `s` in the class, at most `cap`. -/
def runLength (cls : Char → Bool) : Nat → List Char → Nat
  | 0, _ => 0
  | _ + 1, [] => 0
  | cap + 1, c :: cs => if cls c then runLength cls cap cs + 1 else 0

/-- Tries the repetition counts `k, k-1, ..., lo` of a piece in this order
(longest first) and returns the length of the first overall match, `cont`
matching the rest of the pattern. -/
def tryCounts (cont : List Char → Option Nat) (s : List Char) (lo : Nat) : Nat → Option Nat
  | 0 => if lo = 0 then cont s else none
  | k + 1 =>
    if k + 1 < lo then none
    else
      match cont (s.drop (k + 1)) with
      | some n => some (k + 1 + n)
      | none => tryCounts cont s lo k

/-- The length of the leftmost-first match of the pattern at the very start
of `s`, if there is one. -/
def matchPieces : List Piece → List Char → Option Nat
  | [], _ => some 0
  | p :: ps, s => tryCounts (matchPieces ps) s p.min (runLength p.cls (p.cap s) s)

/-- The scan of `FindAllString`: `skip` characters still belong to the
previous match. -/
def findAllFrom (pat : List Piece) : Nat → List Char → List (List Char)
  | _, [] => []
  | skip + 1, _ :: cs => findAllFrom pat skip cs
  | 0, c :: cs =>
    match matchPieces pat (c :: cs) with
    | some (n + 1) => (c :: cs).take (n + 1) :: findAllFrom pat n cs
    | _ => findAllFrom pat 0 cs

/-- Go `re.FindAllString(s, -1)`: the successive non-overlapping matches of a
pattern that matches no empty string, left to right. -/
def FindAllString (pat : List Piece) (s : List Char) : List (List Char) :=
  findAllFrom pat 0 s

/-- Go `re.MatchString(s)`: whether the pattern matches somewhere in `s`. -/
def MatchString (pat : List Piece) : List Char → Bool
  | [] => (matchPieces pat []).isSome
  | c :: cs => (matchPieces pat (c :: cs)).isSome || MatchString pat cs

/-- The language of a pattern: the strings that are, piece by piece, a run
of characters of the class of the piece, as long as the piece allows. -/
def matchesPieces : List Piece → List Char → Prop
  | [], s => s = []
  | p :: ps, s =>
    ∃ a b, s = a ++ b ∧ p.min ≤ a.length ∧ (∀ n, p.max = some n → a.length ≤ n) ∧
      (∀ c ∈ a, p.cls c = true) ∧ matchesPieces ps b

/-- The piece `\d{min,max}`. -/
def digits (min max : Nat) : Piece := ⟨isDigit, min, some max⟩

/-- The piece of one literal character. -/
def lit (c : Char) : Piece := ⟨fun x => x == c, 1, some 1⟩

/-- The piece `.+`: one or more characters other than a line feed. -/
def anyPlus : Piece := ⟨fun x => x != '\n', 1, none⟩

/-- Go `re.MatchString(s)` for a pattern anchored at the start of the text
(`^...`): whether the pattern matches at the very start of `s`. -/
def MatchStringAtStart (pat : List Piece) (s : List Char) : Bool :=
  (matchPieces pat s).isSome

/-! ## Package `processhelper` -/

/-- A `context.Context` as far as the program reads it: the values stored
under `ContextKeyPid` and `ContextKeyPidExternal`. -/
structure Context where
  pid : Option String
  pidExternal : Option Bool
  deriving DecidableEq, Repr

/-- Go `GetProcessID(ctx)`: `fmt.Sprintf("%s", ctx.Value(ContextKeyPid))`. -/
def GetProcessID (ctx : Context) : String :=
  match ctx.pid with
  | some p => p
  | none => "%!s(<nil>)"

/-- Go `IsRecovery(ctx)`. -/
def IsRecovery (ctx : Context) : Bool :=
  match ctx.pidExternal with
  | some b => b
  | none => false

/-- Go `TimeBetween(t, min, max)`. -/
def TimeBetween (t min max : Time) : Bool :=
  let (min, max) := if min.After max then (max, min) else (min, max)
  (t.Equal min || t.After min) && (t.Equal max || t.Before max)

/-- The pattern `\d{4}-\d{2}-\d{2}-\d{2,4}` of `FindDateTimeFromLogFile`. -/
def dateTimePattern : List Piece :=
  [digits 4 4, lit '-', digits 2 2, lit '-', digits 2 2, lit '-', digits 2 4]

/-- The error of `FindDateTimeFromLogFile`. -/
def dateTimeError (fileName : String) : String :=
  "unable to find the date time for: " ++ fileName

/-- The loop of `FindDateTimeFromLogFile` over the fields of the date string,
`i` being the index of the first field of the list and `split` the numbers
gathered so far; `none` when the slice `s[:2]` is out of range. -/
def splitDateFields : Nat → List (List Char) → List Int → Option (List Int)
  | _, [], split => some split
  | i, s :: rest, split =>
    if i = 3 then
      if s.length < 2 then none
      else
        let hour := Atoi (s.take 2)
        let minute := Atoi (s.drop 2)
        some ((split ++ [hour]) ++ [minute])
    else
      let num := Atoi s
      splitDateFields (i + 1) rest (split ++ [num])

/-- Go `FindDateTimeFromLogFile(fileName)`; `none` stands for a run-time panic
(an index or a slice bound out of range). -/
def FindDateTimeFromLogFile (fileName : String) : Option (Time × Option String) :=
  if !MatchString dateTimePattern fileName.data then
    some (Time.zero, some (dateTimeError fileName))
  else
    let dateStrings := FindAllString dateTimePattern fileName.data
    if dateStrings.length = 0 ∨ dateStrings.length > 1 then
      some (Time.zero, some (dateTimeError fileName))
    else
      match dateStrings[0]? with
      | none => none
      | some dateString =>
        let stringDateData := Split '-' dateString
        match splitDateFields 0 stringDateData [] with
        | none => none
        | some split =>
          match split[0]?, split[1]?, split[2]?, split[3]?, split[4]? with
          | some y, some mo, some d, some h, some mi =>
            some (Date y mo d h mi 0 0 UTC, none)
          | _, _, _, _, _ => none

/-- Go `FormatFileNameForS3(ctx, dbLogFileName)`. -/
def FormatFileNameForS3 (ctx : Context) (dbLogFileName : String) :
    Option (String × Option String) :=
  match FindDateTimeFromLogFile dbLogFileName with
  | none => none
  | some (_, some err) => some ("", some err)
  | some (dateFile, none) =>
    some ("rds_log_" ++ GetProcessID ctx ++ "_" ++ formatInt dateFile.UTC.Unix, none)

/-- Go `ValidateStartFinishInterval(start, finish)`. -/
def ValidateStartFinishInterval (start finish : Time) : Option String :=
  if start.After finish then
    some ("start is after finish, start: " ++ start.Format ++ ", finish: " ++ finish.Format)
  else none

/-- Go `ValidateTimeZone(dates...)`. -/
def ValidateTimeZone : List Time → Option String
  | [] => none
  | d :: dates =>
    if d.Zone.1 ≠ "UTC" ∨ d.Zone.2 ≠ 0 then
      some ("the date provided is not in UTC timezone, date: " ++ d.String)
    else ValidateTimeZone dates

/-! ## The environment: cloud services, local files, clock

The program talks to the database service and to the object store through
the interfaces `RDSClient` and `S3BucketClient`, to the local file system
through package `os`, and reads the wall clock.  All of them are oracles
here: the answer to a request is a function of the requests made before it.
The answers are well formed: the pointer fields that the program reads
without a nil check (`LogFileName`, `LogFileData`, the bucket names) are
present. -/

/-- A request to the outside world, with the arguments the program chose. -/
inductive Event where
  | DescribeDBLogFiles (dbInstanceIdentifier marker : String)
  | DownloadDBLogFilePortion (dbInstanceIdentifier logFileName marker : String)
      (numberOfLines : Int)
  | DescribeDBInstances (dbInstanceIdentifier : String)
  | CreateDBSnapshot (dbInstanceIdentifier dbSnapshotIdentifier : String)
      (tags : List (String × String))
  | CreateDBClusterSnapshot (dbClusterIdentifier dbClusterSnapshotIdentifier : String)
      (tags : List (String × String))
  | ListBuckets
  | ListObjectsV2 (bucket pfx : String) (maxKeys : Int)
  | PutObject (bucket key : String) (metadata : List (String × String))
  | UploadLargeFile (file : Option String) (content : String) (objectKey : String)
  | CreateTemp (dir pattern : String)
  | Remove (name : String)
  | NewTimer (deadline : Time)
  | Every (start : Time) (interval : Int)
  | Cancel
  | Sleep (d : Int)
  deriving DecidableEq, Repr

/-- The answers of the outside world.  Every oracle sees the requests made so
far. -/
structure Env where
  /-- The readings of the wall clock (`time.Now()`), in order. -/
  now : Nat → Time
  /-- The environment variables (`os.LookupEnv`). -/
  lookupEnv : String → Option String
  /-- The page of log file names and the marker of `DescribeDBLogFiles`. -/
  describeDBLogFiles : List Event → String → String → Except String (List String × Option String)
  /-- The data and the marker of `DownloadDBLogFilePortion`. -/
  downloadDBLogFilePortion :
    List Event → String → String → String → Int → Except String (String × Option String)
  /-- The bucket names of `ListBuckets`. -/
  listBuckets : List Event → Except String (List String)
  /-- The number of objects in the answer of `ListObjectsV2`. -/
  listObjectsV2 : List Event → String → String → Int → Except String Nat
  /-- The error of `PutObject`. -/
  putObject : List Event → String → String → List (String × String) → Option String
  /-- The error of `UploadLargeFile`. -/
  uploadLargeFile : List Event → Option String → String → String → Option String
  /-- The random end of the name that `os.CreateTemp` picks. -/
  createTemp : List Event → String → String → Except String String
  /-- The error of a write to a local file. -/
  writeString : List Event → String → String → Option String
  /-- The error of `file.Stat()`. -/
  stat : List Event → String → Option String
  /-- The ticks that `kronika.Every` delivers until the context is cancelled. -/
  every : List Event → Time → Int → Time → List Time
  /-- The instances of `DescribeDBInstances`: for each, its cluster identifier
  if it has one. -/
  describeDBInstances : List Event → String → Except String (List (Option String))
  /-- The error of `CreateDBSnapshot`. -/
  createDBSnapshot : List Event → String → String → List (String × String) → Option String
  /-- The error of `CreateDBClusterSnapshot`. -/
  createDBClusterSnapshot :
    List Event → String → String → List (String × String) → Option String
  /-- The bytes that `rand.Read` delivers for a buffer of the given length. -/
  randRead : Nat → Except String (List Nat)

/-- The mutable state of a run: the requests made so far, the number of clock
readings, the package variables, the local temp files and the counters. -/
structure World where
  trace : List Event
  clock : Nat
  /-- The package variable `folderExists` of `aws`. -/
  folderExists : Bool
  /-- The package variable `intervalLogSync` of `aws`. -/
  intervalLogSync : Int
  /-- The local files that exist: name and content. -/
  files : List (String × String)
  /-- The counter `rdsrecorder_downloaded_logs_total`. -/
  downloadedLogsTotal : Nat
  /-- The counter `rdsrecorder_uploaded_s3_logs_total`. -/
  uploadedS3LogsTotal : Nat
  /-- The counter `rdsrecorder_uploaded_s3_size_logs_total`, in units of
  1/1048576 megabyte: the sum of the byte sizes handed to
  `IncrementSizeUploadedLogs` (floating-point rounding is not modelled). -/
  sizeUploadedLogsBytes : Nat
  deriving DecidableEq, Repr

/-- The state at process start. -/
def World.init : World :=
  { trace := [], clock := 0, folderExists := false, intervalLogSync := 1 * Hour,
    files := [], downloadedLogsTotal := 0, uploadedS3LogsTotal := 0,
    sizeUploadedLogsBytes := 0 }

/-- Records a request. -/
def World.emit (w : World) (e : Event) : World := { w with trace := w.trace ++ [e] }

/-- The content of a local file (empty when there is no such file). -/
def World.content (w : World) (name : String) : String :=
  match w.files.find? (fun f => f.1 == name) with
  | some f => f.2
  | none => ""

/-- Appends `data` to the local file `name`. -/
def World.append (w : World) (name data : String) : World :=
  { w with files := w.files.map (fun f => if f.1 == name then (f.1, f.2 ++ data) else f) }

/-- Go `CurrentTime(amountToAdd...)`: a reading of the clock, in UTC, plus the
given durations. -/
def CurrentTime (env : Env) (amountToAdd : List Int) (w : World) : Time × World :=
  let c := (env.now w.clock).UTC
  (amountToAdd.foldl (fun c a => c.Add a) c, { w with clock := w.clock + 1 })

/-- The constant `daysLogRetention`. -/
def daysLogRetention : Int := 7

/-- Go `Validate7DaysInterval(startAt)`. -/
def Validate7DaysInterval (env : Env) (startAt : Time) (w : World) : Option String × World :=
  let (interval, w) := CurrentTime env [(-1 * daysLogRetention * 24) * Hour] w
  if startAt.After interval || startAt.Equal interval then (none, w)
  else
    (some ("startup is not within the 7 day retention interval, start: " ++ startAt.String
      ++ ", interval: " ++ interval.String), w)

/-- A local file handle (`*os.File`): the name of the file. -/
structure File where
  name : String
  deriving DecidableEq, Repr

/-- Go `CleanTmpFile(f)`: closes and removes the file, if there is one. -/
def CleanTmpFile (f : Option File) (w : World) : World :=
  match f with
  | none => w
  | some f =>
    { (w.emit (Event.Remove f.name)) with files := w.files.filter (fun g => g.1 != f.name) }

/-! ## Package `metrics` -/

/-- The constant `megabyte`. -/
def megabyte : Nat := 1024 * 1024

/-- Go `IncrementDownloadedLogs()`. -/
def IncrementDownloadedLogs (w : World) : World :=
  { w with downloadedLogsTotal := w.downloadedLogsTotal + 1 }

/-- Go `IncrementUploadedLogs()`. -/
def IncrementUploadedLogs (w : World) : World :=
  { w with uploadedS3LogsTotal := w.uploadedS3LogsTotal + 1 }

/-- Go `IncrementSizeUploadedLogs(sizeBytes)`: adds `sizeBytes / megabyte` to
the counter, that is `sizeBytes` units of 1/1048576 megabyte. -/
def IncrementSizeUploadedLogs (sizeBytes : Nat) (w : World) : World :=
  { w with sizeUploadedLogsBytes := w.sizeUploadedLogsBytes + sizeBytes }

/-- The value of `rdsrecorder_uploaded_s3_size_logs_total`, in megabytes. -/
def World.sizeUploadedLogsTotal (w : World) : ℚ := (w.sizeUploadedLogsBytes : ℚ) / megabyte

/-! ## Package `aws` -/

/-- An `RDSClient`: the context it carries. -/
structure RDSClient where
  ctx : Context
  deriving DecidableEq, Repr

/-- An `S3BucketClient`: the context it carries and the bucket name. -/
structure S3BucketClient where
  ctx : Context
  bucketName : String
  deriving DecidableEq, Repr

/-- The name of the environment variable `BucketEnvVar`. -/
def BucketEnvVar : String := "AWS_S3_BUCKET_NAME"

/-- Go `CreateRDSClient(ctx, cfg)`. -/
def CreateRDSClient (ctx : Context) : RDSClient := ⟨ctx⟩

/-- Go `CreateS3Client(ctx, cfg, bucketName)`. -/
def CreateS3Client (env : Env) (ctx : Context) (bucketName : String) : S3BucketClient :=
  ⟨ctx,
    match env.lookupEnv BucketEnvVar with
    | some envName => if bucketName = "" then envName else bucketName
    | none => bucketName⟩

/-- Go `VerifyBucket(client)`. -/
def VerifyBucket (env : Env) (client : S3BucketClient) (w : World) : Bool × World :=
  let buckets := env.listBuckets w.trace
  let w := w.emit Event.ListBuckets
  match buckets with
  | .error _ => (false, w)
  | .ok names => (names.any (fun b => client.bucketName == b), w)

/-- Go `verifyBucketFolder(client, folder)`. -/
def verifyBucketFolder (env : Env) (client : S3BucketClient) (folder : String) (w : World) :
    Bool × World :=
  if w.folderExists then (w.folderExists, w)
  else
    let r := env.listObjectsV2 w.trace client.bucketName (folder ++ "/") 1
    let w := w.emit (Event.ListObjectsV2 client.bucketName (folder ++ "/") 1)
    let found :=
      match r with
      | .error _ => false
      | .ok n => if n = 0 then false else true
    (found, { w with folderExists := found })

/-- Go `createBucketFolder(client, folder, dbIdentifier)`. -/
def createBucketFolder (env : Env) (client : S3BucketClient) (folder dbIdentifier : String)
    (w : World) : Option String × World :=
  let err := env.putObject w.trace client.bucketName (folder ++ "/")
    [("db-identifier", dbIdentifier)]
  (err, w.emit (Event.PutObject client.bucketName (folder ++ "/")
    [("db-identifier", dbIdentifier)]))

/-- Go `formatFilePath(path, filename)`. -/
def formatFilePath (path filename : String) : String := path ++ "/" ++ filename

/-- The method `UploadLargeFile(file, objectKey)` of the client. -/
def UploadLargeFile (env : Env) (targetFile : Option File) (objectKey : String) (w : World) :
    Option String × World :=
  let name := targetFile.map (fun f => f.name)
  let content := match targetFile with
    | some f => w.content f.name
    | none => ""
  (env.uploadLargeFile w.trace name content objectKey,
    w.emit (Event.UploadLargeFile name content objectKey))

/-- Go `PushLogToBucket(client, targetFile, fileName, dbIdentifier)`. -/
def PushLogToBucket (env : Env) (client : S3BucketClient) (targetFile : Option File)
    (fileName dbIdentifier : String) (w : World) : Option String × World :=
  let folder := GetProcessID client.ctx
  let (exist, w) := verifyBucketFolder env client folder w
  if !exist then
    match createBucketFolder env client folder dbIdentifier w with
    | (some err, w) => (some err, w)
    | (none, w) => UploadLargeFile env targetFile (formatFilePath folder fileName) w
  else UploadLargeFile env targetFile (formatFilePath folder fileName) w

/-- The constant `startToken`. -/
def startToken : String := "0"

/-- The pattern `^.+\.csv` of `describeLogFiles`, without its anchor. -/
def csvPattern : List Piece := [anyPlus, lit '.', lit 'c', lit 's', lit 'v']

/-- The loop of `describeLogFiles`; `none` when the fuel runs out before the
loop ends. -/
def describeLogFilesLoop (env : Env) (dbIdentifier : String) :
    Nat → String → List String → World → Option ((List String × Option String) × World)
  | 0, _, _, _ => none
  | fuel + 1, currentToken, files, w =>
    let r := env.describeDBLogFiles w.trace dbIdentifier currentToken
    let w := w.emit (Event.DescribeDBLogFiles dbIdentifier currentToken)
    match r with
    | .error err => some (([], some err), w)
    | .ok (names, marker) =>
      let files := files ++ names.filter (fun n => MatchStringAtStart csvPattern n.data)
      match marker with
      | none => some ((files, none), w)
      | some m =>
        if m = currentToken then some ((files, none), w)
        else describeLogFilesLoop env dbIdentifier fuel m files w

/-- Go `describeLogFiles(client, dbIdentifier)`. -/
def describeLogFiles (env : Env) (fuel : Nat) (_client : RDSClient) (dbIdentifier : String)
    (w : World) : Option ((List String × Option String) × World) :=
  describeLogFilesLoop env dbIdentifier fuel startToken [] w

/-- The loop of `downloadLogFile`, returning the error; `none` when the fuel
runs out before the loop ends.  A write through the buffered writer is an
append to the file, or fails as a whole. -/
def downloadLogFileLoop (env : Env) (dbIdentifier logFileName : String) (tmpFile : File) :
    Nat → String → World → Option (Option String × World)
  | 0, _, _ => none
  | fuel + 1, currentToken, w =>
    let r := env.downloadDBLogFilePortion w.trace dbIdentifier logFileName currentToken 1450
    let w := w.emit (Event.DownloadDBLogFilePortion dbIdentifier logFileName currentToken 1450)
    match r with
    | .error err => some (some err, w)
    | .ok (data, marker) =>
      match env.writeString w.trace tmpFile.name data with
      | some err => some (some err, w)
      | none =>
        let w := w.append tmpFile.name data
        match marker with
        | none => some (none, w)
        | some m =>
          if m = currentToken then some (none, w)
          else downloadLogFileLoop env dbIdentifier logFileName tmpFile fuel m w

/-- The function `prefixAndSuffix` of package `os`: the pattern split at its
last `*`, and the pattern itself with an empty end when it has none; `none`
when the pattern has a path separator. -/
def prefixAndSuffix (pattern : List Char) : Option (List Char × List Char) :=
  if pattern.any (fun c => c == '/') then none
  else if pattern.any (fun c => c == '*') then
    some (((pattern.reverse.dropWhile (fun c => c != '*')).drop 1).reverse,
      (pattern.reverse.takeWhile (fun c => c != '*')).reverse)
  else some (pattern, [])

/-- Go `os.CreateTemp(dir, pattern)` for a directory given without a trailing
separator: the new, empty file is named by the start of the pattern, a random
string and the end of the pattern. -/
def CreateTemp (env : Env) (dir pattern : String) (w : World) : Except String File × World :=
  let r := env.createTemp w.trace dir pattern
  let w := w.emit (Event.CreateTemp dir pattern)
  match prefixAndSuffix pattern.data with
  | none => (.error ("createtemp " ++ pattern ++ ": pattern contains path separator"), w)
  | some (pfx, sfx) =>
    match r with
    | .error err => (.error err, w)
    | .ok random =>
      let tmpFile : File := ⟨dir ++ "/" ++ String.mk pfx ++ random ++ String.mk sfx⟩
      (.ok tmpFile, { w with files := w.files ++ [(tmpFile.name, "")] })

/-- Go `downloadLogFile(client, dbIdentifier, logFileName)`. -/
def downloadLogFile (env : Env) (fuel : Nat) (client : RDSClient)
    (dbIdentifier logFileName : String) (w : World) :
    Option ((Option File × Option String) × World) :=
  match CreateTemp env "/var/tmp" ("rds-log-" ++ GetProcessID client.ctx ++ "-") w with
  | (.error err, w) => some ((none, some err), w)
  | (.ok tmpFile, w) =>
    match downloadLogFileLoop env dbIdentifier logFileName tmpFile fuel startToken w with
    | none => none
    | some (err, w) => some ((some tmpFile, err), w)

/-- The block of `startSyncLogProcess` that counts a downloaded file and its
size when `file.Stat()` succeeds. -/
def recordDownload (env : Env) (file : File) (w : World) : World :=
  match env.stat w.trace file.name with
  | none =>
    IncrementSizeUploadedLogs (w.content file.name).utf8ByteSize (IncrementDownloadedLogs w)
  | some _ => w

/-- Go `startSyncLogProcess(rdsClient, s3Client, dbIdentifier, targetFile)`;
`none` when the download runs out of fuel (a nil file without an error, which
`downloadLogFile` never returns, would make `file.Name()` panic). -/
def startSyncLogProcess (env : Env) (fuel : Nat) (rdsClient : RDSClient)
    (s3Client : S3BucketClient) (dbIdentifier targetFile : String) (w : World) : Option World :=
  match FormatFileNameForS3 rdsClient.ctx targetFile with
  | none => none
  | some (_, some _) => some w
  | some (s3FileName, none) =>
    match downloadLogFile env fuel rdsClient dbIdentifier targetFile w with
    | none => none
    | some ((file, some _), w) => some (CleanTmpFile file w)
    | some ((none, none), _) => none
    | some ((some file, none), w) =>
      let w := recordDownload env file w
      match PushLogToBucket env s3Client (some file) s3FileName dbIdentifier w with
      | (some _, w) => some (CleanTmpFile (some file) w)
      | (none, w) => some (CleanTmpFile (some file) (IncrementUploadedLogs w))

/-- The rounding of the start of `DownloadLogsInterval`: the start itself
when the interval is strict, else the instant of its date and hour. -/
def roundStart (strictInterval : Bool) (t : Time) : Time :=
  if strictInterval then t
  else Date t.Year t.Month t.Day t.Hour 0 0 0 t.Location

/-- The filter loop of `DownloadLogsInterval` over the listed files,
`filteredLogs` being the files kept so far; `none` for a run-time panic. -/
def filterLogs (start finish : Time) : List String → List String → Option (List String)
  | [], filteredLogs => some filteredLogs
  | file :: rest, filteredLogs =>
    match FindDateTimeFromLogFile file with
    | none => none
    | some (_, some _) => filterLogs start finish rest filteredLogs
    | some (dateFile, none) =>
      if TimeBetween dateFile start finish then
        filterLogs start finish rest (filteredLogs ++ [file])
      else filterLogs start finish rest filteredLogs

/-- The workers of `DownloadLogsInterval`, one `startSyncLogProcess` for each
file of the list, run one after the other in the order of the list (one of
the schedules of the Go program, which runs up to five at a time). -/
def runWorkers (env : Env) (fuel : Nat) (rdsClient : RDSClient) (s3Client : S3BucketClient)
    (dbIdentifier : String) : List String → World → Option World
  | [], w => some w
  | name :: rest, w =>
    match startSyncLogProcess env fuel rdsClient s3Client dbIdentifier name w with
    | none => none
    | some w => runWorkers env fuel rdsClient s3Client dbIdentifier rest w

/-- Go `DownloadLogsInterval(rdsClient, s3Client, dbIdentifier, strictInterval,
start, finish)`. -/
def DownloadLogsInterval (env : Env) (fuel : Nat) (rdsClient : RDSClient)
    (s3Client : S3BucketClient) (dbIdentifier : String) (strictInterval : Bool)
    (start finish : Time) (w : World) : Option (Option String × World) :=
  match describeLogFiles env fuel rdsClient dbIdentifier w with
  | none => none
  | some ((_, some err), w) => some (some err, w)
  | some ((logFiles, none), w) =>
    let start := roundStart strictInterval start
    match filterLogs start finish logFiles [] with
    | none => none
    | some filteredLogs =>
      if filteredLogs.length = 0 then some (none, w)
      else
        match runWorkers env fuel rdsClient s3Client dbIdentifier filteredLogs w with
        | none => none
        | some w => some (none, w)

/-! The loop of `DownloadLogsInterval` that starts the workers, and the
workers, run side by side.  A state of this pool, and the steps by which the
Go scheduler moves it, one goroutine at a time. -/

/-- The constant `parallel` of `DownloadLogsInterval`. -/
def parallel : Nat := 5

/-- A state of the worker pool of `DownloadLogsInterval`. -/
structure WorkerPool where
  /-- The number of tokens in the channel `maxParallel`. -/
  maxParallel : Nat
  /-- The files of `filteredLogs` that the loop has not reached yet. -/
  filteredLogs : List String
  /-- The file for which the loop has received a token and has not yet
  started the goroutine. -/
  received : Option String
  /-- The goroutines that are in `startSyncLogProcess`, by their file. -/
  running : List String
  /-- The goroutines that have left `startSyncLogProcess` and have not yet
  called `wg.Done()`. -/
  returned : List String
  /-- The goroutines that have called `wg.Done()` and have not yet sent their
  token to `maxParallel`. -/
  sending : List String
  /-- The counter of the wait group `wg`. -/
  wg : Nat
  deriving DecidableEq, Repr

/-- A step of the worker pool. -/
inductive PoolStep where
  /-- The loop receives a token: `<-maxParallel`. -/
  | receive
  /-- The loop starts the goroutine of the file: `wg.Add(1)`, `go func`. -/
  | spawn
  /-- The goroutine at position `i` of the running ones returns from
  `startSyncLogProcess`. -/
  | finish (i : Nat)
  /-- The goroutine at position `i` of the returned ones calls `wg.Done()`. -/
  | done (i : Nat)
  /-- The goroutine at position `i` of the sending ones sends its token:
  `maxParallel <- struct{}{}`. -/
  | send (i : Nat)
  deriving DecidableEq, Repr

/-- The pool when the loop over `filteredLogs` begins: the channel
`maxParallel`, of capacity `parallel`, has been filled. -/
def WorkerPool.start (filteredLogs : List String) : WorkerPool :=
  { maxParallel := parallel, filteredLogs := filteredLogs, received := none, running := [],
    returned := [], sending := [], wg := 0 }

/-- One step of the pool; `none` when the step cannot be taken in this state
(a receive on the empty channel and a send on the full channel block). -/
def WorkerPool.step (p : WorkerPool) : PoolStep → Option WorkerPool
  | .receive =>
    match p.received, p.filteredLogs with
    | none, fileName :: rest =>
      if p.maxParallel = 0 then none
      else some { p with maxParallel := p.maxParallel - 1, filteredLogs := rest,
                         received := some fileName }
    | _, _ => none
  | .spawn =>
    match p.received with
    | some fileName =>
      some { p with received := none, running := p.running ++ [fileName], wg := p.wg + 1 }
    | none => none
  | .finish i =>
    match p.running[i]? with
    | some fileName =>
      some { p with running := p.running.eraseIdx i, returned := p.returned ++ [fileName] }
    | none => none
  | .done i =>
    match p.returned[i]? with
    | some fileName =>
      some { p with returned := p.returned.eraseIdx i, sending := p.sending ++ [fileName],
                    wg := p.wg - 1 }
    | none => none
  | .send i =>
    match p.sending[i]? with
    | some _ =>
      if p.maxParallel < parallel then
        some { p with sending := p.sending.eraseIdx i, maxParallel := p.maxParallel + 1 }
      else none
    | none => none

/-- A sequence of steps of the pool, from the left. -/
def WorkerPool.run : List PoolStep → WorkerPool → Option WorkerPool
  | [], p => some p
  | s :: rest, p =>
    match p.step s with
    | none => none
    | some q => WorkerPool.run rest q

/-- Go `GetIntervalSync()`. -/
def GetIntervalSync (w : World) : Int := w.intervalLogSync

/-- The body of the loop of `StreamLogFiles` for the ticks of the list, one
after the other. -/
def runTicks (env : Env) (fuel : Nat) (rdsClient : RDSClient) (s3Client : S3BucketClient)
    (dbIdentifier : String) (endAt : Time) : List Time → World → Option World
  | [], w => some w
  | t :: rest, w =>
    match DownloadLogsInterval env fuel rdsClient s3Client dbIdentifier true
        (t.Add (-1 * w.intervalLogSync)) t w with
    | none => none
    | some (_, w) =>
      let w := if t.After endAt then w.emit Event.Cancel else w
      runTicks env fuel rdsClient s3Client dbIdentifier endAt rest w

/-- Go `StreamLogFiles(rdsClient, s3Client, dbIdentifier, startAt, endAt)`. -/
def StreamLogFiles (env : Env) (fuel : Nat) (rdsClient : RDSClient)
    (s3Client : S3BucketClient) (dbIdentifier : String) (startAt endAt : Time) (w : World) :
    Option World :=
  let startAt := startAt.Add (1 * Second)
  let endAt := endAt.Add (2 * Second)
  let w := w.emit (Event.NewTimer endAt)
  let ticks := env.every w.trace startAt w.intervalLogSync endAt
  let w := w.emit (Event.Every startAt w.intervalLogSync)
  runTicks env fuel rdsClient s3Client dbIdentifier endAt ticks w

/-- Go `belongsToACluster(client, dbIdentifier)`. -/
def belongsToACluster (env : Env) (_client : RDSClient) (dbIdentifier : String) (w : World) :
    (String × Bool) × World :=
  let r := env.describeDBInstances w.trace dbIdentifier
  let w := w.emit (Event.DescribeDBInstances dbIdentifier)
  match r with
  | .error _ => (("", false), w)
  | .ok [] => (("", false), w)
  | .ok (some dbCLI :: _) => ((dbCLI, true), w)
  | .ok (none :: _) => (("", false), w)

/-- Go `buildSnapshotIdentifier(ctx)`. -/
def buildSnapshotIdentifier (ctx : Context) : String :=
  "pgreplay-" ++ (match ctx.pid with
    | some p => p
    | none => "%!s(<nil>)")

/-- Go `buildTagsSnapshot()`. -/
def buildTagsSnapshot : List (String × String) := [("app", "rdsrecorder")]

/-- Go `time.Until(t)`, with the clock reading it takes. -/
def Until (env : Env) (t : Time) (w : World) : Int × World :=
  (t.Sub (env.now w.clock), { w with clock := w.clock + 1 })

/-- Go `CreateDBSnapshot(client, dbName, startAt)`. -/
def CreateDBSnapshot (env : Env) (client : RDSClient) (dbName : String) (startAt : Time)
    (w : World) : Option String × World :=
  let (d, w) := Until env startAt w
  let w := w.emit (Event.Sleep d)
  match belongsToACluster env client dbName w with
  | ((dbClusterIdentifier, true), w) =>
    let err := env.createDBClusterSnapshot w.trace dbClusterIdentifier
      (buildSnapshotIdentifier client.ctx) buildTagsSnapshot
    (err, w.emit (Event.CreateDBClusterSnapshot dbClusterIdentifier
      (buildSnapshotIdentifier client.ctx) buildTagsSnapshot))
  | ((_, false), w) =>
    let err := env.createDBSnapshot w.trace dbName (buildSnapshotIdentifier client.ctx)
      buildTagsSnapshot
    (err, w.emit (Event.CreateDBSnapshot dbName (buildSnapshotIdentifier client.ctx)
      buildTagsSnapshot))

/-! ## Package `process` -/

/-- The two lower-case hexadecimal digits of a byte. -/
def hexByte (b : Nat) : List Char :=
  [Nat.digitChar (b / 16 % 16), Nat.digitChar (b % 16)]

/-- Go `hex.EncodeToString(bytes)`. -/
def hexEncodeToString (bytes : List Nat) : String :=
  String.mk (bytes.flatMap hexByte)

/-- Go `CreateContextWithPid(ctx)`: no context comes with an error. -/
def CreateContextWithPid (env : Env) (ctx : Context) : Option Context × Option String :=
  match env.lookupEnv "rdsrecorder_PROCESS_ID" with
  | some pid => (some { ctx with pid := some pid, pidExternal := some true }, none)
  | none =>
    match env.randRead 12 with
    | .error err => (none, some err)
    | .ok bytes => (some { ctx with pid := some (hexEncodeToString bytes) }, none)

/-- Go `parseTimestamp(in)`. -/
def parseTimestamp (input : String) : Time × Option String :=
  if input = "" then (Time.zero, none)
  else
    match Parse input with
    | (_, some err) =>
      (Time.zero,
        some ("must be a valid timestamp (" ++ TimeStampFormat ++ "), error: " ++ err))
    | (t, none) => (t, none)

/-- Go `syncLogs(ctx, cfg, dbIdentifier, startAt, endAt, bucketName)`.  In the
last case the interval download and the streamer, which the Go program runs
side by side, run one after the other. -/
def syncLogs (env : Env) (fuel : Nat) (ctx : Context)
    (dbIdentifier startAt endAt bucketName : String) (w : World) :
    Option (Option String × World) :=
  let (currentT, w) := CurrentTime env [] w
  let (start, err) := parseTimestamp startAt
  if err ≠ none ∨ start.IsZero = true then some (err, w)
  else
    let (finish, err) := parseTimestamp endAt
    if err ≠ none ∨ finish.IsZero = true then some (err, w)
    else
      match ValidateStartFinishInterval start finish with
      | some err => some (some err, w)
      | none =>
        match Validate7DaysInterval env start w with
        | (some err, w) => some (some err, w)
        | (none, w) =>
          match ValidateTimeZone [start, finish] with
          | some err => some (some err, w)
          | none =>
            let rdsClient := CreateRDSClient ctx
            let s3Client := CreateS3Client env ctx bucketName
            let subStart := start.Sub currentT
            let subFinish := finish.Sub currentT
            match VerifyBucket env s3Client w with
            | (false, w) => some (some ("no bucket found with name: " ++ bucketName), w)
            | (true, w) =>
              if subStart ≥ 0 then
                match StreamLogFiles env fuel rdsClient s3Client dbIdentifier start finish w with
                | none => none
                | some w => some (none, w)
              else if subFinish ≤ 0 then
                DownloadLogsInterval env fuel rdsClient s3Client dbIdentifier true start finish w
              else
                let (startTime, w) := CurrentTime env [] w
                match DownloadLogsInterval env fuel rdsClient s3Client dbIdentifier false
                    (start.Add (-1 * GetIntervalSync w)) (startTime.Add (-1 * GetIntervalSync w))
                    w with
                | none => none
                | some (err, w) =>
                  match StreamLogFiles env fuel rdsClient s3Client dbIdentifier startTime
                      finish w with
                  | none => none
                  | some w => some (err, w)

/-- Go `createSnapshot(ctx, cfg, dbIdentifier, startAt)`. -/
def createSnapshot (env : Env) (ctx : Context) (dbIdentifier startAt : String) (w : World) :
    Option String × World :=
  let (start, err) := parseTimestamp startAt
  if err ≠ none then (err, w)
  else
    let (start, w) := if start.IsZero = true then CurrentTime env [] w else (start, w)
    let (d, w) := Until env start w
    if d < 0 then (some "unable to create a snapshot from past data", w)
    else
      match ValidateTimeZone [start] with
      | some err => (some err, w)
      | none => CreateDBSnapshot env (CreateRDSClient ctx) dbIdentifier start w

/-- The snapshot branch of `StartSyncProcess`. -/
def snapshotBranch (env : Env) (ctx : Context) (dbIdentifier startAt : String) (w : World) :
    World :=
  if IsRecovery ctx = true then w
  else (createSnapshot env ctx dbIdentifier startAt w).2

/-- The log branch of `StartSyncProcess`, with the error it leaves in `err`. -/
def logBranch (env : Env) (fuel : Nat) (ctx : Context)
    (dbIdentifier startAt endAt bucketName : String) (w : World) :
    Option (Option String × World) :=
  if IsRecovery ctx = true then some (none, w)
  else syncLogs env fuel ctx dbIdentifier startAt endAt bucketName w

/-- Go `StartSyncProcess(ctx, cfg, dbIdentifier, startAt, endAt, bucketName)`.
Of the two branches, which the Go program runs side by side and both of
which it awaits, the snapshot branch runs first here. -/
def StartSyncProcess (env : Env) (fuel : Nat) (ctx : Context)
    (dbIdentifier startAt endAt bucketName : String) (w : World) :
    Option (Option String × World) :=
  if (env.lookupEnv BucketEnvVar).isNone = true ∧ bucketName = "" then
    some (some "you must provide the bucket identifier", w)
  else
    let w := snapshotBranch env ctx dbIdentifier startAt w
    match logBranch env fuel ctx dbIdentifier startAt endAt bucketName w with
    | none => none
    | some (some err, w) =>
      some (some ("the process finished with an error, message_error: '" ++ err ++ "'"), w)
    | some (none, w) => some (none, w)

/-! ## Sample environments -/

/-- An outside world without failures: the database service lists `names` on
a single page and answers every download with the single page
`Hello World!`; the bucket `bucket` exists; a listing of the objects of a
folder reports one object exactly when a `PutObject` was made before; the
clock stands at `now`; the ticker delivers `ticks`; the database is a single
instance outside any cluster, and snapshots succeed. -/
def sampleEnv (names : List String) (bucket : String) (now : Time) (ticks : List Time) : Env :=
  { now := fun _ => now
    lookupEnv := fun _ => none
    describeDBLogFiles := fun _ _ _ => .ok (names, none)
    downloadDBLogFilePortion := fun _ _ _ _ _ => .ok ("Hello World!", none)
    listBuckets := fun _ => .ok [bucket]
    listObjectsV2 := fun tr _ key _ =>
      .ok (if tr.any (fun e => match e with
        | Event.PutObject _ k _ => k == key
        | _ => false) then 1 else 0)
    putObject := fun _ _ _ _ => none
    uploadLargeFile := fun _ _ _ _ => none
    createTemp := fun tr _ _ => .ok (Nat.repr tr.length)
    writeString := fun _ _ _ => none
    stat := fun _ _ => none
    every := fun _ _ _ _ => ticks
    describeDBInstances := fun _ _ => .ok [none]
    createDBSnapshot := fun _ _ _ _ => none
    createDBClusterSnapshot := fun _ _ _ _ => none
    randRead := fun n => .ok (List.replicate n 171) }

/-- The context of a run with process identifier `A1234ASDF`. -/
def sampleCtx : Context := ⟨some "A1234ASDF", none⟩

/-! ## Notions used to state the properties -/

/-- The instant `t` with the minutes, seconds and nanoseconds of its wall
clock zeroed: `t` rounded down to the hour. -/
def hourFloor (t : Time) : Time :=
  ⟨t.ns - (t.ns + t.loc.offset * 1000000000) % 3600000000000, t.loc⟩

/-- Whether the name of a log file parses and its instant lies in the closed
interval from `start` to `finish`. -/
def inWindow (start finish : Time) (file : String) : Bool :=
  match FindDateTimeFromLogFile file with
  | some (t, none) => decide (start.ns ≤ t.ns ∧ t.ns ≤ finish.ns)
  | _ => false

/-- The files that the interval download is to select, in the words of the
specification: the listed files whose name parses and whose instant lies
between the start, rounded down to the hour unless the interval is strict,
and the finish. -/
def selectedLogs (strictInterval : Bool) (start finish : Time) (logFiles : List String) :
    List String :=
  logFiles.filter (inWindow (if strictInterval then start else hourFloor start) finish)

/-- The number of `PutObject` requests for the key `key` in a trace. -/
def countPutObject (key : String) (trace : List Event) : Nat :=
  (trace.filter (fun e => match e with
    | Event.PutObject _ k _ => k == key
    | _ => false)).length

/-- A sequence of `PushLogToBucket` calls of one client made one after
another, none starting before the one before it has returned, one for each
file name of the list, sharing the state. -/
def pushLogs (env : Env) (client : S3BucketClient) (dbIdentifier : String) :
    List (Option File × String) → World → World
  | [], w => w
  | (targetFile, fileName) :: rest, w =>
    pushLogs env client dbIdentifier rest
      (PushLogToBucket env client targetFile fileName dbIdentifier w).2

/-- The object keys of the `UploadLargeFile` requests of a trace, in order. -/
def uploadKeys (trace : List Event) : List String :=
  trace.filterMap (fun e => match e with
    | Event.UploadLargeFile _ _ k => some k
    | _ => none)

/-- The sample world in which the second and later listings of the objects of
a folder time out. -/
def timeoutEnv : Env :=
  { sampleEnv [] "bucket" Time.zero [] with
    listObjectsV2 := fun tr _ _ _ =>
      if tr.any (fun e => match e with
        | Event.ListObjectsV2 _ _ _ => true
        | _ => false) then .error "request timeout" else .ok 0 }

/-- The sample world whose clock advances by one second at every reading,
from 2024-02-23 12:00:00 UTC. -/
def tickingEnv : Env :=
  { sampleEnv [] "bucket" Time.zero [] with
    now := fun k => (Date 2024 2 23 12 0 0 0 UTC).Add (k * Second) }

/-- The state in which `syncLogs` starts to archive: after the clock reading
on entry, the validations and the bucket check. -/
def checkedWorld (env : Env) (ctx : Context) (bucketName : String) (start : Time) (w : World) :
    World :=
  (VerifyBucket env (CreateS3Client env ctx bucketName)
    (Validate7DaysInterval env start (CurrentTime env [] w).2).2).2

/-- The straddling composition, in the words of the specification, for the
time `now` and from the state `w`: the interval download, not strict, over
`[start - period, now - period]`, and the streamer over `[now, finish]`;
the result is there when both have returned, and the error is that of the
interval download. -/
def straddle (env : Env) (fuel : Nat) (rdsClient : RDSClient) (s3Client : S3BucketClient)
    (dbIdentifier : String) (start finish now : Time) (w : World) :
    Option (Option String × World) :=
  match DownloadLogsInterval env fuel rdsClient s3Client dbIdentifier false
      (start.Add (-1 * w.intervalLogSync)) (now.Add (-1 * w.intervalLogSync)) w with
  | none => none
  | some (err, w) =>
    match StreamLogFiles env fuel rdsClient s3Client dbIdentifier now finish w with
    | none => none
    | some w => some (err, w)

/-- The number of `os.CreateTemp` calls in a trace. -/
def countCreateTemp (trace : List Event) : Nat :=
  (trace.filter (fun e => match e with
    | Event.CreateTemp _ _ => true
    | _ => false)).length

/-- The number of snapshot requests (`CreateDBSnapshot` and
`CreateDBClusterSnapshot`) in a trace. -/
def countSnapshots (trace : List Event) : Nat :=
  (trace.filter (fun e => match e with
    | Event.CreateDBSnapshot _ _ _ => true
    | Event.CreateDBClusterSnapshot _ _ _ => true
    | _ => false)).length

/-- The file names that the provider lists, in the words of the
specification: the names of the pages fetched from the marker `token` on, in
the order of the provider, up to and including the first page whose marker
is absent or equal to the marker sent; `none` when a page request fails or
when `fuel` pages do not reach such a page. -/
def listedNames (env : Env) (dbIdentifier : String) :
    Nat → String → List Event → Option (List String)
  | 0, _, _ => none
  | fuel + 1, token, trace =>
    match env.describeDBLogFiles trace dbIdentifier token with
    | .error _ => none
    | .ok (names, none) => some names
    | .ok (names, some m) =>
      if m = token then some names
      else
        match listedNames env dbIdentifier fuel m
            (trace ++ [Event.DescribeDBLogFiles dbIdentifier token]) with
        | none => none
        | some rest => some (names ++ rest)

/-- The provider's listing stops within `n` requests from the marker `token`:
one of the first `n` responses fails, has no marker, or returns the marker
that was sent with the request. -/
def stopsWithin (env : Env) (dbIdentifier : String) : Nat → String → List Event → Prop
  | 0, _, _ => False
  | n + 1, token, trace =>
    match env.describeDBLogFiles trace dbIdentifier token with
    | .error _ => True
    | .ok (_, none) => True
    | .ok (_, some m) =>
      m = token ∨
        stopsWithin env dbIdentifier n m (trace ++ [Event.DescribeDBLogFiles dbIdentifier token])

/-- The pages of a log file, in the words of the specification: the data of
the pages fetched from the marker `token` on, in the order fetched, up to
and including the first page whose marker is absent or echoes the marker
sent; `none` when a page request fails or when `fuel` pages do not reach
such a page. -/
def fetchedPages (env : Env) (dbIdentifier logFileName : String) :
    Nat → String → List Event → Option (List String)
  | 0, _, _ => none
  | fuel + 1, token, trace =>
    match env.downloadDBLogFilePortion trace dbIdentifier logFileName token 1450 with
    | .error _ => none
    | .ok (data, none) => some [data]
    | .ok (data, some m) =>
      if m = token then some [data]
      else
        match fetchedPages env dbIdentifier logFileName fuel m
            (trace ++ [Event.DownloadDBLogFilePortion dbIdentifier logFileName token 1450]) with
        | none => none
        | some rest => some (data :: rest)

/-- The sample world in which the bucket name comes from the environment
variable `AWS_S3_BUCKET_NAME`, and the account has another bucket only. -/
def envBucketEnv : Env :=
  { sampleEnv [] "another-bucket" (Date 2024 2 23 12 0 0 0 UTC) [] with
    lookupEnv := fun name => if name = BucketEnvVar then some "logs-bucket" else none }

/-- Whether the snapshot branch of a run is to request a snapshot, in the
words of the specification: the run is not a recovery, the start string
parses, and the start instant (the time read when the string is empty) is
not before the time at which the branch checks it. -/
def snapshotDue (env : Env) (ctx : Context) (startAt : String) (w : World) : Bool :=
  !IsRecovery ctx && (parseTimestamp startAt).2.isNone &&
    (if (parseTimestamp startAt).1.IsZero = true then
      decide (0 ≤ (env.now w.clock).UTC.Sub (env.now (w.clock + 1)))
    else decide (0 ≤ (parseTimestamp startAt).1.Sub (env.now w.clock)))

/-- The listing requests that are to be sent from the marker `token` on, in
the words of the specification: the marker with the first request, each
returned marker with the next one, none after the first response that fails,
has no marker or returns the marker that was sent (at most `n` requests). -/
def describeRequests (env : Env) (dbIdentifier : String) : Nat → String → List Event → List Event
  | 0, _, _ => []
  | n + 1, token, trace =>
    Event.DescribeDBLogFiles dbIdentifier token ::
      match env.describeDBLogFiles trace dbIdentifier token with
      | .ok (_, some m) =>
        if m = token then []
        else describeRequests env dbIdentifier n m
          (trace ++ [Event.DescribeDBLogFiles dbIdentifier token])
      | _ => []

/-- The sample world whose database service answers every listing request
with the same marker. -/
def sameMarkerEnv : Env :=
  { sampleEnv [] "bucket" Time.zero [] with
    describeDBLogFiles := fun _ _ _ => .ok (["test_file_1.csv"], some "next-marker") }

/-- The sample world whose log files have two pages: the first comes with a
marker, the second returns that marker again. -/
def twoPageEnv : Env :=
  { sampleEnv ["error/postgresql.log.2024-02-23-0830.csv"] "bucket"
      (Date 2024 2 23 12 0 0 0 UTC) [] with
    downloadDBLogFilePortion := fun _ _ _ marker _ =>
      if marker = "0" then .ok ("Hello ", some "next-token")
      else .ok ("World!", some "next-token") }

/-- The sample world with two log files in which the request for the second
page of a log file fails. -/
def brokenDownloadEnv : Env :=
  { sampleEnv ["error/postgresql.log.2024-02-23-0830.csv",
        "error/postgresql.log.2024-02-23-0900.csv"] "bucket"
      (Date 2024 2 23 12 0 0 0 UTC) [] with
    downloadDBLogFilePortion := fun _ _ _ marker _ =>
      if marker = "0" then .ok ("Hello ", some "next-token")
      else .error "connection reset" }

/-- The three counters of package `metrics`: downloaded files, uploaded
files, and uploaded size in bytes. -/
def World.counters (w : World) : Nat × Nat × Nat :=
  (w.downloadedLogsTotal, w.uploadedS3LogsTotal, w.sizeUploadedLogsBytes)

/-- The number of bytes uploaded to the object store, in the words of the
specification: the sum of the sizes of the contents of the `UploadLargeFile`
requests of `trace` that succeeded, `pre` being the requests made before
those of `trace`. -/
def uploadedBytes (env : Env) : List Event → List Event → Nat
  | _, [] => 0
  | pre, e :: rest =>
    (match e with
      | Event.UploadLargeFile file content objectKey =>
        if env.uploadLargeFile pre file content objectKey = none then content.utf8ByteSize else 0
      | _ => 0) + uploadedBytes env (pre ++ [e]) rest

/-- The number of bytes that one run of `startSyncLogProcess` is to add to
the size counter: the size of the downloaded file when the name parses, the
download succeeds and `file.Stat()` succeeds, whatever becomes of the upload;
zero otherwise. -/
def recordedBytes (env : Env) (fuel : Nat) (rdsClient : RDSClient)
    (dbIdentifier targetFile : String) (w : World) : Nat :=
  match FormatFileNameForS3 rdsClient.ctx targetFile with
  | some (_, none) =>
    match downloadLogFile env fuel rdsClient dbIdentifier targetFile w with
    | some ((some file, none), w1) =>
      if env.stat w1.trace file.name = none then (w1.content file.name).utf8ByteSize else 0
    | _ => 0
  | _ => 0

/-- The sum of `recordedBytes` over a sequence of runs of
`startSyncLogProcess`, one for each file of the list, each run starting in
the state that the one before left. -/
def recordedBytesOfRuns (env : Env) (fuel : Nat) (rdsClient : RDSClient)
    (s3Client : S3BucketClient) (dbIdentifier : String) : List String → World → Nat
  | [], _ => 0
  | name :: rest, w =>
    recordedBytes env fuel rdsClient dbIdentifier name w +
      match startSyncLogProcess env fuel rdsClient s3Client dbIdentifier name w with
      | some w' => recordedBytesOfRuns env fuel rdsClient s3Client dbIdentifier rest w'
      | none => 0

/-- The work of the streamer on the ticks of a list, in the words of the
specification: for every tick `t`, one after the other, a call of the
Interval Downloader with a strict interval, the start `t - period` and the
finish `t`, then a request for cancellation when `t` is after `deadline`. -/
def streamTicks (env : Env) (fuel : Nat) (rdsClient : RDSClient) (s3Client : S3BucketClient)
    (dbIdentifier : String) (period : Int) (deadline : Time) : List Time → World → Option World
  | [], w => some w
  | t :: rest, w =>
    match DownloadLogsInterval env fuel rdsClient s3Client dbIdentifier true
        ⟨t.ns - period, t.loc⟩ t w with
    | none => none
    | some (_, w) =>
      streamTicks env fuel rdsClient s3Client dbIdentifier period deadline rest
        (if deadline.ns < t.ns then w.emit Event.Cancel else w)

/-- The sample world in which every upload fails. -/
def failedUploadEnv : Env :=
  { sampleEnv [] "bucket" (Date 2024 2 23 12 0 0 0 UTC) [] with
    uploadLargeFile := fun _ _ _ _ => some "unable to upload" }

/-- The sample world whose database instance belongs to the cluster
`cluster-1`. -/
def clusterEnv : Env :=
  { sampleEnv [] "bucket" (Date 2024 2 23 12 0 0 0 UTC) [] with
    describeDBInstances := fun _ _ => .ok [some "cluster-1"] }

/-- The sample world at 12:00:59.5 with one log file of 11:01, in which the
ticker delivers one tick, at the start of its schedule. -/
def handoffEnv : Env :=
  { sampleEnv ["error/postgresql.log.2024-02-23-1101.csv"] "bucket"
      (Date 2024 2 23 12 0 59 500000000 UTC) [] with
    every := fun _ start _ _ => [start] }

/-- The sample world in which the process identifier comes from the
environment variable `rdsrecorder_PROCESS_ID`. -/
def recoveryEnv : Env :=
  { sampleEnv [] "bucket" (Date 2024 2 23 12 0 0 0 UTC) [] with
    lookupEnv := fun name =>
      if name = "rdsrecorder_PROCESS_ID" then some "A1234ASDF"
      else if name = BucketEnvVar then some "bucket" else none }

/-! ### Overlapping `PushLogToBucket` calls

The workers of `DownloadLogsInterval` run `startSyncLogProcess`, and so
`PushLogToBucket`, in up to five goroutines at a time, and these read and
write the package variable `folderExists` without a lock.  Below a call is
cut at every access to that variable and at every request, and a run of
several calls is an interleaving of their steps, chosen by a schedule.  The
requests that the other workers make for their downloads put no object and
do not touch the variable; they are left out. -/

/-- The point that a call of `PushLogToBucket` has reached. -/
inductive PushPoint where
  /-- Before the test `if folderExists` of `verifyBucketFolder`. -/
  | check
  /-- Before the `ListObjectsV2` request of `verifyBucketFolder`. -/
  | list
  /-- Before the assignment of the outcome of the listing to `folderExists`. -/
  | assign (found : Bool)
  /-- Before a `return folderExists` of `verifyBucketFolder`. -/
  | answer
  /-- Before `createBucketFolder`, the folder check having answered false. -/
  | create
  /-- Before `client.UploadLargeFile`. -/
  | upload
  /-- After the return, with the returned error. -/
  | returned (err : Option String)
  deriving DecidableEq, Repr

/-- A call `PushLogToBucket(client, targetFile, fileName, dbIdentifier)` in
progress: its arguments, the point it has reached, and the number of
`createBucketFolder` calls it has made so far. -/
structure PushCall where
  /-- The argument `targetFile`. -/
  targetFile : Option File
  /-- The argument `fileName`. -/
  fileName : String
  /-- The point reached. -/
  point : PushPoint
  /-- The number of `createBucketFolder` calls made so far. -/
  markers : Nat
  deriving DecidableEq, Repr

/-- One step of a call of `PushLogToBucket`: one read or write of
`folderExists`, or one request.  A call that has returned stays as it is. -/
def PushCall.step (env : Env) (client : S3BucketClient) (dbIdentifier : String)
    (c : PushCall) (w : World) : PushCall × World :=
  let folder := GetProcessID client.ctx
  match c.point with
  | .check =>
    if w.folderExists then ({ c with point := .answer }, w)
    else ({ c with point := .list }, w)
  | .list =>
    let r := env.listObjectsV2 w.trace client.bucketName (folder ++ "/") 1
    let w := w.emit (Event.ListObjectsV2 client.bucketName (folder ++ "/") 1)
    let found :=
      match r with
      | .error _ => false
      | .ok n => if n = 0 then false else true
    ({ c with point := .assign found }, w)
  | .assign found => ({ c with point := .answer }, { w with folderExists := found })
  | .answer =>
    if w.folderExists then ({ c with point := .upload }, w)
    else ({ c with point := .create }, w)
  | .create =>
    match createBucketFolder env client folder dbIdentifier w with
    | (some err, w) => ({ c with point := .returned (some err), markers := c.markers + 1 }, w)
    | (none, w) => ({ c with point := .upload, markers := c.markers + 1 }, w)
  | .upload =>
    match UploadLargeFile env c.targetFile (formatFilePath folder c.fileName) w with
    | (err, w) => ({ c with point := .returned err }, w)
  | .returned _ => (c, w)

/-- A number of steps of one call in a row. -/
def PushCall.steps (env : Env) (client : S3BucketClient) (dbIdentifier : String) :
    Nat → PushCall → World → PushCall × World
  | 0, c, w => (c, w)
  | n + 1, c, w =>
    PushCall.steps env client dbIdentifier n (c.step env client dbIdentifier w).1
      (c.step env client dbIdentifier w).2

/-- The calls of a run before their first step, one for each file. -/
def startCalls (files : List (Option File × String)) : List PushCall :=
  files.map (fun f => { targetFile := f.1, fileName := f.2, point := .check, markers := 0 })

/-- One step of the call number `i` of a run; nothing happens when there is
no such call. -/
def stepCall (env : Env) (client : S3BucketClient) (dbIdentifier : String)
    (s : List PushCall × World) (i : Nat) : List PushCall × World :=
  match s.1[i]? with
  | none => s
  | some c => (s.1.set i (c.step env client dbIdentifier s.2).1,
      (c.step env client dbIdentifier s.2).2)

/-- The run of the calls under a schedule, the list of the numbers of the
calls that take the successive steps. -/
def runCalls (env : Env) (client : S3BucketClient) (dbIdentifier : String)
    (schedule : List Nat) (s : List PushCall × World) : List PushCall × World :=
  schedule.foldl (stepCall env client dbIdentifier) s

/-- The schedule of `n` calls in which the calls do not overlap: each call
takes six steps in a row, which bring it to its return. -/
def oneByOne (n : Nat) : List Nat :=
  (List.range n).flatMap (fun i => List.replicate 6 i)

/-- A call is sound when it has made no marker request, or has made one and
has passed `createBucketFolder`. -/
def PushCall.sound (c : PushCall) : Prop :=
  c.markers = 0 ∨ (c.markers = 1 ∧ (c.point = .upload ∨ ∃ err, c.point = .returned err))

/-- The number of marker requests that the calls of a run have made. -/
def markersOf (cs : List PushCall) : Nat := (cs.map (fun c => c.markers)).sum

/-- The sample world in which `file.Stat()` fails. -/
def failedStatEnv : Env :=
  { sampleEnv [] "bucket" (Date 2024 2 23 12 0 0 0 UTC) [] with
    stat := fun _ _ => some "stat: file already closed" }

/-- The sample world whose database instance carries a cluster identifier
that is the empty string. -/
def emptyClusterEnv : Env :=
  { sampleEnv [] "bucket" (Date 2024 2 23 12 0 0 0 UTC) [] with
    describeDBInstances := fun _ _ => .ok [some ""] }

/-! ## Facts about package `time` -/

theorem Time.nsec_nonneg (t : Time) : 0 ≤ t.nsec := by
  unfold Time.nsec; omega

theorem Time.nsec_lt (t : Time) : t.nsec < 1000000000 := by
  unfold Time.nsec; omega

theorem Time.ns_eq (t : Time) : t.ns = t.sec * 1000000000 + t.nsec := by
  unfold Time.sec Time.nsec; omega

theorem Time.After_iff (t u : Time) : t.After u = true ↔ u.ns < t.ns := by
  simp only [Time.After, Time.sec, Time.nsec, Bool.or_eq_true, Bool.and_eq_true, decide_eq_true_eq]
  omega

theorem Time.Before_iff (t u : Time) : t.Before u = true ↔ t.ns < u.ns := by
  simp only [Time.Before, Time.sec, Time.nsec, Bool.or_eq_true, Bool.and_eq_true, decide_eq_true_eq]
  omega

theorem Time.Equal_iff (t u : Time) : t.Equal u = true ↔ t.ns = u.ns := by
  simp only [Time.Equal, Time.sec, Time.nsec, Bool.and_eq_true, decide_eq_true_eq]
  omega

theorem Time.IsZero_iff (t : Time) : t.IsZero = true ↔ t.ns = 0 := by
  simp only [Time.IsZero, Time.sec, Time.nsec, Bool.and_eq_true, decide_eq_true_eq]
  omega

theorem TimeBetween_iff (t a b : Time) :
    TimeBetween t a b = true ↔ min a.ns b.ns ≤ t.ns ∧ t.ns ≤ max a.ns b.ns := by
  unfold TimeBetween
  by_cases h : a.After b = true
  · have h' := (Time.After_iff a b).1 h
    simp only [h, if_true, Bool.and_eq_true, Bool.or_eq_true, Time.Equal_iff, Time.After_iff,
      Time.Before_iff]
    rw [min_eq_right (le_of_lt h'), max_eq_left (le_of_lt h')]
    omega
  · have h' : a.ns ≤ b.ns := by
      by_contra hc
      exact h ((Time.After_iff a b).2 (by omega))
    simp only [h, Bool.and_eq_true, Bool.or_eq_true, Time.Equal_iff, Time.After_iff,
      Time.Before_iff]
    rw [min_eq_left h', max_eq_right h']
    simp
    omega

/-- C3. `TimeBetween` does not depend on the order of its two bounds and is
the truth of `min(a,b) ≤ t ≤ max(a,b)` on instants; in particular each bound
is inside the range. -/
theorem TimeBetween_symm_inclusive (t a b : Time) :
    TimeBetween t a b = TimeBetween t b a ∧
    TimeBetween t a b = decide (min a.ns b.ns ≤ t.ns ∧ t.ns ≤ max a.ns b.ns) ∧
    TimeBetween t b a = decide (min a.ns b.ns ≤ t.ns ∧ t.ns ≤ max a.ns b.ns) ∧
    TimeBetween a a b = true ∧ TimeBetween b a b = true := by
  have key : ∀ t a b : Time,
      TimeBetween t a b = decide (min a.ns b.ns ≤ t.ns ∧ t.ns ≤ max a.ns b.ns) := by
    intro t a b
    rw [Bool.eq_iff_iff, TimeBetween_iff, decide_eq_true_eq]
  refine ⟨?_, key t a b, ?_, ?_, ?_⟩
  · rw [key t a b, key t b a, min_comm, max_comm]
  · rw [key t b a, min_comm, max_comm]
  · rw [TimeBetween_iff]; exact ⟨min_le_left _ _, le_max_left _ _⟩
  · rw [TimeBetween_iff]; exact ⟨min_le_right _ _, le_max_right _ _⟩

/-! ## The civil calendar of package `time` -/

theorem norm_id (hi lo base : Int) (h0 : 0 ≤ lo) (h1 : lo < base) :
    norm hi lo base = (hi, lo) := by
  unfold norm
  have h2 : ¬ lo < 0 := by omega
  have h3 : ¬ lo ≥ base := by omega
  simp [h2, h3]

theorem isLeap_iff (year : Int) :
    isLeap year = true ↔ year % 4 = 0 ∧ (year % 100 ≠ 0 ∨ year % 400 = 0) := by
  simp [isLeap]

theorem absYear_aux (d q r n1 n1' r2 n2 r3 n3 n3' y yd : Int)
    (hq : q = d / daysPer400Years) (hr : r = d - daysPer400Years * q)
    (hn1 : n1 = r / daysPer100Years) (hn1' : n1' = n1 - n1 / 4)
    (hr2 : r2 = r - daysPer100Years * n1')
    (hn2 : n2 = r2 / daysPer4Years) (hr3 : r3 = r2 - daysPer4Years * n2)
    (hn3 : n3 = r3 / 365) (hn3' : n3' = n3 - n3 / 4)
    (hy : y = 400 * q + 100 * n1' + 4 * n2 + n3') (hyd : yd = r3 - 365 * n3') :
    365 * y + y / 4 - y / 100 + y / 400 + yd = d ∧ 0 ≤ yd ∧
      (yd ≤ 364 ∨ (yd = 365 ∧ (y + 1) % 4 = 0 ∧ ((y + 1) % 100 ≠ 0 ∨ (y + 1) % 400 = 0))) := by
  simp only [daysPer400Years, daysPer100Years, daysPer4Years] at hq hr hn1 hr2 hn2 hr3
  have hr0 : 0 ≤ r ∧ r < 146097 := by omega
  have hn1b : 0 ≤ n1 ∧ n1 ≤ 4 := by omega
  have hn1c : 0 ≤ n1' ∧ n1' ≤ 3 := by omega
  have hr2b : 0 ≤ r2 ∧ r2 ≤ 36524 := by omega
  have hr3b : 0 ≤ r3 ∧ r3 < 1461 := by omega
  have hn2b : 0 ≤ n2 ∧ n2 ≤ 24 := by omega
  have hn3b : 0 ≤ n3 ∧ n3 ≤ 4 := by omega
  have hn3c : 0 ≤ n3' ∧ n3' ≤ 3 := by omega
  have e400 : y / 400 = q := by omega
  have e100 : y / 100 = 4 * q + n1' := by omega
  have e4 : y / 4 = 100 * q + 25 * n1' + n2 := by omega
  refine ⟨by omega, by omega, ?_⟩
  by_cases h364 : yd ≤ 364
  · exact Or.inl h364
  · right
    have h3 : n3 = 4 := by omega
    have h3' : n3' = 3 := by omega
    have hr3e : r3 = 1460 := by omega
    refine ⟨by omega, by omega, ?_⟩
    by_cases h24 : n2 = 24
    · right
      have : r2 = 36524 := by omega
      have : n1 = 4 := by omega
      omega
    · left
      omega

theorem daysSinceEpoch_closed (year : Int) :
    daysSinceEpoch year =
      365 * (year - absoluteZeroYear) + (year - absoluteZeroYear) / 4
        - (year - absoluteZeroYear) / 100 + (year - absoluteZeroYear) / 400 := by
  simp only [daysSinceEpoch, absoluteZeroYear, daysPer400Years, daysPer100Years, daysPer4Years]
  generalize year - -292277022399 = y
  omega

theorem absYear_spec (d : Int) :
    daysSinceEpoch (absYear d).1 + (absYear d).2 = d ∧ 0 ≤ (absYear d).2 ∧
      (absYear d).2 < yearLength (absYear d).1 := by
  obtain ⟨y, yd, he, h1, h2, h3⟩ : ∃ y yd, absYear d = (y + absoluteZeroYear, yd) ∧
      365 * y + y / 4 - y / 100 + y / 400 + yd = d ∧ 0 ≤ yd ∧
      (yd ≤ 364 ∨ (yd = 365 ∧ (y + 1) % 4 = 0 ∧ ((y + 1) % 100 ≠ 0 ∨ (y + 1) % 400 = 0))) :=
    ⟨_, _, rfl, absYear_aux d _ _ _ _ _ _ _ _ _ _ _ rfl rfl rfl rfl rfl rfl rfl rfl rfl rfl rfl⟩
  rw [he]
  simp only [daysSinceEpoch_closed, yearLength]
  have hl : isLeap (y + absoluteZeroYear) = true ↔
      (y + 1) % 4 = 0 ∧ ((y + 1) % 100 ≠ 0 ∨ (y + 1) % 400 = 0) := by
    rw [isLeap_iff]; simp only [absoluteZeroYear]; omega
  refine ⟨by simp only [absoluteZeroYear]; omega, h2, ?_⟩
  by_cases hL : isLeap (y + absoluteZeroYear) = true
  · rw [if_pos hL]; omega
  · rw [if_neg hL]
    rcases h3 with h3 | ⟨_, h4⟩
    · omega
    · exact absurd (hl.2 h4) hL

theorem daysSinceEpoch_succ (year : Int) :
    daysSinceEpoch (year + 1) = daysSinceEpoch year + yearLength year := by
  simp only [daysSinceEpoch_closed, yearLength]
  have hl := isLeap_iff year
  simp only [absoluteZeroYear] at *
  by_cases hL : isLeap year = true
  · rw [if_pos hL]
    have := hl.1 hL
    omega
  · rw [if_neg hL]
    have : ¬ (year % 4 = 0 ∧ (year % 100 ≠ 0 ∨ year % 400 = 0)) := fun h => hL (hl.2 h)
    omega

theorem daysSinceEpoch_mono (a b : Int) (h : a ≤ b) : daysSinceEpoch a ≤ daysSinceEpoch b := by
  simp only [daysSinceEpoch_closed, absoluteZeroYear]
  omega

/-- The year and the day of the year are determined by the day count. -/
theorem absYear_unique (year yd : Int) (h0 : 0 ≤ yd) (h1 : yd < yearLength year) :
    absYear (daysSinceEpoch year + yd) = (year, yd) := by
  obtain ⟨e1, e2, e3⟩ := absYear_spec (daysSinceEpoch year + yd)
  generalize (absYear (daysSinceEpoch year + yd)) = p at e1 e2 e3
  obtain ⟨y', yd'⟩ := p
  simp only at e1 e2 e3
  have hy : y' = year := by
    rcases lt_trichotomy y' year with hlt | heq | hgt
    · have := daysSinceEpoch_mono (y' + 1) year (by omega)
      have := daysSinceEpoch_succ y'
      omega
    · exact heq
    · have := daysSinceEpoch_mono (year + 1) y' (by omega)
      have := daysSinceEpoch_succ year
      omega
  subst hy
  have : yd' = yd := by omega
  rw [this]

/-- The table `daysBefore` is increasing, by 28 to 31 days a month. -/
theorem daysBefore_step (m : Int) (h1 : 1 ≤ m) (h2 : m ≤ 12) :
    daysBefore (m - 1) + 28 ≤ daysBefore m ∧ daysBefore m ≤ daysBefore (m - 1) + 31 ∧
    31 * (m - 1) - 7 ≤ daysBefore (m - 1) ∧ daysBefore (m - 1) ≤ 31 * (m - 1) ∧
    (m ≤ 2 → daysBefore m ≤ 59) ∧ (3 ≤ m → 59 ≤ daysBefore (m - 1)) ∧
    (m = 2 → daysBefore m = 59 ∧ daysBefore (m - 1) = 31) ∧ daysBefore 12 = 365 ∧
    0 ≤ daysBefore (m - 1) ∧ daysBefore m ≤ 365 := by
  interval_cases m <;> simp [daysBefore]

/-- The month search of `absDate` on a day of a non-leap year (or of a leap
year with February 29 taken out). -/
theorem absMonthDay_core (day : Int) (h0 : 0 ≤ day) (h1 : day < 365) :
    ∃ m, 1 ≤ m ∧ m ≤ 12 ∧ daysBefore (m - 1) ≤ day ∧ day < daysBefore m ∧
      (if day ≥ daysBefore (day / 31 + 1) then (day / 31 + 1, daysBefore (day / 31 + 1))
          else (day / 31, daysBefore (day / 31))) = (m - 1, daysBefore (m - 1)) := by
  generalize hk : day / 31 = k
  have hk0 : 0 ≤ k := by omega
  have hk11 : k ≤ 11 := by omega
  by_cases hge : day ≥ daysBefore (k + 1)
  · rw [if_pos hge]
    have hk10 : k ≤ 10 := by
      by_contra hc
      have hk : k + 1 = 12 := by omega
      rw [hk] at hge
      have := (daysBefore_step 1 (by omega) (by omega)).2.2.2.2.2.2.2.1
      omega
    have s := daysBefore_step (k + 2) (by omega) (by omega)
    have e : k + 2 - 1 = k + 1 := by ring
    rw [e] at s
    refine ⟨k + 2, by omega, by omega, ?_, ?_, ?_⟩
    · rw [e]; exact hge
    · omega
    · rw [e]
  · rw [if_neg hge]
    have s := daysBefore_step (k + 1) (by omega) (by omega)
    have e : k + 1 - 1 = k := by ring
    rw [e] at s
    refine ⟨k + 1, by omega, by omega, ?_, ?_, ?_⟩
    · rw [e]; omega
    · omega
    · rw [e]

theorem daysIn_cases (year m : Int) :
    (¬ (m = 2 ∧ isLeap year = true) ∧ daysIn m year = daysBefore m - daysBefore (m - 1)) ∨
      (m = 2 ∧ isLeap year = true ∧ daysIn m year = 29) := by
  unfold daysIn
  by_cases h : m = 2 ∧ isLeap year = true
  · rw [if_pos h]; exact Or.inr ⟨h.1, h.2, rfl⟩
  · rw [if_neg h]; exact Or.inl ⟨h, rfl⟩

/-- The month and the day that `absDate` reads off a day of the year form a
real date of that year, whose day of the year it is. -/
theorem absMonthDay_spec (year yday : Int) (h0 : 0 ≤ yday) (h1 : yday < yearLength year) :
    validDate year (absMonthDay year yday).1 (absMonthDay year yday).2 ∧
      yearDay year (absMonthDay year yday).1 (absMonthDay year yday).2 = yday := by
  unfold absMonthDay
  by_cases hleapday : isLeap year = true ∧ yday = 31 + 29 - 1
  · rw [if_pos hleapday]
    obtain ⟨hL, hy⟩ := hleapday
    subst hy
    simp [validDate, yearDay, daysIn, daysBefore, hL]
  · rw [if_neg hleapday]
    simp only []
    generalize hday : (if isLeap year = true ∧ yday > 31 + 29 - 1 then yday - 1 else yday) = day
    unfold yearLength at h1
    by_cases hL : isLeap year = true
    · simp only [hL, true_and, if_true] at hday hleapday h1
      have hd0 : 0 ≤ day := by
        rw [← hday]; split_ifs <;> omega
      have hd1 : day < 365 := by
        rw [← hday]; split_ifs <;> omega
      obtain ⟨m, hm1, hm2, hlo, hhi, he⟩ := absMonthDay_core day hd0 hd1
      rw [he]
      simp only []
      have e : m - 1 + 1 = m := by ring
      rw [e]
      have s := daysBefore_step m hm1 hm2
      have c3 := daysIn_cases year m
      refine ⟨⟨hm1, hm2, by omega, by omega⟩, ?_⟩
      unfold yearDay
      simp only [hL, true_and]
      by_cases h59 : yday > 31 + 29 - 1
      · rw [if_pos h59] at hday
        have : m ≥ 3 := by
          by_contra hc
          have := s.2.2.2.2.1 (by omega)
          omega
        rw [if_pos this]; omega
      · rw [if_neg h59] at hday
        have : ¬ m ≥ 3 := by
          intro hc
          have := s.2.2.2.2.2.1 (by omega)
          omega
        rw [if_neg this]; omega
    · have hf : isLeap year = false := by simpa using hL
      simp only [hf, Bool.false_eq_true, false_and, if_false] at hday h1
      subst hday
      obtain ⟨m, hm1, hm2, hlo, hhi, he⟩ := absMonthDay_core yday h0 h1
      rw [he]
      simp only []
      have e : m - 1 + 1 = m := by ring
      rw [e]
      have s := daysBefore_step m hm1 hm2
      have c3 := daysIn_cases year m
      refine ⟨⟨hm1, hm2, by omega, ?_⟩, ?_⟩
      · rcases c3 with ⟨_, c3⟩ | ⟨_, c3, _⟩
        · omega
        · exact absurd c3 hL
      · unfold yearDay
        simp only [hf, Bool.false_eq_true, false_and, if_false]
        omega

theorem daysBefore_envelope (m : Int) (h0 : 0 ≤ m) (h2 : m ≤ 12) :
    61 * m - 4 ≤ 2 * daysBefore m ∧ 2 * daysBefore m ≤ 61 * m + 1 := by
  interval_cases m <;> simp [daysBefore]

theorem yearDay_lt_of_month_lt (year m d m' d' : Int) (h : validDate year m d)
    (h' : validDate year m' d') (hlt : m < m') : yearDay year m d < yearDay year m' d' := by
  obtain ⟨h1, h2, h3, h4⟩ := h
  obtain ⟨h1', h2', h3', h4'⟩ := h'
  have s := daysBefore_step m h1 h2
  have c := daysIn_cases year m
  have key : daysBefore m ≤ daysBefore (m' - 1) := by
    rcases (show m' = m + 1 ∨ m + 2 ≤ m' by omega) with e | e
    · subst e
      have : m + 1 - 1 = m := by ring
      rw [this]
    · have e1 := daysBefore_envelope m (by omega) (by omega)
      have e2 := daysBefore_envelope (m' - 1) (by omega) (by omega)
      omega
  unfold yearDay
  simp only []
  by_cases hL : isLeap year = true
  · simp only [hL, true_and] at c ⊢
    have s3 := s.2.2.2.2.2.1
    have s2 := s.2.2.2.2.2.2.1
    split_ifs <;> omega
  · have hf : isLeap year = false := by simpa using hL
    simp only [hf, Bool.false_eq_true, false_and, and_false, if_false, not_false_eq_true,
      true_and, or_false] at c ⊢
    omega

theorem yearDay_inj (year m d m' d' : Int) (h : validDate year m d) (h' : validDate year m' d')
    (e : yearDay year m d = yearDay year m' d') : m = m' ∧ d = d' := by
  have hm : m = m' := by
    rcases lt_trichotomy m m' with hlt | heq | hgt
    · have := yearDay_lt_of_month_lt year m d m' d' h h' hlt
      omega
    · exact heq
    · have := yearDay_lt_of_month_lt year m' d' m d h' h hgt
      omega
  subst hm
  unfold yearDay at e
  simp only [] at e
  exact ⟨rfl, by omega⟩

theorem yearDay_bounds (year m d : Int) (h : validDate year m d) :
    0 ≤ yearDay year m d ∧ yearDay year m d < yearLength year := by
  obtain ⟨h1, h2, h3, h4⟩ := h
  have s := daysBefore_step m h1 h2
  have c := daysIn_cases year m
  unfold yearDay yearLength
  simp only []
  by_cases hL : isLeap year = true
  · simp only [hL, true_and, if_true] at c ⊢
    split_ifs <;> omega
  · have hf : isLeap year = false := by simpa using hL
    simp only [hf, Bool.false_eq_true, false_and, and_false, if_false, not_false_eq_true,
      true_and, or_false] at c ⊢
    omega

/-- The month and the day of the month are determined by the day of the
year. -/
theorem absMonthDay_unique (year m d : Int) (h : validDate year m d) :
    absMonthDay year (yearDay year m d) = (m, d) := by
  obtain ⟨b0, b1⟩ := yearDay_bounds year m d h
  obtain ⟨hv, he⟩ := absMonthDay_spec year (yearDay year m d) b0 b1
  obtain ⟨e1, e2⟩ := yearDay_inj year _ _ m d hv h he
  exact Prod.ext e1 e2

theorem Time.abs_eq (t : Time) : t.abs = t.ns / 1000000000 + t.loc.offset + internalToAbsolute := by
  unfold Time.abs Time.Unix Time.sec internalToUnix
  ring

/-- `time.Date` on a real date and a time of day in range: no field is
normalised. -/
theorem Date_of_valid (year m d h mi s n : Int) (loc : Location) (hv : validDate year m d)
    (hh : 0 ≤ h ∧ h < 24) (hmi : 0 ≤ mi ∧ mi < 60) (hs : 0 ≤ s ∧ s < 60)
    (hn : 0 ≤ n ∧ n < 1000000000) :
    Date year m d h mi s n loc =
      ⟨((daysSinceEpoch year + yearDay year m d) * secondsPerDay
          + (h * secondsPerHour + mi * secondsPerMinute + s)
          - internalToAbsolute - loc.offset) * 1000000000 + n, loc⟩ := by
  obtain ⟨h1, h2, h3, h4⟩ := hv
  have e : m - 1 + 1 = m := by ring
  unfold Date
  simp only [norm_id year (m - 1) 12 (by omega) (by omega), norm_id s n 1000000000 hn.1 hn.2,
    norm_id mi s 60 hs.1 hs.2, norm_id h mi 60 hmi.1 hmi.2, norm_id d h 24 hh.1 hh.2, e]
  unfold yearDay
  simp only [internalToUnix]
  congr 1
  split_ifs <;> ring

theorem Date_abs (year m d h mi s n : Int) (loc : Location) (hv : validDate year m d)
    (hh : 0 ≤ h ∧ h < 24) (hmi : 0 ≤ mi ∧ mi < 60) (hs : 0 ≤ s ∧ s < 60)
    (hn : 0 ≤ n ∧ n < 1000000000) :
    (Date year m d h mi s n loc).abs =
      (daysSinceEpoch year + yearDay year m d) * secondsPerDay
          + (h * secondsPerHour + mi * secondsPerMinute + s) := by
  rw [Time.abs_eq, Date_of_valid year m d h mi s n loc hv hh hmi hs hn]
  simp only []
  generalize (daysSinceEpoch year + yearDay year m d) * secondsPerDay
          + (h * secondsPerHour + mi * secondsPerMinute + s) = a
  omega

/-- The fields of the instant that `time.Date` builds from a real date and a
time of day in range are the arguments it was given. -/
theorem Date_fields (year m d h mi s n : Int) (loc : Location) (hv : validDate year m d)
    (hh : 0 ≤ h ∧ h < 24) (hmi : 0 ≤ mi ∧ mi < 60) (hs : 0 ≤ s ∧ s < 60)
    (hn : 0 ≤ n ∧ n < 1000000000) :
    (Date year m d h mi s n loc).Year = year ∧ (Date year m d h mi s n loc).Month = m ∧
    (Date year m d h mi s n loc).Day = d ∧ (Date year m d h mi s n loc).Hour = h ∧
    (Date year m d h mi s n loc).Minute = mi ∧ (Date year m d h mi s n loc).Second = s ∧
    (Date year m d h mi s n loc).Nanosecond = n ∧ (Date year m d h mi s n loc).loc = loc := by
  have ha := Date_abs year m d h mi s n loc hv hh hmi hs hn
  have hd : (Date year m d h mi s n loc).abs / secondsPerDay
      = daysSinceEpoch year + yearDay year m d := by
    rw [ha]; simp only [secondsPerDay, secondsPerHour, secondsPerMinute]; omega
  obtain ⟨b0, b1⟩ := yearDay_bounds year m d hv
  have hY := absYear_unique year (yearDay year m d) b0 b1
  have hM := absMonthDay_unique year m d hv
  have hdate : absDate (Date year m d h mi s n loc).abs = (year, m, d, yearDay year m d) := by
    unfold absDate
    rw [hd, hY]
    simp only []
    rw [hM]
  refine ⟨?_, ?_, ?_, ?_, ?_, ?_, ?_, ?_⟩
  · unfold Time.Year; rw [hdate]
  · unfold Time.Month; rw [hdate]
  · unfold Time.Day; rw [hdate]
  · unfold Time.Hour; rw [ha]; simp only [secondsPerDay, secondsPerHour, secondsPerMinute]; omega
  · unfold Time.Minute; rw [ha]; simp only [secondsPerDay, secondsPerHour, secondsPerMinute]; omega
  · unfold Time.Second; rw [ha]; simp only [secondsPerDay, secondsPerHour, secondsPerMinute]; omega
  · unfold Time.Nanosecond Time.nsec
    rw [Date_of_valid year m d h mi s n loc hv hh hmi hs hn]
    simp only []
    omega
  · rw [Date_of_valid year m d h mi s n loc hv hh hmi hs hn]

/-- Reading the date and the hour of an instant and building the instant of
that hour (`time.Date(t.Year(), t.Month(), t.Day(), t.Hour(), 0, 0, 0,
t.Location())`) zeroes the minutes, seconds and nanoseconds of the wall
clock of `t` and changes nothing else. -/
theorem Date_truncate_hour (t : Time) :
    Date t.Year t.Month t.Day t.Hour 0 0 0 t.Location =
      ⟨(t.sec - (t.sec + t.loc.offset) % 3600) * 1000000000, t.loc⟩ := by
  obtain ⟨e1, e2, e3⟩ := absYear_spec (t.abs / secondsPerDay)
  obtain ⟨hv, e4⟩ := absMonthDay_spec _ _ e2 e3
  have hY : t.Year = (absYear (t.abs / secondsPerDay)).1 := rfl
  have hM : t.Month = (absMonthDay (absYear (t.abs / secondsPerDay)).1
      (absYear (t.abs / secondsPerDay)).2).1 := rfl
  have hD : t.Day = (absMonthDay (absYear (t.abs / secondsPerDay)).1
      (absYear (t.abs / secondsPerDay)).2).2 := rfl
  have hv : validDate t.Year t.Month t.Day := hv
  have e4 : yearDay t.Year t.Month t.Day = (absYear (t.abs / secondsPerDay)).2 := e4
  have e1 : daysSinceEpoch t.Year + (absYear (t.abs / secondsPerDay)).2
      = t.abs / secondsPerDay := e1
  clear hY hM hD
  have hH : 0 ≤ t.Hour ∧ t.Hour < 24 := by
    unfold Time.Hour; simp only [secondsPerDay, secondsPerHour, secondsPerMinute]; omega
  rw [Time.Location, Date_of_valid t.Year t.Month t.Day t.Hour 0 0 0 t.loc hv hH (by omega) (by omega)
    (by omega)]
  rw [e4, e1]
  have ha := Time.abs_eq t
  unfold Time.Hour
  unfold Time.sec
  generalize t.abs = a at *
  simp only [secondsPerDay, secondsPerHour, secondsPerMinute, internalToAbsolute] at *
  congr 1
  omega

/-! ## Facts about the text functions -/

theorem isDigit_bounds (c : Char) (h : isDigit c = true) : 48 ≤ c.toNat ∧ c.toNat ≤ 57 := by
  simp only [isDigit, Bool.and_eq_true, decide_eq_true_eq] at h
  obtain ⟨h1, h2⟩ := h
  have h1' : '0'.toNat ≤ c.toNat := h1
  have h2' : c.toNat ≤ '9'.toNat := h2
  exact ⟨h1', h2'⟩

theorem isDigit_ne_dash (c : Char) (h : isDigit c = true) : c ≠ '-' := by
  rintro rfl
  exact absurd h (by decide)

theorem isDigit_ne_plus (c : Char) (h : isDigit c = true) : c ≠ '+' := by
  rintro rfl
  exact absurd h (by decide)

theorem digitVal_of_isDigit (c : Char) (h : isDigit c = true) :
    digitVal c = ((c.toNat - 48 : Nat) : Int) := by
  have := isDigit_bounds c h
  unfold digitVal
  omega

theorem decimal_lt (s : List Char) (h : ∀ c ∈ s, isDigit c = true) :
    decimal s < 10 ^ s.length := by
  induction s with
  | nil => simp [decimal]
  | cons c cs ih =>
    have hc := isDigit_bounds c (h c (List.mem_cons_self _ _))
    have := ih (fun x hx => h x (List.mem_cons_of_mem _ hx))
    simp only [decimal, List.length_cons, pow_succ]
    have h9 : c.toNat - 48 ≤ 9 := by omega
    nlinarith [Nat.mul_le_mul_right (10 ^ cs.length) h9]

theorem atoiLoop_digits (s : List Char) (h : ∀ c ∈ s, isDigit c = true) (n : Int) :
    atoiLoop n s = some (n * 10 ^ s.length + (decimal s : Int)) := by
  induction s generalizing n with
  | nil => simp [atoiLoop, decimal]
  | cons c cs ih =>
    have hc := h c (List.mem_cons_self _ _)
    simp only [atoiLoop, hc, if_true, decimal, List.length_cons]
    rw [ih (fun x hx => h x (List.mem_cons_of_mem _ hx)), digitVal_of_isDigit c hc]
    congr 1
    push_cast
    ring

/-- On a string of at most 18 digits `strconv.Atoi` returns the number the
digits denote (and 0 on the empty string). -/
theorem Atoi_digits (s : List Char) (h : ∀ c ∈ s, isDigit c = true) (hl : s.length ≤ 18) :
    Atoi s = (decimal s : Int) := by
  cases s with
  | nil => simp [Atoi, AtoiErr, decimal]
  | cons c cs =>
    have hc := h c (List.mem_cons_self _ _)
    have h1 : (c == '-') = false := by simpa using isDigit_ne_dash c hc
    have h2 : (c == '+') = false := by simpa using isDigit_ne_plus c hc
    have hlt := decimal_lt (c :: cs) h
    have hpow : 10 ^ (c :: cs).length ≤ 10 ^ 18 := Nat.pow_le_pow_right (by norm_num) hl
    have hb : ((decimal (c :: cs) : Nat) : Int) < 1000000000000000000 := by
      have : decimal (c :: cs) < 10 ^ 18 := lt_of_lt_of_le hlt hpow
      have h3 : (10 : Nat) ^ 18 = 1000000000000000000 := by norm_num
      omega
    have hnn : (0 : Int) ≤ (decimal (c :: cs) : Nat) := Int.natCast_nonneg _
    simp only [Atoi, AtoiErr, h1, h2, Bool.or_self, Bool.false_eq_true, if_false]
    rw [atoiLoop_digits (c :: cs) h 0]
    simp only [zero_mul, zero_add]
    have h4 : ¬ ((decimal (c :: cs) : Nat) : Int) > 9223372036854775807 := by omega
    have h5 : ¬ ((decimal (c :: cs) : Nat) : Int) < -9223372036854775808 := by omega
    simp only [h4, h5, if_false]

theorem Split_of_no_sep (sep : Char) (a : List Char) (h : ∀ c ∈ a, c ≠ sep) :
    Split sep a = [a] := by
  induction a with
  | nil => rfl
  | cons c cs ih =>
    have hc := h c (List.mem_cons_self _ _)
    simp only [Split, hc, if_false, ih (fun x hx => h x (List.mem_cons_of_mem _ hx))]

theorem Split_ne_nil (sep : Char) (s : List Char) : Split sep s ≠ [] := by
  cases s with
  | nil => simp [Split]
  | cons c cs =>
    simp only [Split]
    split_ifs
    · simp
    · split <;> simp

theorem Split_append_sep (sep : Char) (a rest : List Char) (h : ∀ c ∈ a, c ≠ sep) :
    Split sep (a ++ sep :: rest) = a :: Split sep rest := by
  induction a with
  | nil => simp [Split]
  | cons c cs ih =>
    have hc := h c (List.mem_cons_self _ _)
    have e := ih (fun x hx => h x (List.mem_cons_of_mem _ hx))
    have : Split sep (c :: (cs ++ sep :: rest)) = (c :: cs) :: Split sep rest := by
      rw [Split, if_neg hc, e]
    exact this

/-! ## Facts about the pattern matcher -/

theorem runLength_le (cls : Char → Bool) (cap : Nat) (s : List Char) :
    runLength cls cap s ≤ cap ∧ runLength cls cap s ≤ s.length := by
  induction cap generalizing s with
  | zero => simp [runLength]
  | succ k ih =>
    cases s with
    | nil => simp [runLength]
    | cons c cs =>
      simp only [runLength]
      split_ifs
      · have := ih cs
        simp only [List.length_cons]
        omega
      · simp

theorem runLength_take (cls : Char → Bool) (cap : Nat) (s : List Char) (k : Nat)
    (hk : k ≤ runLength cls cap s) : ∀ c ∈ s.take k, cls c = true := by
  induction cap generalizing s k with
  | zero =>
    simp only [runLength] at hk
    have : k = 0 := by omega
    subst this
    simp
  | succ n ih =>
    cases s with
    | nil => simp
    | cons c cs =>
      simp only [runLength] at hk
      cases k with
      | zero => simp
      | succ j =>
        by_cases hc : cls c = true
        · rw [if_pos hc] at hk
          intro x hx
          simp only [List.take_succ_cons, List.mem_cons] at hx
          rcases hx with rfl | hx
          · exact hc
          · exact ih cs j (by omega) x hx
        · rw [if_neg hc] at hk
          omega

theorem tryCounts_some (cont : List Char → Option Nat) (s : List Char) (lo k n : Nat)
    (h : tryCounts cont s lo k = some n) :
    ∃ c n', c ≤ k ∧ lo ≤ c ∧ cont (s.drop c) = some n' ∧ n = c + n' := by
  induction k with
  | zero =>
    simp only [tryCounts] at h
    split_ifs at h with h0
    exact ⟨0, n, le_refl _, by omega, by simpa using h, by omega⟩
  | succ j ih =>
    simp only [tryCounts] at h
    split_ifs at h with hlt
    cases hc : cont (s.drop (j + 1)) with
    | some n' =>
      rw [hc] at h
      simp only [Option.some.injEq] at h
      exact ⟨j + 1, n', le_refl _, by omega, hc, h.symm⟩
    | none =>
      rw [hc] at h
      obtain ⟨c, n', h1, h2, h3, h4⟩ := ih h
      exact ⟨c, n', by omega, h2, h3, h4⟩

/-- A match that `matchPieces` reports is a prefix of the input and belongs
to the language of the pattern. -/
theorem matchPieces_sound (ps : List Piece) (s : List Char) (n : Nat)
    (h : matchPieces ps s = some n) : n ≤ s.length ∧ matchesPieces ps (s.take n) := by
  induction ps generalizing s n with
  | nil =>
    simp only [matchPieces, Option.some.injEq] at h
    subst h
    simp [matchesPieces]
  | cons p ps ih =>
    simp only [matchPieces] at h
    obtain ⟨c, n', hck, hlo, hcont, hn⟩ := tryCounts_some _ _ _ _ _ h
    obtain ⟨hle, hm⟩ := ih _ _ hcont
    have hr := runLength_le p.cls (p.cap s) s
    have hcl : c ≤ s.length := by omega
    simp only [List.length_drop] at hle
    refine ⟨by omega, s.take c, (s.drop c).take n', ?_, ?_, ?_, ?_, hm⟩
    · rw [hn, List.take_add]
    · simp only [List.length_take]; omega
    · intro k hk
      have : p.cap s = k := by simp [Piece.cap, hk]
      simp only [List.length_take]; omega
    · exact runLength_take p.cls (p.cap s) s c hck

theorem findAllFrom_mem (pat : List Piece) (s : List Char) (skip : Nat) (m : List Char)
    (h : m ∈ findAllFrom pat skip s) : matchesPieces pat m := by
  induction s generalizing skip with
  | nil => simp [findAllFrom] at h
  | cons c cs ih =>
    cases skip with
    | succ k =>
      simp only [findAllFrom] at h
      exact ih k h
    | zero =>
      simp only [findAllFrom] at h
      split at h
      · rename_i n hn
        simp only [List.mem_cons] at h
        rcases h with rfl | h
        · exact (matchPieces_sound pat (c :: cs) (n + 1) hn).2
        · exact ih n h
      · exact ih 0 h

/-- Every string that `FindAllString` returns belongs to the language of the
pattern. -/
theorem FindAllString_mem (pat : List Piece) (s m : List Char)
    (h : m ∈ FindAllString pat s) : matchesPieces pat m :=
  findAllFrom_mem pat s 0 m h

theorem findAllFrom_of_not_MatchString (pat : List Piece) (s : List Char)
    (h : MatchString pat s = false) (skip : Nat) : findAllFrom pat skip s = [] := by
  induction s generalizing skip with
  | nil => simp [findAllFrom]
  | cons c cs ih =>
    simp only [MatchString, Bool.or_eq_false_iff] at h
    obtain ⟨h1, h2⟩ := h
    cases skip with
    | succ k => simp only [findAllFrom]; exact ih h2 k
    | zero =>
      have hnone : matchPieces pat (c :: cs) = none := by
        cases hm : matchPieces pat (c :: cs) with
        | none => rfl
        | some v => rw [hm] at h1; simp at h1
      simp only [findAllFrom, hnone]
      exact ih h2 0

/-- When the pattern matches nowhere `FindAllString` finds nothing. -/
theorem FindAllString_of_not_MatchString (pat : List Piece) (s : List Char)
    (h : MatchString pat s = false) : FindAllString pat s = [] :=
  findAllFrom_of_not_MatchString pat s h 0

/-! ## `FindDateTimeFromLogFile` -/

theorem lit_run (c : Char) (a : List Char) (h1 : (lit c).min ≤ a.length)
    (h2 : ∀ n, (lit c).max = some n → a.length ≤ n) (h3 : ∀ x ∈ a, (lit c).cls x = true) :
    a = [c] := by
  have h2 := h2 1 rfl
  simp only [lit] at h1 h3
  match a, h1, h2, h3 with
  | [x], _, _, h3 =>
    have := h3 x (List.mem_singleton.2 rfl)
    simp only [beq_iff_eq] at this
    rw [this]

/-- The shape of a string of the language of `\d{4}-\d{2}-\d{2}-\d{2,4}`. -/
theorem dateTimePattern_shape (m : List Char) (h : matchesPieces dateTimePattern m) :
    ∃ y mo d hm, m = y ++ '-' :: (mo ++ '-' :: (d ++ '-' :: hm)) ∧
      y.length = 4 ∧ mo.length = 2 ∧ d.length = 2 ∧ 2 ≤ hm.length ∧ hm.length ≤ 4 ∧
      (∀ c ∈ y, isDigit c = true) ∧ (∀ c ∈ mo, isDigit c = true) ∧
      (∀ c ∈ d, isDigit c = true) ∧ (∀ c ∈ hm, isDigit c = true) := by
  simp only [dateTimePattern, matchesPieces] at h
  obtain ⟨y, r1, e1, hy1, hy2, hy3, s1, r2, e2, hs1a, hs1b, hs1c, mo, r3, e3, hm1, hm2, hm3,
    s2, r4, e4, hs2a, hs2b, hs2c, d, r5, e5, hd1, hd2, hd3, s3, r6, e6, hs3a, hs3b, hs3c,
    hm, r7, e7, hh1, hh2, hh3, e8⟩ := h
  have q1 := lit_run '-' s1 hs1a hs1b hs1c
  have q2 := lit_run '-' s2 hs2a hs2b hs2c
  have q3 := lit_run '-' s3 hs3a hs3b hs3c
  subst e8 q1 q2 q3
  have hy2 := hy2 4 rfl
  have hm2 := hm2 2 rfl
  have hd2 := hd2 2 rfl
  have hh2 := hh2 4 rfl
  simp only [digits] at hy1 hy2 hy3 hm1 hm2 hm3 hd1 hd2 hd3 hh1 hh2 hh3
  refine ⟨y, mo, d, hm, ?_, by omega, by omega, by omega, hh1, hh2, hy3, hm3, hd3, hh3⟩
  rw [e1, e2, e3, e4, e5, e6, e7]
  simp

theorem Split_date (y mo d hm : List Char)
    (hy : ∀ c ∈ y, isDigit c = true) (hmo : ∀ c ∈ mo, isDigit c = true)
    (hd : ∀ c ∈ d, isDigit c = true) (hhm : ∀ c ∈ hm, isDigit c = true) :
    Split '-' (y ++ '-' :: (mo ++ '-' :: (d ++ '-' :: hm))) = [y, mo, d, hm] := by
  rw [Split_append_sep '-' y _ (fun c hc => isDigit_ne_dash c (hy c hc)),
    Split_append_sep '-' mo _ (fun c hc => isDigit_ne_dash c (hmo c hc)),
    Split_append_sep '-' d _ (fun c hc => isDigit_ne_dash c (hd c hc)),
    Split_of_no_sep '-' hm (fun c hc => isDigit_ne_dash c (hhm c hc))]

/-- What `FindDateTimeFromLogFile` returns when `FindAllString` finds the
single date string `y-mo-d-hm`. -/
theorem FindDateTimeFromLogFile_of_single (fileName : String) (y mo d hm : List Char)
    (hyl : y.length = 4) (hmol : mo.length = 2) (hdl : d.length = 2)
    (hl1 : 2 ≤ hm.length) (hl2 : hm.length ≤ 4)
    (hy : ∀ c ∈ y, isDigit c = true) (hmo : ∀ c ∈ mo, isDigit c = true)
    (hd : ∀ c ∈ d, isDigit c = true) (hhm : ∀ c ∈ hm, isDigit c = true)
    (hone : FindAllString dateTimePattern fileName.data
      = [y ++ '-' :: (mo ++ '-' :: (d ++ '-' :: hm))]) :
    FindDateTimeFromLogFile fileName =
      some (Date (decimal y) (decimal mo) (decimal d) (decimal (hm.take 2))
        (decimal (hm.drop 2)) 0 0 UTC, none) := by
  have hmatch : MatchString dateTimePattern fileName.data = true := by
    by_contra hc
    have hf : MatchString dateTimePattern fileName.data = false := by simpa using hc
    rw [FindAllString_of_not_MatchString _ _ hf] at hone
    simp at hone
  have a1 := Atoi_digits y hy (by omega)
  have a2 := Atoi_digits mo hmo (by omega)
  have a3 := Atoi_digits d hd (by omega)
  have a4 := Atoi_digits (hm.take 2) (fun c hc => hhm c (List.mem_of_mem_take hc))
    (by simp only [List.length_take]; omega)
  have a5 := Atoi_digits (hm.drop 2) (fun c hc => hhm c (List.mem_of_mem_drop hc))
    (by simp only [List.length_drop]; omega)
  have hlt : ¬ hm.length < 2 := by omega
  unfold FindDateTimeFromLogFile
  simp only [hmatch, hone, Bool.not_true, Bool.false_eq_true, if_false, List.length_singleton,
    one_ne_zero, gt_iff_lt, lt_self_iff_false, or_self, List.getElem?_cons_zero,
    Split_date y mo d hm hy hmo hd hhm, splitDateFields, hlt, a1, a2, a3, a4, a5]
  simp

/-- The two ways `FindDateTimeFromLogFile` returns: the error, when
`FindAllString` does not find exactly one date string; or the instant that
`time.Date` builds from the fields of the single date string. -/
theorem FindDateTimeFromLogFile_cases (fileName : String) :
    ((FindAllString dateTimePattern fileName.data).length ≠ 1 ∧
      FindDateTimeFromLogFile fileName = some (Time.zero, some (dateTimeError fileName))) ∨
    (∃ y mo d hm, FindAllString dateTimePattern fileName.data
        = [y ++ '-' :: (mo ++ '-' :: (d ++ '-' :: hm))] ∧
      y.length = 4 ∧ mo.length = 2 ∧ d.length = 2 ∧ 2 ≤ hm.length ∧ hm.length ≤ 4 ∧
      (∀ c ∈ y, isDigit c = true) ∧ (∀ c ∈ mo, isDigit c = true) ∧
      (∀ c ∈ d, isDigit c = true) ∧ (∀ c ∈ hm, isDigit c = true) ∧
      FindDateTimeFromLogFile fileName =
        some (Date (decimal y) (decimal mo) (decimal d) (decimal (hm.take 2))
          (decimal (hm.drop 2)) 0 0 UTC, none)) := by
  by_cases hlen : (FindAllString dateTimePattern fileName.data).length = 1
  · right
    obtain ⟨m, hm⟩ := List.length_eq_one.1 hlen
    have hmem : m ∈ FindAllString dateTimePattern fileName.data := by rw [hm]; simp
    obtain ⟨y, mo, d, hmf, e, h1, h2, h3, h4, h5, h6, h7, h8, h9⟩ :=
      dateTimePattern_shape m (FindAllString_mem _ _ _ hmem)
    subst e
    exact ⟨y, mo, d, hmf, hm, h1, h2, h3, h4, h5, h6, h7, h8, h9,
      FindDateTimeFromLogFile_of_single fileName y mo d hmf h1 h2 h3 h4 h5 h6 h7 h8 h9 hm⟩
  · left
    refine ⟨hlen, ?_⟩
    unfold FindDateTimeFromLogFile
    by_cases hmatch : MatchString dateTimePattern fileName.data = true
    · have : (FindAllString dateTimePattern fileName.data).length = 0 ∨
          (FindAllString dateTimePattern fileName.data).length > 1 := by omega
      simp only [hmatch, Bool.not_true, Bool.false_eq_true, if_false, this, if_true]
    · simp [hmatch]

/-- C1. A file name in which `FindAllString` finds exactly one date string,
reading `YYYY-MM-DD-HH` or `YYYY-MM-DD-HHMM` and naming a real calendar date
with `HH ≤ 23` and `MM ≤ 59`: `FindDateTimeFromLogFile` returns no error and
the UTC instant whose year, month, day, hour and minute are the numbers the
digits denote (minute 0 without minute digits), with second 0 and
nanosecond 0. -/
theorem FindDateTimeFromLogFile_single_match (fileName : String) (y mo d h mi : List Char)
    (hyl : y.length = 4) (hmol : mo.length = 2) (hdl : d.length = 2) (hhl : h.length = 2)
    (hmil : mi.length = 0 ∨ mi.length = 2)
    (hdig : ∀ c ∈ y ++ mo ++ d ++ h ++ mi, isDigit c = true)
    (hone : FindAllString dateTimePattern fileName.data
      = [y ++ '-' :: (mo ++ '-' :: (d ++ '-' :: (h ++ mi)))])
    (hdate : validDate (decimal y) (decimal mo) (decimal d))
    (hhour : decimal h ≤ 23) (hmin : decimal mi ≤ 59) :
    ∃ t, FindDateTimeFromLogFile fileName = some (t, none) ∧
      t = Date (decimal y) (decimal mo) (decimal d) (decimal h) (decimal mi) 0 0 UTC ∧
      t.Location = UTC ∧ t.Year = decimal y ∧ t.Month = decimal mo ∧ t.Day = decimal d ∧
      t.Hour = decimal h ∧ t.Minute = decimal mi ∧ t.Second = 0 ∧ t.Nanosecond = 0 := by
  have hy : ∀ c ∈ y, isDigit c = true := fun c hc => hdig c (by simp [hc])
  have hmo : ∀ c ∈ mo, isDigit c = true := fun c hc => hdig c (by simp [hc])
  have hd : ∀ c ∈ d, isDigit c = true := fun c hc => hdig c (by simp [hc])
  have hhm : ∀ c ∈ h ++ mi, isDigit c = true := fun c hc => hdig c (by
    rcases List.mem_append.1 hc with hc | hc <;> simp [hc])
  have e := FindDateTimeFromLogFile_of_single fileName y mo d (h ++ mi) hyl hmol hdl
    (by simp only [List.length_append]; omega) (by simp only [List.length_append]; omega)
    hy hmo hd hhm hone
  have t1 : (h ++ mi).take 2 = h := by rw [← hhl]; exact List.take_left' rfl
  have t2 : (h ++ mi).drop 2 = mi := by rw [← hhl]; exact List.drop_left' rfl
  rw [t1, t2] at e
  obtain ⟨f1, f2, f3, f4, f5, f6, f7, f8⟩ := Date_fields (decimal y) (decimal mo) (decimal d)
    (decimal h) (decimal mi) 0 0 UTC hdate (by omega) (by omega) (by omega) (by omega)
  exact ⟨_, e, rfl, f8, f1, f2, f3, f4, f5, f6, f7⟩

theorem FindDateTimeFromLogFile_single_match_witness :
    ∃ t, FindDateTimeFromLogFile "error/postgresql.log.2024-02-23-0830.csv" = some (t, none) ∧
      t = Date (decimal ['2', '0', '2', '4']) (decimal ['0', '2']) (decimal ['2', '3'])
        (decimal ['0', '8']) (decimal ['3', '0']) 0 0 UTC ∧
      t.Location = UTC ∧ t.Year = decimal ['2', '0', '2', '4'] ∧ t.Month = decimal ['0', '2'] ∧
      t.Day = decimal ['2', '3'] ∧ t.Hour = decimal ['0', '8'] ∧
      t.Minute = decimal ['3', '0'] ∧ t.Second = 0 ∧ t.Nanosecond = 0 :=
  FindDateTimeFromLogFile_single_match "error/postgresql.log.2024-02-23-0830.csv"
    ['2', '0', '2', '4'] ['0', '2'] ['2', '3'] ['0', '8'] ['3', '0']
    (by decide) (by decide) (by decide) (by decide) (by decide) (by decide) (by decide)
    (by decide) (by decide) (by decide)

/-- C2. `FindDateTimeFromLogFile` returns normally on every string (no index
or slice bound is out of range); it returns an error exactly when
`FindAllString` finds no date string or at least two; the error comes with
the zero instant and the message "unable to find the date time for: "
followed by the input. -/
theorem FindDateTimeFromLogFile_error_iff (fileName : String) :
    ∃ t err, FindDateTimeFromLogFile fileName = some (t, err) ∧
      (err ≠ none ↔ (FindAllString dateTimePattern fileName.data).length = 0 ∨
        2 ≤ (FindAllString dateTimePattern fileName.data).length) ∧
      (err ≠ none → t = Time.zero ∧ t.IsZero = true ∧
        err = some ("unable to find the date time for: " ++ fileName)) := by
  rcases FindDateTimeFromLogFile_cases fileName with ⟨hlen, e⟩ | ⟨y, mo, d, hm, hf, _, _, _, _, _,
    _, _, _, _, e⟩
  · refine ⟨_, _, e, ?_, ?_⟩
    · constructor
      · intro _; omega
      · intro _; simp
    · intro _
      exact ⟨rfl, by decide, rfl⟩
  · refine ⟨_, _, e, ?_, ?_⟩
    · rw [hf]
      simp
    · intro h
      exact absurd rfl h

/-! ## Facts about the interval download -/

theorem timeSub_nonneg_iff (t u : Time) : 0 ≤ t.Sub u ↔ u.ns ≤ t.ns := by
  unfold Time.Sub
  simp only []
  have e1 := Time.ns_eq t
  have e2 := Time.ns_eq u
  have b1 := Time.nsec_nonneg t
  have b2 := Time.nsec_lt t
  have b3 := Time.nsec_nonneg u
  have b4 := Time.nsec_lt u
  have hb := Time.Before_iff t u
  simp only [Second, Millisecond, Microsecond, Nanosecond, minDuration, maxDuration]
  split_ifs with h1 h2
  · omega
  · have := hb.1 h2
    omega
  · have : ¬ t.ns < u.ns := fun h => h2 (hb.2 h)
    omega

theorem timeSub_nonpos_iff (t u : Time) : t.Sub u ≤ 0 ↔ t.ns ≤ u.ns := by
  unfold Time.Sub
  simp only []
  have e1 := Time.ns_eq t
  have e2 := Time.ns_eq u
  have b1 := Time.nsec_nonneg t
  have b2 := Time.nsec_lt t
  have b3 := Time.nsec_nonneg u
  have b4 := Time.nsec_lt u
  have hb := Time.Before_iff t u
  simp only [Second, Millisecond, Microsecond, Nanosecond, minDuration, maxDuration]
  split_ifs with h1 h2
  · omega
  · have := hb.1 h2
    omega
  · have : ¬ t.ns < u.ns := fun h => h2 (hb.2 h)
    omega

/-- The rounding of `DownloadLogsInterval` is the rounding down to the hour. -/
theorem roundStart_eq (strictInterval : Bool) (t : Time) :
    roundStart strictInterval t = if strictInterval then t else hourFloor t := by
  unfold roundStart
  cases strictInterval with
  | true => simp
  | false =>
    simp only [Bool.false_eq_true, if_false]
    rw [Date_truncate_hour]
    unfold hourFloor
    congr 1
    have e := Time.ns_eq t
    have b1 := Time.nsec_nonneg t
    have b2 := Time.nsec_lt t
    generalize t.sec = s at *
    generalize t.nsec = n at *
    generalize t.loc.offset = o at *
    omega

theorem hourFloor_le (t : Time) :
    (hourFloor t).ns ≤ t.ns ∧ t.ns < (hourFloor t).ns + 3600000000000 := by
  unfold hourFloor
  simp only []
  omega

/-- The instant rounded down to the hour has the date and the hour of the
instant, and no minutes, seconds or nanoseconds. -/
theorem hourFloor_fields (t : Time) :
    (hourFloor t).Year = t.Year ∧ (hourFloor t).Month = t.Month ∧ (hourFloor t).Day = t.Day ∧
    (hourFloor t).Hour = t.Hour ∧ (hourFloor t).Minute = 0 ∧ (hourFloor t).Second = 0 ∧
    (hourFloor t).Nanosecond = 0 ∧ (hourFloor t).Location = t.Location := by
  have h := roundStart_eq false t
  simp only [Bool.false_eq_true, if_false] at h
  rw [← h]
  unfold roundStart
  simp only [Bool.false_eq_true, if_false]
  obtain ⟨e1, e2, e3⟩ := absYear_spec (t.abs / secondsPerDay)
  obtain ⟨hv, e4⟩ := absMonthDay_spec _ _ e2 e3
  have hv : validDate t.Year t.Month t.Day := hv
  have hH : 0 ≤ t.Hour ∧ t.Hour < 24 := by
    unfold Time.Hour; simp only [secondsPerDay, secondsPerHour, secondsPerMinute]; omega
  exact Date_fields t.Year t.Month t.Day t.Hour 0 0 0 t.Location hv hH (by omega) (by omega)
    (by omega)

theorem filterLogs_eq (start finish : Time) (h : start.ns ≤ finish.ns) (logFiles : List String)
    (acc : List String) :
    filterLogs start finish logFiles acc = some (acc ++ logFiles.filter (inWindow start finish)) := by
  induction logFiles generalizing acc with
  | nil => simp [filterLogs]
  | cons f rest ih =>
    have hb : ∀ t : Time, TimeBetween t start finish = decide (start.ns ≤ t.ns ∧ t.ns ≤ finish.ns) := by
      intro t
      rw [Bool.eq_iff_iff, TimeBetween_iff, decide_eq_true_eq, min_eq_left h, max_eq_right h]
    rcases FindDateTimeFromLogFile_cases f with ⟨_, e⟩ | ⟨_, _, _, _, _, _, _, _, _, _, _, _, _, _, e⟩
    · simp only [filterLogs, e, List.filter_cons, inWindow]
      rw [ih]
      simp
    · simp only [filterLogs, e, List.filter_cons, inWindow, hb]
      split_ifs with hc
      · rw [ih]; simp
      · rw [ih]

/-! ## Facts about the requests of the upload path -/

theorem uploadKeys_append (a b : List Event) :
    uploadKeys (a ++ b) = uploadKeys a ++ uploadKeys b := by
  simp [uploadKeys, List.filterMap_append]

theorem countPutObject_append (key : String) (a b : List Event) :
    countPutObject key (a ++ b) = countPutObject key a + countPutObject key b := by
  simp [countPutObject, List.filter_append]

theorem verifyBucketFolder_trace (env : Env) (client : S3BucketClient) (folder : String)
    (w : World) :
    (verifyBucketFolder env client folder w).2.trace = w.trace ∨
    (verifyBucketFolder env client folder w).2.trace
      = w.trace ++ [Event.ListObjectsV2 client.bucketName (folder ++ "/") 1] := by
  unfold verifyBucketFolder
  split_ifs
  · exact Or.inl rfl
  · exact Or.inr rfl

theorem verifyBucketFolder_uploadKeys (env : Env) (client : S3BucketClient) (folder : String)
    (w : World) : uploadKeys (verifyBucketFolder env client folder w).2.trace = uploadKeys w.trace := by
  rcases verifyBucketFolder_trace env client folder w with h | h <;> rw [h]
  rw [uploadKeys_append]
  simp [uploadKeys]

theorem UploadLargeFile_uploadKeys (env : Env) (f : Option File) (key : String) (w : World) :
    uploadKeys (UploadLargeFile env f key w).2.trace = uploadKeys w.trace ++ [key] := by
  simp [UploadLargeFile, World.emit, uploadKeys_append, uploadKeys]

/-- One `PushLogToBucket` uploads nothing, or the one object
`folder/fileName`, the folder being the process identifier of the client. -/
theorem PushLogToBucket_uploadKeys (env : Env) (client : S3BucketClient) (f : Option File)
    (fileName dbIdentifier : String) (w : World) :
    uploadKeys (PushLogToBucket env client f fileName dbIdentifier w).2.trace = uploadKeys w.trace ∨
    uploadKeys (PushLogToBucket env client f fileName dbIdentifier w).2.trace
      = uploadKeys w.trace ++ [GetProcessID client.ctx ++ "/" ++ fileName] := by
  unfold PushLogToBucket
  simp only []
  have hv := verifyBucketFolder_uploadKeys env client (GetProcessID client.ctx) w
  generalize verifyBucketFolder env client (GetProcessID client.ctx) w = r at hv
  obtain ⟨exist, w1⟩ := r
  simp only [] at hv ⊢
  cases exist with
  | true =>
    simp only [Bool.not_true, Bool.false_eq_true, if_false]
    right
    rw [UploadLargeFile_uploadKeys, hv, formatFilePath]
  | false =>
    simp only [Bool.not_false, if_true]
    have hc : uploadKeys (createBucketFolder env client (GetProcessID client.ctx) dbIdentifier w1).2.trace
        = uploadKeys w1.trace := by
      simp [createBucketFolder, World.emit, uploadKeys_append, uploadKeys]
    generalize createBucketFolder env client (GetProcessID client.ctx) dbIdentifier w1 = r2 at hc
    obtain ⟨err, w2⟩ := r2
    simp only [] at hc
    cases err with
    | some e => left; simp only []; rw [hc, hv]
    | none =>
      right
      simp only []
      rw [UploadLargeFile_uploadKeys, hc, hv, formatFilePath]

theorem World.append_trace (w : World) (name data : String) :
    (w.append name data).trace = w.trace := rfl

theorem downloadLogFileLoop_uploadKeys (env : Env) (db name : String) (tmp : File) (fuel : Nat)
    (token : String) (w : World) (r : Option String × World)
    (h : downloadLogFileLoop env db name tmp fuel token w = some r) :
    uploadKeys r.2.trace = uploadKeys w.trace := by
  induction fuel generalizing token w with
  | zero => simp [downloadLogFileLoop] at h
  | succ n ih =>
    simp only [downloadLogFileLoop] at h
    have he : uploadKeys (w.emit (Event.DownloadDBLogFilePortion db name token 1450)).trace
        = uploadKeys w.trace := by
      simp [World.emit, uploadKeys_append, uploadKeys]
    split at h
    · simp only [Option.some.injEq] at h
      rw [← h]; exact he
    · split at h
      · simp only [Option.some.injEq] at h
        rw [← h]; exact he
      · split at h
        · simp only [Option.some.injEq] at h
          rw [← h]; exact he
        · split_ifs at h
          · simp only [Option.some.injEq] at h
            rw [← h]; exact he
          · rw [ih _ _ h]; exact he

theorem CreateTemp_trace (env : Env) (dir pattern : String) (w : World) :
    (CreateTemp env dir pattern w).2.trace = w.trace ++ [Event.CreateTemp dir pattern] := by
  unfold CreateTemp
  simp only []
  split
  · rfl
  · split <;> rfl

theorem downloadLogFile_uploadKeys (env : Env) (fuel : Nat) (client : RDSClient)
    (db name : String) (w : World) (r : (Option File × Option String) × World)
    (h : downloadLogFile env fuel client db name w = some r) :
    uploadKeys r.2.trace = uploadKeys w.trace := by
  unfold downloadLogFile at h
  have hc := CreateTemp_trace env "/var/tmp" ("rds-log-" ++ GetProcessID client.ctx ++ "-") w
  split at h
  · rename_i err w1 hct
    rw [hct] at hc
    simp only [Option.some.injEq] at h
    rw [← h]
    simp only [] at hc ⊢
    rw [hc]
    simp [uploadKeys_append, uploadKeys]
  · rename_i tmpFile w1 hct
    rw [hct] at hc
    simp only [] at hc
    split at h
    · simp at h
    · rename_i err w' hl
      simp only [Option.some.injEq] at h
      rw [← h]
      have := downloadLogFileLoop_uploadKeys _ _ _ _ _ _ _ _ hl
      simp only [] at this ⊢
      rw [this, hc]
      simp [uploadKeys_append, uploadKeys]

theorem CleanTmpFile_uploadKeys (f : Option File) (w : World) :
    uploadKeys (CleanTmpFile f w).trace = uploadKeys w.trace := by
  cases f with
  | none => rfl
  | some f => simp [CleanTmpFile, World.emit, uploadKeys_append, uploadKeys]

/-- C5. Every object that `startSyncLogProcess` uploads for a log file whose
name has the instant `d` goes to the key `PID/rds_log_PID_` followed by the
Unix seconds of `d`, the process identifier of the run in both places (at
most one object is uploaded); the first path segment of that key is the
process identifier. -/
theorem startSyncLogProcess_upload_key (env : Env) (fuel : Nat) (rdsClient : RDSClient)
    (s3Client : S3BucketClient) (dbIdentifier targetFile pid : String) (d : Time)
    (w w' : World)
    (hr : rdsClient.ctx.pid = some pid) (hs : s3Client.ctx.pid = some pid)
    (hd : FindDateTimeFromLogFile targetFile = some (d, none))
    (hrun : startSyncLogProcess env fuel rdsClient s3Client dbIdentifier targetFile w = some w') :
    (uploadKeys w'.trace = uploadKeys w.trace ∨
      uploadKeys w'.trace = uploadKeys w.trace ++
        [pid ++ "/" ++ ("rds_log_" ++ pid ++ "_" ++ formatInt d.Unix)]) ∧
    ((∀ c ∈ pid.data, c ≠ '/') →
      (Split '/' (pid ++ "/" ++ ("rds_log_" ++ pid ++ "_" ++ formatInt d.Unix)).data).head?
        = some pid.data) := by
  constructor
  · have hfmt : FormatFileNameForS3 rdsClient.ctx targetFile
        = some ("rds_log_" ++ pid ++ "_" ++ formatInt d.Unix, none) := by
      simp only [FormatFileNameForS3, hd, GetProcessID, hr]
      rfl
    have hpid : GetProcessID s3Client.ctx = pid := by simp [GetProcessID, hs]
    unfold startSyncLogProcess at hrun
    rw [hfmt] at hrun
    simp only [] at hrun
    split at hrun
    · simp at hrun
    · rename_i file e w1 hdl
      simp only [Option.some.injEq] at hrun
      left
      rw [← hrun, CleanTmpFile_uploadKeys]
      exact downloadLogFile_uploadKeys _ _ _ _ _ _ _ hdl
    · simp at hrun
    · rename_i file w1 hdl
      have h1 := downloadLogFile_uploadKeys _ _ _ _ _ _ _ hdl
      simp only [] at h1
      generalize hw2 : recordDownload env file w1 = w2 at hrun
      have h2 : uploadKeys w2.trace = uploadKeys w1.trace := by
        rw [← hw2]; unfold recordDownload; split <;> rfl
      have h3 := PushLogToBucket_uploadKeys env s3Client (some file)
        ("rds_log_" ++ pid ++ "_" ++ formatInt d.Unix) dbIdentifier w2
      rw [hpid] at h3
      generalize PushLogToBucket env s3Client (some file)
        ("rds_log_" ++ pid ++ "_" ++ formatInt d.Unix) dbIdentifier w2 = r at h3 hrun
      obtain ⟨err, w3⟩ := r
      simp only [] at h3
      cases err with
      | some e =>
        have hrun : CleanTmpFile (some file) w3 = w' := Option.some.inj hrun
        rw [← hrun, CleanTmpFile_uploadKeys]
        rcases h3 with h3 | h3
        · left; rw [h3, h2, h1]
        · right; rw [h3, h2, h1]
      | none =>
        have hrun : CleanTmpFile (some file) (IncrementUploadedLogs w3) = w' :=
          Option.some.inj hrun
        rw [← hrun, CleanTmpFile_uploadKeys]
        have : (IncrementUploadedLogs w3).trace = w3.trace := rfl
        rw [this]
        rcases h3 with h3 | h3
        · left; rw [h3, h2, h1]
        · right; rw [h3, h2, h1]
  · intro hno
    have e : (pid ++ "/" ++ ("rds_log_" ++ pid ++ "_" ++ formatInt d.Unix)).data
        = pid.data ++ '/' :: ("rds_log_" ++ pid ++ "_" ++ formatInt d.Unix).data := by
      simp [String.data_append]
    rw [e, Split_append_sep '/' pid.data _ hno]
    rfl

theorem startSyncLogProcess_upload_key_witness :
    ∃ w', startSyncLogProcess (sampleEnv [] "bucket" Time.zero []) 1 ⟨sampleCtx⟩
        ⟨sampleCtx, "bucket"⟩ "db" "error/postgresql.log.2024-02-23-0830.csv" World.init = some w' ∧
      uploadKeys w'.trace = ["A1234ASDF/rds_log_A1234ASDF_1708677000"] ∧
      (uploadKeys w'.trace = uploadKeys World.init.trace ∨
        uploadKeys w'.trace = uploadKeys World.init.trace ++
          ["A1234ASDF" ++ "/" ++ ("rds_log_" ++ "A1234ASDF" ++ "_" ++
            formatInt (Date 2024 2 23 8 30 0 0 UTC).Unix)]) := by
  have hrun : (startSyncLogProcess (sampleEnv [] "bucket" Time.zero []) 1 ⟨sampleCtx⟩
      ⟨sampleCtx, "bucket"⟩ "db" "error/postgresql.log.2024-02-23-0830.csv" World.init).isSome
      = true := by decide
  obtain ⟨w', hw'⟩ := Option.isSome_iff_exists.1 hrun
  refine ⟨w', hw', ?_, (startSyncLogProcess_upload_key _ _ _ _ _ _ "A1234ASDF" _ _ _
    rfl rfl (by decide) hw').1⟩
  have : Option.map (fun w => uploadKeys w.trace)
      (startSyncLogProcess (sampleEnv [] "bucket" Time.zero []) 1 ⟨sampleCtx⟩
        ⟨sampleCtx, "bucket"⟩ "db" "error/postgresql.log.2024-02-23-0830.csv" World.init)
      = some ["A1234ASDF/rds_log_A1234ASDF_1708677000"] := by decide
  rw [hw'] at this
  simpa using this

/-! ## The folder marker -/

theorem UploadLargeFile_countPutObject (env : Env) (key : String) (f : Option File)
    (objectKey : String) (w : World) :
    countPutObject key (UploadLargeFile env f objectKey w).2.trace = countPutObject key w.trace := by
  simp [UploadLargeFile, World.emit, countPutObject_append, countPutObject]

theorem createBucketFolder_countPutObject (env : Env) (client : S3BucketClient)
    (folder dbIdentifier : String) (w : World) :
    countPutObject (folder ++ "/") (createBucketFolder env client folder dbIdentifier w).2.trace
      = countPutObject (folder ++ "/") w.trace + 1 := by
  simp [createBucketFolder, World.emit, countPutObject_append, countPutObject]

/-- What `verifyBucketFolder` answers and leaves behind: with the flag set,
`true` and nothing; else it lists the folder once, answers whether the
listing succeeded with an object, and stores the answer in the flag. -/
theorem verifyBucketFolder_cases (env : Env) (client : S3BucketClient) (folder : String)
    (w : World) :
    (w.folderExists = true ∧ verifyBucketFolder env client folder w = (true, w)) ∨
    (w.folderExists = false ∧
      (verifyBucketFolder env client folder w).2.trace
        = w.trace ++ [Event.ListObjectsV2 client.bucketName (folder ++ "/") 1] ∧
      (verifyBucketFolder env client folder w).2.folderExists
        = (verifyBucketFolder env client folder w).1 ∧
      ((verifyBucketFolder env client folder w).1 = true ↔
        ∃ n, env.listObjectsV2 w.trace client.bucketName (folder ++ "/") 1 = .ok (n + 1))) := by
  unfold verifyBucketFolder
  by_cases hf : w.folderExists = true
  · left
    simp [hf]
  · right
    have hf' : w.folderExists = false := by simpa using hf
    simp only [hf', Bool.false_eq_true, if_false, World.emit, true_and]
    cases hl : env.listObjectsV2 w.trace client.bucketName (folder ++ "/") 1 with
    | error e => simp
    | ok n =>
      cases n with
      | zero => simp
      | succ k => simp

/-- One `PushLogToBucket` keeps the number of folder markers at most one,
when every listing made after a marker request reports an object. -/
theorem PushLogToBucket_countPutObject (env : Env) (client : S3BucketClient) (f : Option File)
    (fileName dbIdentifier : String) (w : World)
    (hlist : ∀ tr, 1 ≤ countPutObject (GetProcessID client.ctx ++ "/") tr →
      ∃ n, env.listObjectsV2 tr client.bucketName (GetProcessID client.ctx ++ "/") 1 = .ok (n + 1))
    (h1 : countPutObject (GetProcessID client.ctx ++ "/") w.trace ≤ 1) :
    countPutObject (GetProcessID client.ctx ++ "/")
      (PushLogToBucket env client f fileName dbIdentifier w).2.trace ≤ 1 := by
  unfold PushLogToBucket
  simp only []
  rcases verifyBucketFolder_cases env client (GetProcessID client.ctx) w with ⟨_, hv⟩ |
    ⟨hf, htr, _, hiff⟩
  · rw [hv]
    simp only [Bool.not_true, Bool.false_eq_true, if_false]
    rw [UploadLargeFile_countPutObject]
    exact h1
  · have hcount : countPutObject (GetProcessID client.ctx ++ "/")
        (verifyBucketFolder env client (GetProcessID client.ctx) w).2.trace
        = countPutObject (GetProcessID client.ctx ++ "/") w.trace := by
      rw [htr, countPutObject_append]
      simp [countPutObject]
    generalize verifyBucketFolder env client (GetProcessID client.ctx) w = r at hiff hcount
    obtain ⟨exist, w1⟩ := r
    simp only [] at hiff hcount ⊢
    cases exist with
    | true =>
      simp only [Bool.not_true, Bool.false_eq_true, if_false]
      rw [UploadLargeFile_countPutObject, hcount]
      exact h1
    | false =>
      simp only [Bool.not_false, if_true]
      have hzero : countPutObject (GetProcessID client.ctx ++ "/") w.trace = 0 := by
        by_contra hne
        have := hiff.2 (hlist w.trace (by omega))
        simp at this
      have hc := createBucketFolder_countPutObject env client (GetProcessID client.ctx)
        dbIdentifier w1
      generalize createBucketFolder env client (GetProcessID client.ctx) dbIdentifier w1 = r2
        at hc
      obtain ⟨err, w2⟩ := r2
      simp only [] at hc
      cases err with
      | some e => simp only []; omega
      | none =>
        simp only []
        rw [UploadLargeFile_countPutObject]
        omega

/-- C6 (counterexample). Two `PushLogToBucket` calls from the initial state,
the second listing of the folder timing out: the folder marker `PID/` is
put twice. -/
theorem pushLogs_folder_marker_twice :
    ¬ countPutObject "A1234ASDF/"
      (pushLogs timeoutEnv ⟨sampleCtx, "bucket"⟩ "db" [(none, "a"), (none, "b")]
        World.init).trace ≤ 1 := by
  decide

/-- In a sequence of `PushLogToBucket` calls made one after another and
sharing the folder-existence flag, started before any folder marker was
put, the `PutObject` for the key `PID/` is issued at most once, provided
every listing of the folder made after a marker request succeeds and reports
at least one object. -/
theorem pushLogs_folder_marker_once (env : Env) (client : S3BucketClient)
    (dbIdentifier : String) (calls : List (Option File × String)) (w : World)
    (hlist : ∀ tr, 1 ≤ countPutObject (GetProcessID client.ctx ++ "/") tr →
      ∃ n, env.listObjectsV2 tr client.bucketName (GetProcessID client.ctx ++ "/") 1 = .ok (n + 1))
    (h0 : countPutObject (GetProcessID client.ctx ++ "/") w.trace = 0) :
    countPutObject (GetProcessID client.ctx ++ "/")
      (pushLogs env client dbIdentifier calls w).trace ≤ 1 := by
  have key : ∀ (calls : List (Option File × String)) (w : World),
      countPutObject (GetProcessID client.ctx ++ "/") w.trace ≤ 1 →
      countPutObject (GetProcessID client.ctx ++ "/")
        (pushLogs env client dbIdentifier calls w).trace ≤ 1 := by
    intro calls
    induction calls with
    | nil => intro w h; exact h
    | cons c rest ih =>
      intro w h
      obtain ⟨f, name⟩ := c
      simp only [pushLogs]
      exact ih _ (PushLogToBucket_countPutObject env client f name dbIdentifier w hlist h)
  exact key calls w (by omega)

/-- In the sample world every listing of the folder made after a marker
request succeeds and reports one object. -/
theorem sampleEnv_lists_marker (tr : List Event)
    (h : 1 ≤ countPutObject "A1234ASDF/" tr) :
    ∃ n, (sampleEnv [] "bucket" Time.zero []).listObjectsV2 tr "bucket" "A1234ASDF/" 1
      = .ok (n + 1) := by
  refine ⟨0, ?_⟩
  show (sampleEnv [] "bucket" Time.zero []).listObjectsV2 tr "bucket" "A1234ASDF/" 1 = .ok 1
  simp only [sampleEnv]
  split
  · rfl
  · rename_i hc
    exfalso
    have hz : countPutObject "A1234ASDF/" tr = 0 := by
      unfold countPutObject
      rw [List.length_eq_zero, List.filter_eq_nil_iff]
      intro e he
      rw [List.any_eq_true] at hc
      push_neg at hc
      have := hc e he
      cases e <;> simp_all
    have h' : 1 ≤ countPutObject "A1234ASDF/" tr := h
    omega

/-! ## `DownloadLogsInterval` and `syncLogs` -/

/-- C7. After a successful listing, and for `start ≤ finish`,
`DownloadLogsInterval` runs its workers on exactly the listed files whose
name parses and whose instant lies between the start (rounded down to the
hour unless the interval is strict) and the finish, each as often as it is
listed; files with unparsable names are dropped. -/
theorem DownloadLogsInterval_selects (env : Env) (fuel : Nat) (rdsClient : RDSClient)
    (s3Client : S3BucketClient) (dbIdentifier : String) (strictInterval : Bool)
    (start finish : Time) (w w1 : World) (logFiles : List String)
    (hlist : describeLogFiles env fuel rdsClient dbIdentifier w = some ((logFiles, none), w1))
    (hord : start.ns ≤ finish.ns) :
    DownloadLogsInterval env fuel rdsClient s3Client dbIdentifier strictInterval start finish w
      = (runWorkers env fuel rdsClient s3Client dbIdentifier
          (selectedLogs strictInterval start finish logFiles) w1).map (fun w' => (none, w')) ∧
    (∀ f t, FindDateTimeFromLogFile f = some (t, none) →
      (if strictInterval then start else hourFloor start).ns ≤ t.ns → t.ns ≤ finish.ns →
      (selectedLogs strictInterval start finish logFiles).count f = logFiles.count f) ∧
    (∀ f, (∀ t, FindDateTimeFromLogFile f = some (t, none) →
        ¬ ((if strictInterval then start else hourFloor start).ns ≤ t.ns ∧ t.ns ≤ finish.ns)) →
      (selectedLogs strictInterval start finish logFiles).count f = 0) := by
  have hr := roundStart_eq strictInterval start
  have hle : (if strictInterval then start else hourFloor start).ns ≤ finish.ns := by
    cases strictInterval with
    | true => simpa using hord
    | false =>
      have := (hourFloor_le start).1
      simp only [Bool.false_eq_true, if_false]
      omega
  refine ⟨?_, ?_, ?_⟩
  · unfold DownloadLogsInterval
    rw [hlist]
    simp only []
    rw [hr, filterLogs_eq _ _ hle]
    simp only [List.nil_append]
    unfold selectedLogs
    generalize List.filter (inWindow (if strictInterval = true then start else hourFloor start)
      finish) logFiles = sel
    cases sel with
    | nil => simp [runWorkers]
    | cons a rest =>
      simp only [List.length_cons, Nat.add_one_ne_zero, if_false]
      cases runWorkers env fuel rdsClient s3Client dbIdentifier (a :: rest) w1 <;> rfl
  · intro f t hf h1 h2
    unfold selectedLogs
    apply List.count_filter
    simp only [inWindow, hf, decide_eq_true_eq]
    exact ⟨h1, h2⟩
  · intro f hf
    unfold selectedLogs
    rw [List.count_eq_zero, List.mem_filter]
    rintro ⟨_, hin⟩
    unfold inWindow at hin
    split at hin
    · rename_i t ht
      simp only [decide_eq_true_eq] at hin
      exact hf t ht hin
    · simp at hin

theorem DownloadLogsInterval_selects_witness :
    DownloadLogsInterval
        (sampleEnv ["error/postgresql.log.2024-02-23-0830.csv",
          "error/postgresql.log.2024-02-23-07.csv", "error/summary.csv",
          "error/postgresql.log.2024-02-23-0830.csv", "error/postgresql.log.2024-02-23-09.csv"]
          "bucket" Time.zero [])
        1 ⟨sampleCtx⟩ ⟨sampleCtx, "bucket"⟩ "db" false
        (Date 2024 2 23 8 31 0 0 UTC) (Date 2024 2 23 8 59 0 0 UTC) World.init
      = (runWorkers
          (sampleEnv ["error/postgresql.log.2024-02-23-0830.csv",
            "error/postgresql.log.2024-02-23-07.csv", "error/summary.csv",
            "error/postgresql.log.2024-02-23-0830.csv", "error/postgresql.log.2024-02-23-09.csv"]
            "bucket" Time.zero [])
          1 ⟨sampleCtx⟩ ⟨sampleCtx, "bucket"⟩ "db"
          ["error/postgresql.log.2024-02-23-0830.csv", "error/postgresql.log.2024-02-23-0830.csv"]
          (World.init.emit (Event.DescribeDBLogFiles "db" "0"))).map (fun w' => (none, w')) :=
  (DownloadLogsInterval_selects
    (sampleEnv ["error/postgresql.log.2024-02-23-0830.csv",
      "error/postgresql.log.2024-02-23-07.csv", "error/summary.csv",
      "error/postgresql.log.2024-02-23-0830.csv", "error/postgresql.log.2024-02-23-09.csv"]
      "bucket" Time.zero [])
    1 ⟨sampleCtx⟩ ⟨sampleCtx, "bucket"⟩ "db" false
    (Date 2024 2 23 8 31 0 0 UTC) (Date 2024 2 23 8 59 0 0 UTC) World.init
    (World.init.emit (Event.DescribeDBLogFiles "db" "0"))
    ["error/postgresql.log.2024-02-23-0830.csv",
      "error/postgresql.log.2024-02-23-07.csv", "error/summary.csv",
      "error/postgresql.log.2024-02-23-0830.csv", "error/postgresql.log.2024-02-23-09.csv"]
    (by decide) (by decide)).1.trans (by
      have h : selectedLogs false (Date 2024 2 23 8 31 0 0 UTC) (Date 2024 2 23 8 59 0 0 UTC)
          ["error/postgresql.log.2024-02-23-0830.csv",
            "error/postgresql.log.2024-02-23-07.csv", "error/summary.csv",
            "error/postgresql.log.2024-02-23-0830.csv", "error/postgresql.log.2024-02-23-09.csv"]
          = ["error/postgresql.log.2024-02-23-0830.csv",
            "error/postgresql.log.2024-02-23-0830.csv"] := by decide
      rw [h])

/-- What `syncLogs` does once the window is validated and the bucket is
there: the choice among its three modes, on the clock reading taken on
entry. -/
theorem syncLogs_checked (env : Env) (fuel : Nat) (ctx : Context)
    (dbIdentifier startAt endAt bucketName : String) (start finish : Time) (w : World)
    (hs : parseTimestamp startAt = (start, none)) (hsz : start.IsZero = false)
    (hf : parseTimestamp endAt = (finish, none)) (hfz : finish.IsZero = false)
    (hord : start.ns ≤ finish.ns)
    (h7 : (Validate7DaysInterval env start (CurrentTime env [] w).2).1 = none)
    (hutc : ValidateTimeZone [start, finish] = none)
    (hb : (VerifyBucket env (CreateS3Client env ctx bucketName)
      (Validate7DaysInterval env start (CurrentTime env [] w).2).2).1 = true) :
    syncLogs env fuel ctx dbIdentifier startAt endAt bucketName w =
      if (CurrentTime env [] w).1.ns ≤ start.ns then
        (StreamLogFiles env fuel (CreateRDSClient ctx) (CreateS3Client env ctx bucketName)
          dbIdentifier start finish (checkedWorld env ctx bucketName start w)).map
            (fun w' => (none, w'))
      else if finish.ns ≤ (CurrentTime env [] w).1.ns then
        DownloadLogsInterval env fuel (CreateRDSClient ctx) (CreateS3Client env ctx bucketName)
          dbIdentifier true start finish (checkedWorld env ctx bucketName start w)
      else
        straddle env fuel (CreateRDSClient ctx) (CreateS3Client env ctx bucketName)
          dbIdentifier start finish
          (CurrentTime env [] (checkedWorld env ctx bucketName start w)).1
          (CurrentTime env [] (checkedWorld env ctx bucketName start w)).2 := by
  have hv : ValidateStartFinishInterval start finish = none := by
    unfold ValidateStartFinishInterval
    have : start.After finish = false := by
      rw [Bool.eq_false_iff]
      intro h
      have := (Time.After_iff start finish).1 h
      omega
    simp [this]
  unfold syncLogs checkedWorld
  simp only [hs, hf, hsz, hfz, hv, hutc, ne_eq, not_true_eq_false, Bool.false_eq_true, or_self,
    if_false]
  generalize CurrentTime env [] w = c at h7 hb ⊢
  obtain ⟨currentT, w0⟩ := c
  simp only [] at h7 hb ⊢
  generalize Validate7DaysInterval env start w0 = v at h7 hb ⊢
  obtain ⟨e7, w1⟩ := v
  simp only [] at h7 hb ⊢
  subst h7
  simp only []
  generalize VerifyBucket env (CreateS3Client env ctx bucketName) w1 = b at hb ⊢
  obtain ⟨ok, w2⟩ := b
  simp only [] at hb ⊢
  subst hb
  simp only [ge_iff_le, timeSub_nonneg_iff, timeSub_nonpos_iff]
  split_ifs
  · cases StreamLogFiles env fuel (CreateRDSClient ctx) (CreateS3Client env ctx bucketName)
      dbIdentifier start finish w2 <;> rfl
  · rfl
  · rfl

/-- C8. With a validated window and the bucket present, `syncLogs` chooses
its mode on the time `now` read on entry: for `start ≥ now` it runs only the
streamer over `[start, finish]`; else, for `finish ≤ now`, only the interval
download, strict, over `[start, finish]`; else (`start < now < finish`) the
straddling composition. -/
theorem syncLogs_mode (env : Env) (fuel : Nat) (ctx : Context)
    (dbIdentifier startAt endAt bucketName : String) (start finish : Time) (w : World)
    (hs : parseTimestamp startAt = (start, none)) (hsz : start.IsZero = false)
    (hf : parseTimestamp endAt = (finish, none)) (hfz : finish.IsZero = false)
    (hord : start.ns ≤ finish.ns)
    (h7 : (Validate7DaysInterval env start (CurrentTime env [] w).2).1 = none)
    (hutc : ValidateTimeZone [start, finish] = none)
    (hb : (VerifyBucket env (CreateS3Client env ctx bucketName)
      (Validate7DaysInterval env start (CurrentTime env [] w).2).2).1 = true) :
    ((CurrentTime env [] w).1.ns ≤ start.ns →
      syncLogs env fuel ctx dbIdentifier startAt endAt bucketName w =
        (StreamLogFiles env fuel (CreateRDSClient ctx) (CreateS3Client env ctx bucketName)
          dbIdentifier start finish (checkedWorld env ctx bucketName start w)).map
            (fun w' => (none, w'))) ∧
    (start.ns < (CurrentTime env [] w).1.ns → finish.ns ≤ (CurrentTime env [] w).1.ns →
      syncLogs env fuel ctx dbIdentifier startAt endAt bucketName w =
        DownloadLogsInterval env fuel (CreateRDSClient ctx) (CreateS3Client env ctx bucketName)
          dbIdentifier true start finish (checkedWorld env ctx bucketName start w)) ∧
    (start.ns < (CurrentTime env [] w).1.ns → (CurrentTime env [] w).1.ns < finish.ns →
      syncLogs env fuel ctx dbIdentifier startAt endAt bucketName w =
        straddle env fuel (CreateRDSClient ctx) (CreateS3Client env ctx bucketName)
          dbIdentifier start finish
          (CurrentTime env [] (checkedWorld env ctx bucketName start w)).1
          (CurrentTime env [] (checkedWorld env ctx bucketName start w)).2) := by
  have h := syncLogs_checked env fuel ctx dbIdentifier startAt endAt bucketName start finish w
    hs hsz hf hfz hord h7 hutc hb
  refine ⟨?_, ?_, ?_⟩
  · intro h1
    rw [h, if_pos h1]
  · intro h1 h2
    rw [h, if_neg (by omega), if_pos h2]
  · intro h1 h2
    rw [h, if_neg (by omega), if_neg (by omega)]

theorem syncLogs_mode_witness :
    syncLogs (sampleEnv ["error/postgresql.log.2024-02-23-0830.csv"] "bucket"
        (Date 2024 2 23 12 0 0 0 UTC) []) 1 sampleCtx "db"
        "2024-02-23 08:00:00.000 UTC" "2024-02-23 10:00:00.000 UTC" "bucket" World.init =
      DownloadLogsInterval (sampleEnv ["error/postgresql.log.2024-02-23-0830.csv"] "bucket"
        (Date 2024 2 23 12 0 0 0 UTC) []) 1 (CreateRDSClient sampleCtx)
        (CreateS3Client (sampleEnv ["error/postgresql.log.2024-02-23-0830.csv"] "bucket"
          (Date 2024 2 23 12 0 0 0 UTC) []) sampleCtx "bucket")
        "db" true (Date 2024 2 23 8 0 0 0 UTC) (Date 2024 2 23 10 0 0 0 UTC)
        (checkedWorld (sampleEnv ["error/postgresql.log.2024-02-23-0830.csv"] "bucket"
          (Date 2024 2 23 12 0 0 0 UTC) []) sampleCtx "bucket" (Date 2024 2 23 8 0 0 0 UTC)
          World.init) :=
  (syncLogs_mode (sampleEnv ["error/postgresql.log.2024-02-23-0830.csv"] "bucket"
      (Date 2024 2 23 12 0 0 0 UTC) []) 1 sampleCtx "db"
      "2024-02-23 08:00:00.000 UTC" "2024-02-23 10:00:00.000 UTC" "bucket"
      (Date 2024 2 23 8 0 0 0 UTC) (Date 2024 2 23 10 0 0 0 UTC) World.init
      (by decide) (by decide) (by decide) (by decide) (by decide) (by decide) (by decide)
      (by decide)).2.1 (by decide) (by decide)

/-- C9. In straddling mode (the start before and the finish after the time
read on entry) `syncLogs` runs, with the time `now` that it reads at the
hand-off, after the bucket check, the interval download, not strict, over
`[start - period, now - period]` and the streamer over `[now, finish]`; it
returns only when both have returned, with the error of the download. -/
theorem syncLogs_straddle (env : Env) (fuel : Nat) (ctx : Context)
    (dbIdentifier startAt endAt bucketName : String) (start finish : Time) (w : World)
    (hs : parseTimestamp startAt = (start, none)) (hsz : start.IsZero = false)
    (hf : parseTimestamp endAt = (finish, none)) (hfz : finish.IsZero = false)
    (h7 : (Validate7DaysInterval env start (CurrentTime env [] w).2).1 = none)
    (hutc : ValidateTimeZone [start, finish] = none)
    (hb : (VerifyBucket env (CreateS3Client env ctx bucketName)
      (Validate7DaysInterval env start (CurrentTime env [] w).2).2).1 = true)
    (h1 : start.ns < (CurrentTime env [] w).1.ns)
    (h2 : (CurrentTime env [] w).1.ns < finish.ns) :
    syncLogs env fuel ctx dbIdentifier startAt endAt bucketName w =
      straddle env fuel (CreateRDSClient ctx) (CreateS3Client env ctx bucketName)
        dbIdentifier start finish
        (CurrentTime env [] (checkedWorld env ctx bucketName start w)).1
        (CurrentTime env [] (checkedWorld env ctx bucketName start w)).2 ∧
    (∀ r, syncLogs env fuel ctx dbIdentifier startAt endAt bucketName w = some r →
      ∃ err w4 w5,
        DownloadLogsInterval env fuel (CreateRDSClient ctx) (CreateS3Client env ctx bucketName)
          dbIdentifier false
          (start.Add (-1 * GetIntervalSync (checkedWorld env ctx bucketName start w)))
          ((CurrentTime env [] (checkedWorld env ctx bucketName start w)).1.Add
            (-1 * GetIntervalSync (checkedWorld env ctx bucketName start w)))
          (CurrentTime env [] (checkedWorld env ctx bucketName start w)).2 = some (err, w4) ∧
        StreamLogFiles env fuel (CreateRDSClient ctx) (CreateS3Client env ctx bucketName)
          dbIdentifier (CurrentTime env [] (checkedWorld env ctx bucketName start w)).1 finish w4
          = some w5 ∧
        r = (err, w5)) := by
  have h := syncLogs_checked env fuel ctx dbIdentifier startAt endAt bucketName start finish w
    hs hsz hf hfz (by omega) h7 hutc hb
  rw [if_neg (by omega), if_neg (by omega)] at h
  refine ⟨h, ?_⟩
  intro r hr
  rw [h] at hr
  unfold straddle at hr
  have hp : (CurrentTime env [] (checkedWorld env ctx bucketName start w)).2.intervalLogSync
      = GetIntervalSync (checkedWorld env ctx bucketName start w) := rfl
  rw [hp] at hr
  split at hr
  · simp at hr
  · rename_i err w4 hd
    split at hr
    · simp at hr
    · rename_i w5 hst
      simp only [Option.some.injEq] at hr
      exact ⟨err, w4, w5, hd, hst, hr.symm⟩

theorem syncLogs_straddle_witness :
    syncLogs tickingEnv 1 sampleCtx "db" "2024-02-23 08:45:00.000 UTC"
        "2024-02-23 13:00:00.000 UTC" "bucket" World.init =
      straddle tickingEnv 1 (CreateRDSClient sampleCtx)
        (CreateS3Client tickingEnv sampleCtx "bucket") "db"
        (Date 2024 2 23 8 45 0 0 UTC) (Date 2024 2 23 13 0 0 0 UTC)
        (CurrentTime tickingEnv []
          (checkedWorld tickingEnv sampleCtx "bucket" (Date 2024 2 23 8 45 0 0 UTC)
            World.init)).1
        (CurrentTime tickingEnv []
          (checkedWorld tickingEnv sampleCtx "bucket" (Date 2024 2 23 8 45 0 0 UTC)
            World.init)).2 :=
  (syncLogs_straddle tickingEnv 1 sampleCtx "db" "2024-02-23 08:45:00.000 UTC"
    "2024-02-23 13:00:00.000 UTC" "bucket" (Date 2024 2 23 8 45 0 0 UTC)
    (Date 2024 2 23 13 0 0 0 UTC) World.init
    (by decide) (by decide) (by decide) (by decide) (by decide) (by decide) (by decide)
    (by decide) (by decide)).1

/-- C10 (the code at the failing input). With an empty start string
`syncLogs` makes no request, and returns a nil error; so it does with an
empty finish string after a start that parses. -/
theorem syncLogs_empty_timestamp (env : Env) (fuel : Nat) (ctx : Context)
    (dbIdentifier endAt bucketName : String) (w : World) :
    syncLogs env fuel ctx dbIdentifier "" endAt bucketName w
      = some (none, (CurrentTime env [] w).2) ∧
    syncLogs env fuel ctx dbIdentifier "2024-02-23 08:00:00.000 UTC" "" bucketName w
      = some (none, (CurrentTime env [] w).2) ∧
    (CurrentTime env [] w).2.trace = w.trace := by
  refine ⟨?_, ?_, rfl⟩
  · unfold syncLogs
    have hp : parseTimestamp "" = (Time.zero, none) := by decide
    have hz : Time.zero.IsZero = true := by decide
    simp only [hp, hz, or_true, if_true]
  · unfold syncLogs
    have hp : parseTimestamp "2024-02-23 08:00:00.000 UTC"
        = (Date 2024 2 23 8 0 0 0 UTC, none) := by decide
    have hnz : (Date 2024 2 23 8 0 0 0 UTC).IsZero = false := by decide
    have hp2 : parseTimestamp "" = (Time.zero, none) := by decide
    have hz : Time.zero.IsZero = true := by decide
    simp only [hp, hnz, hp2, hz, ne_eq, not_true_eq_false, Bool.false_eq_true, or_self,
      if_false, or_true, if_true]

/-- C4. For a context carrying the process identifier `p`:
`FormatFileNameForS3` returns `rds_log_p_` followed by the decimal Unix
seconds of the instant of the file name, and no error, when
`FindDateTimeFromLogFile` succeeds; the empty string and the same error when
it fails; one of the two always happens. -/
theorem FormatFileNameForS3_spec (ctx : Context) (p n : String) (hp : ctx.pid = some p) :
    (∀ d, FindDateTimeFromLogFile n = some (d, none) →
      FormatFileNameForS3 ctx n = some ("rds_log_" ++ p ++ "_" ++ formatInt d.Unix, none)) ∧
    (∀ t e, FindDateTimeFromLogFile n = some (t, some e) →
      FormatFileNameForS3 ctx n = some ("", some e)) ∧
    ((∃ d, FindDateTimeFromLogFile n = some (d, none)) ∨
      ∃ t e, FindDateTimeFromLogFile n = some (t, some e)) := by
  refine ⟨?_, ?_, ?_⟩
  · intro d hd
    simp only [FormatFileNameForS3, hd, GetProcessID, hp]
    rfl
  · intro t e he
    simp only [FormatFileNameForS3, he]
  · rcases FindDateTimeFromLogFile_cases n with ⟨_, e⟩ | ⟨_, _, _, _, _, _, _, _, _, _, _, _, _, _, e⟩
    · exact Or.inr ⟨_, _, e⟩
    · exact Or.inl ⟨_, e⟩

theorem FormatFileNameForS3_spec_witness :
    FormatFileNameForS3 sampleCtx "error/postgresql.log.2024-02-23-0830.csv"
      = some ("rds_log_" ++ "A1234ASDF" ++ "_" ++ formatInt (Date 2024 2 23 8 30 0 0 UTC).Unix,
          none) ∧
    "rds_log_" ++ "A1234ASDF" ++ "_" ++ formatInt (Date 2024 2 23 8 30 0 0 UTC).Unix
      = "rds_log_A1234ASDF_1708677000" ∧
    FormatFileNameForS3 sampleCtx "error/log112349876123"
      = some ("", some "unable to find the date time for: error/log112349876123") :=
  ⟨(FormatFileNameForS3_spec sampleCtx "A1234ASDF" "error/postgresql.log.2024-02-23-0830.csv"
      rfl).1 _ (by decide),
    by decide,
    (FormatFileNameForS3_spec sampleCtx "A1234ASDF" "error/log112349876123" rfl).2.1 Time.zero _
      (by decide)⟩

/-! ## The requests that each function adds to the trace -/

theorem countCreateTemp_append (a b : List Event) :
    countCreateTemp (a ++ b) = countCreateTemp a + countCreateTemp b := by
  simp [countCreateTemp, List.filter_append]

theorem countSnapshots_append (a b : List Event) :
    countSnapshots (a ++ b) = countSnapshots a + countSnapshots b := by
  simp [countSnapshots, List.filter_append]

theorem verifyBucketFolder_delta (env : Env) (client : S3BucketClient) (folder : String)
    (w : World) :
    ∃ evs, (verifyBucketFolder env client folder w).2.trace = w.trace ++ evs ∧
      countCreateTemp evs = 0 ∧ countSnapshots evs = 0 ∧
      (verifyBucketFolder env client folder w).2.files = w.files := by
  unfold verifyBucketFolder
  split_ifs
  · exact ⟨[], by simp, rfl, rfl, rfl⟩
  · exact ⟨[Event.ListObjectsV2 client.bucketName (folder ++ "/") 1], rfl, rfl, rfl, rfl⟩

theorem createBucketFolder_delta (env : Env) (client : S3BucketClient)
    (folder dbIdentifier : String) (w : World) :
    ∃ evs, (createBucketFolder env client folder dbIdentifier w).2.trace = w.trace ++ evs ∧
      countCreateTemp evs = 0 ∧ countSnapshots evs = 0 ∧
      (createBucketFolder env client folder dbIdentifier w).2.files = w.files :=
  ⟨[Event.PutObject client.bucketName (folder ++ "/") [("db-identifier", dbIdentifier)]],
    rfl, rfl, rfl, rfl⟩

theorem UploadLargeFile_delta (env : Env) (f : Option File) (key : String) (w : World) :
    ∃ evs, (UploadLargeFile env f key w).2.trace = w.trace ++ evs ∧
      countCreateTemp evs = 0 ∧ countSnapshots evs = 0 ∧
      (UploadLargeFile env f key w).2.files = w.files :=
  ⟨[Event.UploadLargeFile (f.map (fun f => f.name))
      (match f with
        | some f => w.content f.name
        | none => "") key], rfl, rfl, rfl, rfl⟩

/-- The requests of one `PushLogToBucket`: none of them creates a temp file
or asks for a snapshot, and the local files stay as they are. -/
theorem PushLogToBucket_delta (env : Env) (client : S3BucketClient) (f : Option File)
    (fileName dbIdentifier : String) (w : World) :
    ∃ evs, (PushLogToBucket env client f fileName dbIdentifier w).2.trace = w.trace ++ evs ∧
      countCreateTemp evs = 0 ∧ countSnapshots evs = 0 ∧
      (PushLogToBucket env client f fileName dbIdentifier w).2.files = w.files := by
  unfold PushLogToBucket
  simp only []
  obtain ⟨e1, h1, c1, s1, f1⟩ := verifyBucketFolder_delta env client (GetProcessID client.ctx) w
  generalize verifyBucketFolder env client (GetProcessID client.ctx) w = r at h1 f1
  obtain ⟨exist, w1⟩ := r
  simp only [] at h1 f1 ⊢
  cases exist with
  | true =>
    simp only [Bool.not_true, Bool.false_eq_true, if_false]
    obtain ⟨e2, h2, c2, s2, f2⟩ := UploadLargeFile_delta env f
      (formatFilePath (GetProcessID client.ctx) fileName) w1
    exact ⟨e1 ++ e2, by rw [h2, h1, List.append_assoc],
      by rw [countCreateTemp_append, c1, c2], by rw [countSnapshots_append, s1, s2],
      by rw [f2, f1]⟩
  | false =>
    simp only [Bool.not_false, if_true]
    obtain ⟨e2, h2, c2, s2, f2⟩ := createBucketFolder_delta env client (GetProcessID client.ctx)
      dbIdentifier w1
    generalize createBucketFolder env client (GetProcessID client.ctx) dbIdentifier w1 = r2
      at h2 f2
    obtain ⟨err, w2⟩ := r2
    simp only [] at h2 f2
    cases err with
    | some e =>
      exact ⟨e1 ++ e2, by simp only []; rw [h2, h1, List.append_assoc],
        by rw [countCreateTemp_append, c1, c2], by rw [countSnapshots_append, s1, s2],
        by simp only []; rw [f2, f1]⟩
    | none =>
      simp only []
      obtain ⟨e3, h3, c3, s3, f3⟩ := UploadLargeFile_delta env f
        (formatFilePath (GetProcessID client.ctx) fileName) w2
      exact ⟨e1 ++ e2 ++ e3, by rw [h3, h2, h1]; simp only [List.append_assoc],
        by rw [countCreateTemp_append, countCreateTemp_append, c1, c2, c3],
        by rw [countSnapshots_append, countSnapshots_append, s1, s2, s3],
        by rw [f3, f2, f1]⟩

theorem describeLogFilesLoop_delta (env : Env) (db : String) (fuel : Nat) (token : String)
    (files : List String) (w : World) (r : (List String × Option String) × World)
    (h : describeLogFilesLoop env db fuel token files w = some r) :
    ∃ evs, r.2.trace = w.trace ++ evs ∧ countCreateTemp evs = 0 ∧ countSnapshots evs = 0 ∧
      r.2.files = w.files := by
  induction fuel generalizing token files w with
  | zero => simp [describeLogFilesLoop] at h
  | succ n ih =>
    simp only [describeLogFilesLoop] at h
    have one : ∃ evs, (w.emit (Event.DescribeDBLogFiles db token)).trace = w.trace ++ evs ∧
        countCreateTemp evs = 0 ∧ countSnapshots evs = 0 ∧
        (w.emit (Event.DescribeDBLogFiles db token)).files = w.files :=
      ⟨[Event.DescribeDBLogFiles db token], rfl, rfl, rfl, rfl⟩
    split at h
    · simp only [Option.some.injEq] at h
      rw [← h]; exact one
    · split at h
      · simp only [Option.some.injEq] at h
        rw [← h]; exact one
      · split_ifs at h
        · simp only [Option.some.injEq] at h
          rw [← h]; exact one
        · obtain ⟨e2, h2, c2, s2, f2⟩ := ih _ _ _ h
          exact ⟨[Event.DescribeDBLogFiles db token] ++ e2,
            by rw [h2]; simp [World.emit], by rw [countCreateTemp_append, c2]; rfl,
            by rw [countSnapshots_append, s2]; rfl, by rw [f2]; rfl⟩

theorem downloadLogFileLoop_delta (env : Env) (db name : String) (tmp : File) (fuel : Nat)
    (token : String) (w : World) (r : Option String × World)
    (h : downloadLogFileLoop env db name tmp fuel token w = some r) :
    ∃ evs, r.2.trace = w.trace ++ evs ∧ countCreateTemp evs = 0 ∧ countSnapshots evs = 0 ∧
      (∀ e ∈ evs, ∃ m, e = Event.DownloadDBLogFilePortion db name m 1450) := by
  induction fuel generalizing token w with
  | zero => simp [downloadLogFileLoop] at h
  | succ n ih =>
    simp only [downloadLogFileLoop] at h
    have one : ∃ evs, (w.emit (Event.DownloadDBLogFilePortion db name token 1450)).trace
          = w.trace ++ evs ∧
        countCreateTemp evs = 0 ∧ countSnapshots evs = 0 ∧
        (∀ e ∈ evs, ∃ m, e = Event.DownloadDBLogFilePortion db name m 1450) :=
      ⟨[Event.DownloadDBLogFilePortion db name token 1450], rfl, rfl, rfl,
        fun e he => ⟨token, by simpa using he⟩⟩
    split at h
    · simp only [Option.some.injEq] at h
      rw [← h]; exact one
    · split at h
      · simp only [Option.some.injEq] at h
        rw [← h]; exact one
      · split at h
        · simp only [Option.some.injEq] at h
          rw [← h]; exact one
        · split_ifs at h
          · simp only [Option.some.injEq] at h
            rw [← h]; exact one
          · obtain ⟨e2, h2, c2, s2, d2⟩ := ih _ _ h
            refine ⟨[Event.DownloadDBLogFilePortion db name token 1450] ++ e2,
              by rw [h2]; simp [World.emit, World.append],
              by rw [countCreateTemp_append, c2]; rfl,
              by rw [countSnapshots_append, s2]; rfl, ?_⟩
            intro e he
            rcases List.mem_append.1 he with he | he
            · exact ⟨token, by simpa using he⟩
            · exact d2 e he

theorem downloadLogFile_delta (env : Env) (fuel : Nat) (client : RDSClient) (db name : String)
    (w : World) (r : (Option File × Option String) × World)
    (h : downloadLogFile env fuel client db name w = some r) :
    ∃ evs, r.2.trace = w.trace ++ evs ∧ countCreateTemp evs = 1 ∧ countSnapshots evs = 0 := by
  unfold downloadLogFile at h
  have hc := CreateTemp_trace env "/var/tmp" ("rds-log-" ++ GetProcessID client.ctx ++ "-") w
  split at h
  · rename_i err w1 hct
    rw [hct] at hc
    simp only [Option.some.injEq] at h
    rw [← h]
    exact ⟨_, hc, rfl, rfl⟩
  · rename_i tmpFile w1 hct
    rw [hct] at hc
    simp only [] at hc
    split at h
    · simp at h
    · rename_i err w' hl
      simp only [Option.some.injEq] at h
      rw [← h]
      obtain ⟨e2, h2, c2, s2, _⟩ := downloadLogFileLoop_delta _ _ _ _ _ _ _ _ hl
      simp only [] at h2 ⊢
      exact ⟨[Event.CreateTemp "/var/tmp" ("rds-log-" ++ GetProcessID client.ctx ++ "-")] ++ e2,
        by rw [h2, hc, List.append_assoc], by rw [countCreateTemp_append, c2]; rfl,
        by rw [countSnapshots_append, s2]; rfl⟩

theorem CleanTmpFile_delta (f : Option File) (w : World) :
    ∃ evs, (CleanTmpFile f w).trace = w.trace ++ evs ∧ countCreateTemp evs = 0 ∧
      countSnapshots evs = 0 := by
  cases f with
  | none => exact ⟨[], by simp [CleanTmpFile], rfl, rfl⟩
  | some f => exact ⟨[Event.Remove f.name], rfl, rfl, rfl⟩

theorem recordDownload_trace (env : Env) (file : File) (w : World) :
    (recordDownload env file w).trace = w.trace ∧ (recordDownload env file w).files = w.files := by
  unfold recordDownload
  split <;> exact ⟨rfl, rfl⟩

/-- The requests of one `startSyncLogProcess` that returns: none for a name
that does not parse; else one temp file is created; no snapshot request. -/
theorem startSyncLogProcess_delta (env : Env) (fuel : Nat) (rdsClient : RDSClient)
    (s3Client : S3BucketClient) (db targetFile : String) (w w' : World)
    (h : startSyncLogProcess env fuel rdsClient s3Client db targetFile w = some w') :
    ∃ evs, w'.trace = w.trace ++ evs ∧ countSnapshots evs = 0 ∧
      ((∃ t, FindDateTimeFromLogFile targetFile = some (t, none)) → countCreateTemp evs = 1) ∧
      ((∃ t e, FindDateTimeFromLogFile targetFile = some (t, some e)) → evs = []) := by
  unfold startSyncLogProcess at h
  rcases FindDateTimeFromLogFile_cases targetFile with ⟨_, e⟩ |
    ⟨_, _, _, _, _, _, _, _, _, _, _, _, _, _, e⟩
  · have hfmt : FormatFileNameForS3 rdsClient.ctx targetFile
        = some ("", some (dateTimeError targetFile)) := by
      simp only [FormatFileNameForS3, e]
    rw [hfmt] at h
    simp only [Option.some.injEq] at h
    subst h
    exact ⟨[], by simp, rfl, fun ⟨t, ht⟩ => by rw [e] at ht; simp at ht, fun _ => rfl⟩
  · have hfmt : ∃ nm, FormatFileNameForS3 rdsClient.ctx targetFile = some (nm, none) := by
      simp only [FormatFileNameForS3, e]
      exact ⟨_, rfl⟩
    obtain ⟨nm, hfmt⟩ := hfmt
    rw [hfmt] at h
    simp only [] at h
    have hno : ¬ ∃ t e', FindDateTimeFromLogFile targetFile = some (t, some e') := by
      rintro ⟨t, e', h'⟩
      rw [e] at h'
      simp at h'
    split at h
    · simp at h
    · rename_i file er w1 hdl
      obtain ⟨e1, h1, c1, s1⟩ := downloadLogFile_delta _ _ _ _ _ _ _ hdl
      simp only [] at h1
      simp only [Option.some.injEq] at h
      obtain ⟨e2, h2, c2, s2⟩ := CleanTmpFile_delta file w1
      rw [← h]
      exact ⟨e1 ++ e2, by rw [h2, h1, List.append_assoc],
        by rw [countSnapshots_append, s1, s2],
        fun _ => by rw [countCreateTemp_append, c1, c2], fun hx => absurd hx hno⟩
    · simp at h
    · rename_i file w1 hdl
      obtain ⟨e1, h1, c1, s1⟩ := downloadLogFile_delta _ _ _ _ _ _ _ hdl
      simp only [] at h1
      have hrec := recordDownload_trace env file w1
      generalize recordDownload env file w1 = w2 at h hrec
      obtain ⟨e3, h3, c3, s3, _⟩ := PushLogToBucket_delta env s3Client (some file) nm db w2
      generalize PushLogToBucket env s3Client (some file) nm db w2 = r at h h3
      obtain ⟨err, w3⟩ := r
      simp only [] at h3
      cases err with
      | some er =>
        have h : CleanTmpFile (some file) w3 = w' := Option.some.inj h
        obtain ⟨e4, h4, c4, s4⟩ := CleanTmpFile_delta (some file) w3
        rw [← h]
        exact ⟨e1 ++ e3 ++ e4, by rw [h4, h3, hrec.1, h1]; simp only [List.append_assoc],
          by rw [countSnapshots_append, countSnapshots_append, s1, s3, s4],
          fun _ => by rw [countCreateTemp_append, countCreateTemp_append, c1, c3, c4],
          fun hx => absurd hx hno⟩
      | none =>
        have h : CleanTmpFile (some file) (IncrementUploadedLogs w3) = w' := Option.some.inj h
        obtain ⟨e4, h4, c4, s4⟩ := CleanTmpFile_delta (some file) (IncrementUploadedLogs w3)
        have ht : (IncrementUploadedLogs w3).trace = w3.trace := rfl
        rw [← h]
        exact ⟨e1 ++ e3 ++ e4, by rw [h4, ht, h3, hrec.1, h1]; simp only [List.append_assoc],
          by rw [countSnapshots_append, countSnapshots_append, s1, s3, s4],
          fun _ => by rw [countCreateTemp_append, countCreateTemp_append, c1, c3, c4],
          fun hx => absurd hx hno⟩

/-- The workers of `DownloadLogsInterval` on names that all parse create one
temp file for each name, when they all return. -/
theorem runWorkers_delta (env : Env) (fuel : Nat) (rdsClient : RDSClient)
    (s3Client : S3BucketClient) (db : String) (names : List String) (w w' : World)
    (h : runWorkers env fuel rdsClient s3Client db names w = some w') :
    ∃ evs, w'.trace = w.trace ++ evs ∧ countSnapshots evs = 0 ∧
      ((∀ n ∈ names, ∃ t, FindDateTimeFromLogFile n = some (t, none)) →
        countCreateTemp evs = names.length) := by
  induction names generalizing w with
  | nil =>
    simp only [runWorkers, Option.some.injEq] at h
    subst h
    exact ⟨[], by simp, rfl, fun _ => rfl⟩
  | cons n rest ih =>
    simp only [runWorkers] at h
    split at h
    · simp at h
    · rename_i w1 h1
      obtain ⟨e1, t1, s1, c1, _⟩ := startSyncLogProcess_delta _ _ _ _ _ _ _ _ h1
      obtain ⟨e2, t2, s2, c2⟩ := ih _ h
      refine ⟨e1 ++ e2, by rw [t2, t1, List.append_assoc],
        by rw [countSnapshots_append, s1, s2], ?_⟩
      intro hall
      rw [countCreateTemp_append, c1 (hall n (List.mem_cons_self _ _)),
        c2 (fun m hm => hall m (List.mem_cons_of_mem _ hm))]
      simp only [List.length_cons]
      omega

theorem DownloadLogsInterval_delta (env : Env) (fuel : Nat) (rdsClient : RDSClient)
    (s3Client : S3BucketClient) (db : String) (strict : Bool) (start finish : Time)
    (w : World) (r : Option String × World)
    (h : DownloadLogsInterval env fuel rdsClient s3Client db strict start finish w = some r) :
    ∃ evs, r.2.trace = w.trace ++ evs ∧ countSnapshots evs = 0 := by
  unfold DownloadLogsInterval at h
  split at h
  · simp at h
  · rename_i l e w1 hd
    obtain ⟨e1, t1, _, s1, _⟩ := describeLogFilesLoop_delta _ _ _ _ _ _ _ hd
    simp only [Option.some.injEq] at h
    rw [← h]
    exact ⟨e1, t1, s1⟩
  · rename_i l w1 hd
    obtain ⟨e1, t1, _, s1, _⟩ := describeLogFilesLoop_delta _ _ _ _ _ _ _ hd
    simp only [] at t1 h
    split at h
    · simp at h
    · split_ifs at h
      · simp only [Option.some.injEq] at h
        rw [← h]
        exact ⟨e1, t1, s1⟩
      · split at h
        · simp at h
        · rename_i w2 hw
          obtain ⟨e2, t2, s2, _⟩ := runWorkers_delta _ _ _ _ _ _ _ _ hw
          simp only [Option.some.injEq] at h
          rw [← h]
          exact ⟨e1 ++ e2, by simp only []; rw [t2, t1, List.append_assoc],
            by rw [countSnapshots_append, s1, s2]⟩

theorem runTicks_delta (env : Env) (fuel : Nat) (rdsClient : RDSClient)
    (s3Client : S3BucketClient) (db : String) (endAt : Time) (ticks : List Time)
    (w w' : World)
    (h : runTicks env fuel rdsClient s3Client db endAt ticks w = some w') :
    ∃ evs, w'.trace = w.trace ++ evs ∧ countSnapshots evs = 0 := by
  induction ticks generalizing w with
  | nil =>
    simp only [runTicks, Option.some.injEq] at h
    subst h
    exact ⟨[], by simp, rfl⟩
  | cons t rest ih =>
    simp only [runTicks] at h
    split at h
    · simp at h
    · rename_i er w1 hd
      obtain ⟨e1, t1, s1⟩ := DownloadLogsInterval_delta _ _ _ _ _ _ _ _ _ _ hd
      simp only [] at t1
      obtain ⟨e2, t2, s2⟩ := ih _ h
      by_cases hc : t.After endAt = true
      · rw [if_pos hc] at t2
        exact ⟨e1 ++ [Event.Cancel] ++ e2,
          by rw [t2]; simp only [World.emit]; rw [t1]; simp only [List.append_assoc],
          by rw [countSnapshots_append, countSnapshots_append, s1, s2]; rfl⟩
      · rw [if_neg hc] at t2
        exact ⟨e1 ++ e2, by rw [t2, t1, List.append_assoc],
          by rw [countSnapshots_append, s1, s2]⟩

theorem StreamLogFiles_delta (env : Env) (fuel : Nat) (rdsClient : RDSClient)
    (s3Client : S3BucketClient) (db : String) (startAt endAt : Time) (w w' : World)
    (h : StreamLogFiles env fuel rdsClient s3Client db startAt endAt w = some w') :
    ∃ evs, w'.trace = w.trace ++ evs ∧ countSnapshots evs = 0 := by
  unfold StreamLogFiles at h
  simp only [] at h
  obtain ⟨e1, t1, s1⟩ := runTicks_delta _ _ _ _ _ _ _ _ _ h
  exact ⟨[Event.NewTimer (endAt.Add (2 * Second)),
      Event.Every (startAt.Add (1 * Second)) w.intervalLogSync] ++ e1,
    by rw [t1]; simp [World.emit], by rw [countSnapshots_append, s1]; rfl⟩

/-! ### The validations of `syncLogs` -/

theorem Date_loc (year month day hour min sec nsec : Int) (loc : Location) :
    (Date year month day hour min sec nsec loc).loc = loc := rfl

theorem parseTimestamp_loc (input : String) : (parseTimestamp input).1.loc = UTC := by
  unfold parseTimestamp
  split
  · rfl
  · split
    · rfl
    · rename_i t h
      unfold Parse at h
      split at h
      · simp at h
      · simp only [Prod.mk.injEq, and_true] at h
        rw [← h]
        rfl

theorem ValidateTimeZone_of_utc (dates : List Time) (h : ∀ d ∈ dates, d.loc = UTC) :
    ValidateTimeZone dates = none := by
  induction dates with
  | nil => rfl
  | cons d rest ih =>
    have hd := h d (List.mem_cons_self _ _)
    have h1 : d.Zone.1 = "UTC" := by simp [Time.Zone, hd, UTC]
    have h2 : d.Zone.2 = 0 := by simp [Time.Zone, hd, UTC]
    simp only [ValidateTimeZone, h1, h2, ne_eq, not_true_eq_false, or_self, if_false]
    exact ih (fun x hx => h x (List.mem_cons_of_mem _ hx))

theorem ValidateStartFinishInterval_iff (start finish : Time) :
    ValidateStartFinishInterval start finish ≠ none ↔ finish.ns < start.ns := by
  unfold ValidateStartFinishInterval
  rw [← Time.After_iff]
  split <;> simp_all

theorem Validate7DaysInterval_iff (env : Env) (startAt : Time) (w : World) :
    (Validate7DaysInterval env startAt w).1 ≠ none ↔
      startAt.ns < (env.now w.clock).ns - 7 * 24 * Hour := by
  unfold Validate7DaysInterval CurrentTime
  simp only [List.foldl_cons, List.foldl_nil]
  have key : ((startAt.After (((env.now w.clock).UTC).Add (-1 * daysLogRetention * 24 * Hour))
      || startAt.Equal (((env.now w.clock).UTC).Add (-1 * daysLogRetention * 24 * Hour))) = true)
      ↔ (env.now w.clock).ns - 7 * 24 * Hour ≤ startAt.ns := by
    rw [Bool.or_eq_true, Time.After_iff, Time.Equal_iff]
    simp only [Time.Add, Time.UTC, daysLogRetention]
    constructor
    · intro h
      omega
    · intro h
      omega
  split
  · rename_i h
    have := key.1 h
    simp only [ne_eq, not_true_eq_false, false_iff]
    omega
  · rename_i h
    have : ¬ ((env.now w.clock).ns - 7 * 24 * Hour ≤ startAt.ns) := fun h' => h (key.2 h')
    simp only [ne_eq, reduceCtorEq, not_false_eq_true, true_iff]
    omega

theorem Validate7DaysInterval_trace (env : Env) (startAt : Time) (w : World) :
    (Validate7DaysInterval env startAt w).2.trace = w.trace := by
  unfold Validate7DaysInterval CurrentTime
  simp only []
  split <;> rfl

theorem VerifyBucket_trace (env : Env) (client : S3BucketClient) (w : World) :
    (VerifyBucket env client w).2.trace = w.trace ++ [Event.ListBuckets] := by
  unfold VerifyBucket
  simp only []
  split <;> rfl

theorem VerifyBucket_iff (env : Env) (client : S3BucketClient) (w : World) :
    (VerifyBucket env client w).1 = true ↔
      ∃ names, env.listBuckets w.trace = .ok names ∧ client.bucketName ∈ names := by
  unfold VerifyBucket
  simp only []
  split
  · rename_i e h
    simp [h]
  · rename_i names h
    simp only [h, Except.ok.injEq, exists_eq_left', List.any_eq_true, beq_iff_eq]
    constructor
    · rintro ⟨x, hx, rfl⟩
      exact hx
    · intro hx
      exact ⟨_, hx, rfl⟩

theorem checkedWorld_trace (env : Env) (ctx : Context) (bucketName : String) (start : Time)
    (w : World) :
    (checkedWorld env ctx bucketName start w).trace = w.trace ++ [Event.ListBuckets] := by
  unfold checkedWorld
  rw [VerifyBucket_trace, Validate7DaysInterval_trace]
  rfl

theorem parseTimestamp_utc (input : String) (t : Time) (h : parseTimestamp input = (t, none)) :
    t.loc = UTC := by
  have := parseTimestamp_loc input
  rw [h] at this
  exact this

/-- A run of `syncLogs` whose window does not pass the validations: it
returns an error and makes no request. -/
theorem syncLogs_invalid (env : Env) (fuel : Nat) (ctx : Context)
    (dbIdentifier startAt endAt bucketName : String) (start finish : Time) (w : World)
    (hs : parseTimestamp startAt = (start, none)) (hsz : start.IsZero = false)
    (hf : parseTimestamp endAt = (finish, none)) (hfz : finish.IsZero = false)
    (hbad : ValidateStartFinishInterval start finish ≠ none ∨
      (Validate7DaysInterval env start (CurrentTime env [] w).2).1 ≠ none) :
    ∃ err w', syncLogs env fuel ctx dbIdentifier startAt endAt bucketName w
        = some (some err, w') ∧ w'.trace = w.trace := by
  unfold syncLogs
  simp only [hs, hf, hsz, hfz, ne_eq, not_true_eq_false, Bool.false_eq_true, or_self,
    if_false]
  cases hv : ValidateStartFinishInterval start finish with
  | some e => exact ⟨e, _, rfl, rfl⟩
  | none =>
    simp only []
    rw [hv] at hbad
    have h7 : (Validate7DaysInterval env start (CurrentTime env [] w).2).1 ≠ none := by
      rcases hbad with h | h
      · exact absurd rfl h
      · exact h
    have ht := Validate7DaysInterval_trace env start (CurrentTime env [] w).2
    generalize Validate7DaysInterval env start (CurrentTime env [] w).2 = v at h7 ht
    obtain ⟨e7, w1⟩ := v
    cases e7 with
    | none => exact absurd rfl h7
    | some e => exact ⟨e, w1, rfl, ht⟩

/-- A run of `syncLogs` whose window passes the validations, when the bucket
check fails. -/
theorem syncLogs_no_bucket (env : Env) (fuel : Nat) (ctx : Context)
    (dbIdentifier startAt endAt bucketName : String) (start finish : Time) (w : World)
    (hs : parseTimestamp startAt = (start, none)) (hsz : start.IsZero = false)
    (hf : parseTimestamp endAt = (finish, none)) (hfz : finish.IsZero = false)
    (hord : start.ns ≤ finish.ns)
    (h7 : (Validate7DaysInterval env start (CurrentTime env [] w).2).1 = none)
    (hb : (VerifyBucket env (CreateS3Client env ctx bucketName)
      (Validate7DaysInterval env start (CurrentTime env [] w).2).2).1 = false) :
    syncLogs env fuel ctx dbIdentifier startAt endAt bucketName w =
      some (some ("no bucket found with name: " ++ bucketName),
        checkedWorld env ctx bucketName start w) := by
  have hv : ValidateStartFinishInterval start finish = none := by
    by_contra h
    have := (ValidateStartFinishInterval_iff start finish).1 h
    omega
  have hutc : ValidateTimeZone [start, finish] = none := by
    apply ValidateTimeZone_of_utc
    intro d hd
    simp only [List.mem_cons, List.mem_singleton, List.not_mem_nil, or_false] at hd
    rcases hd with rfl | rfl
    · exact parseTimestamp_utc _ _ hs
    · exact parseTimestamp_utc _ _ hf
  unfold syncLogs checkedWorld
  simp only [hs, hf, hsz, hfz, hv, hutc, ne_eq, not_true_eq_false, Bool.false_eq_true, or_self,
    if_false]
  generalize CurrentTime env [] w = c at h7 hb ⊢
  obtain ⟨currentT, w0⟩ := c
  simp only [] at h7 hb ⊢
  generalize Validate7DaysInterval env start w0 = v at h7 hb ⊢
  obtain ⟨e7, w1⟩ := v
  simp only [] at h7 hb ⊢
  subst h7
  simp only []
  generalize VerifyBucket env (CreateS3Client env ctx bucketName) w1 = b at hb ⊢
  obtain ⟨ok, w2⟩ := b
  simp only [] at hb ⊢
  subst hb
  rfl

/-- A run of `syncLogs` whose window passes the validations starts with the
bucket check. -/
theorem syncLogs_valid_trace (env : Env) (fuel : Nat) (ctx : Context)
    (dbIdentifier startAt endAt bucketName : String) (start finish : Time) (w : World)
    (hs : parseTimestamp startAt = (start, none)) (hsz : start.IsZero = false)
    (hf : parseTimestamp endAt = (finish, none)) (hfz : finish.IsZero = false)
    (hord : start.ns ≤ finish.ns)
    (h7 : (Validate7DaysInterval env start (CurrentTime env [] w).2).1 = none)
    (r : Option String × World)
    (hr : syncLogs env fuel ctx dbIdentifier startAt endAt bucketName w = some r) :
    ∃ evs, r.2.trace = w.trace ++ Event.ListBuckets :: evs ∧ countSnapshots evs = 0 := by
  have hutc : ValidateTimeZone [start, finish] = none := by
    apply ValidateTimeZone_of_utc
    intro d hd
    simp only [List.mem_cons, List.mem_singleton, List.not_mem_nil, or_false] at hd
    rcases hd with rfl | rfl
    · exact parseTimestamp_utc _ _ hs
    · exact parseTimestamp_utc _ _ hf
  have hcw := checkedWorld_trace env ctx bucketName start w
  cases hb : (VerifyBucket env (CreateS3Client env ctx bucketName)
      (Validate7DaysInterval env start (CurrentTime env [] w).2).2).1 with
  | false =>
    rw [syncLogs_no_bucket env fuel ctx dbIdentifier startAt endAt bucketName start finish w
      hs hsz hf hfz hord h7 hb] at hr
    simp only [Option.some.injEq] at hr
    rw [← hr]
    exact ⟨[], hcw, rfl⟩
  | true =>
    rw [syncLogs_checked env fuel ctx dbIdentifier startAt endAt bucketName start finish w
      hs hsz hf hfz hord h7 hutc hb] at hr
    generalize checkedWorld env ctx bucketName start w = cw at hr hcw
    split_ifs at hr
    · cases hst : StreamLogFiles env fuel (CreateRDSClient ctx)
          (CreateS3Client env ctx bucketName) dbIdentifier start finish cw with
      | none => rw [hst] at hr; simp at hr
      | some w2 =>
        rw [hst] at hr
        simp only [Option.map_some', Option.some.injEq] at hr
        obtain ⟨e, t, s⟩ := StreamLogFiles_delta _ _ _ _ _ _ _ _ _ hst
        rw [← hr]
        exact ⟨e, by simp only []; rw [t, hcw]; simp, s⟩
    · obtain ⟨e, t, s⟩ := DownloadLogsInterval_delta _ _ _ _ _ _ _ _ _ _ hr
      exact ⟨e, by rw [t, hcw]; simp, s⟩
    · unfold straddle at hr
      split at hr
      · simp at hr
      · rename_i err w4 hd
        split at hr
        · simp at hr
        · rename_i w5 hst
          simp only [Option.some.injEq] at hr
          obtain ⟨e1, t1, s1⟩ := DownloadLogsInterval_delta _ _ _ _ _ _ _ _ _ _ hd
          obtain ⟨e2, t2, s2⟩ := StreamLogFiles_delta _ _ _ _ _ _ _ _ _ hst
          simp only [] at t1
          have hc : (CurrentTime env [] cw).2.trace = cw.trace := rfl
          rw [← hr]
          exact ⟨e1 ++ e2, by simp only []; rw [t2, t1, hc, hcw]; simp,
            by rw [countSnapshots_append, s1, s2]⟩

/-- C11. For start and finish strings that parse to non-zero instants (which
are then in UTC): `ValidateStartFinishInterval` fails exactly when start is
after finish, and `Validate7DaysInterval` exactly when start is earlier than
its clock reading minus 7 days; when one of the two fails `syncLogs` returns
an error with no request made; otherwise (start equal to finish, and start
exactly 7 days before the reading, included) `syncLogs` goes on to the bucket
check: every result it returns comes after a `ListBuckets` request. -/
theorem syncLogs_validation (env : Env) (fuel : Nat) (ctx : Context)
    (dbIdentifier startAt endAt bucketName : String) (start finish : Time) (w : World)
    (hs : parseTimestamp startAt = (start, none)) (hsz : start.IsZero = false)
    (hf : parseTimestamp endAt = (finish, none)) (hfz : finish.IsZero = false) :
    (start.Zone = ("UTC", 0) ∧ finish.Zone = ("UTC", 0)) ∧
    (ValidateStartFinishInterval start finish ≠ none ↔ finish.ns < start.ns) ∧
    (∀ w0, (Validate7DaysInterval env start w0).1 ≠ none ↔
      start.ns < (env.now w0.clock).ns - 7 * 24 * Hour) ∧
    ((finish.ns < start.ns ∨ start.ns < (env.now (w.clock + 1)).ns - 7 * 24 * Hour) →
      ∃ err w', syncLogs env fuel ctx dbIdentifier startAt endAt bucketName w
        = some (some err, w') ∧ w'.trace = w.trace) ∧
    (¬ (finish.ns < start.ns ∨ start.ns < (env.now (w.clock + 1)).ns - 7 * 24 * Hour) →
      ∀ r, syncLogs env fuel ctx dbIdentifier startAt endAt bucketName w = some r →
        ∃ evs, r.2.trace = w.trace ++ Event.ListBuckets :: evs) := by
  have h7iff := Validate7DaysInterval_iff env start (CurrentTime env [] w).2
  have hclock : (CurrentTime env [] w).2.clock = w.clock + 1 := rfl
  rw [hclock] at h7iff
  refine ⟨⟨?_, ?_⟩, ValidateStartFinishInterval_iff start finish,
    fun w0 => Validate7DaysInterval_iff env start w0, ?_, ?_⟩
  · simp [Time.Zone, parseTimestamp_utc _ _ hs, UTC]
  · simp [Time.Zone, parseTimestamp_utc _ _ hf, UTC]
  · intro hbad
    apply syncLogs_invalid env fuel ctx dbIdentifier startAt endAt bucketName start finish w
      hs hsz hf hfz
    rcases hbad with h | h
    · exact Or.inl ((ValidateStartFinishInterval_iff start finish).2 h)
    · exact Or.inr (h7iff.2 h)
  · intro hok r hr
    have hord : start.ns ≤ finish.ns := by
      by_contra h
      exact hok (Or.inl (by omega))
    have h7 : (Validate7DaysInterval env start (CurrentTime env [] w).2).1 = none := by
      by_contra h
      exact hok (Or.inr (h7iff.1 h))
    obtain ⟨evs, h, _⟩ := syncLogs_valid_trace env fuel ctx dbIdentifier startAt endAt
      bucketName start finish w hs hsz hf hfz hord h7 r hr
    exact ⟨evs, h⟩

theorem syncLogs_validation_witness :
    (Date 2024 2 16 12 0 0 0 UTC).ns = (Date 2024 2 23 12 0 0 0 UTC).ns - 7 * 24 * Hour ∧
    ∃ evs, [Event.ListBuckets, Event.DescribeDBLogFiles "db" "0"]
      = World.init.trace ++ Event.ListBuckets :: evs :=
  ⟨by decide,
    (syncLogs_validation (sampleEnv [] "bucket" (Date 2024 2 23 12 0 0 0 UTC) []) 1 sampleCtx
      "db" "2024-02-16 12:00:00.000 UTC" "2024-02-16 12:00:00.000 UTC" "bucket"
      (Date 2024 2 16 12 0 0 0 UTC) (Date 2024 2 16 12 0 0 0 UTC) World.init
      (by decide) (by decide) (by decide) (by decide)).2.2.2.2 (by decide)
      (none, { World.init with
        trace := [Event.ListBuckets, Event.DescribeDBLogFiles "db" "0"], clock := 2 })
      (by decide)⟩

/-! ### `ValidateTimeZone` -/

/-- C12 (counterexample). An instant of a zone named `GMT` with the offset
zero: every zone offset of the list is zero, yet `ValidateTimeZone` returns
an error. -/
theorem ValidateTimeZone_rejects_offset_zero :
    (∀ d ∈ [Date 2024 2 23 12 0 0 0 ⟨"GMT", 0⟩], d.Zone.2 = 0) ∧
    ValidateTimeZone [Date 2024 2 23 12 0 0 0 ⟨"GMT", 0⟩] ≠ none := by
  decide

/-- C12 (amended). `ValidateTimeZone` returns nil if and only if every given
instant has the zone name `UTC` and the zone offset zero (nil for an empty
list); otherwise it returns the error whose message names, by its `String()`
form, the first instant in argument order whose zone name is not `UTC` or
whose zone offset is not zero. -/
theorem ValidateTimeZone_spec (dates : List Time) :
    ValidateTimeZone [] = none ∧
    (ValidateTimeZone dates = none ↔ ∀ d ∈ dates, d.Zone = ("UTC", 0)) ∧
    (∀ pre d post, dates = pre ++ d :: post → (∀ x ∈ pre, x.Zone = ("UTC", 0)) →
      d.Zone ≠ ("UTC", 0) →
      ValidateTimeZone dates
        = some ("the date provided is not in UTC timezone, date: " ++ d.String)) := by
  have hz : ∀ d : Time, (d.Zone.1 ≠ "UTC" ∨ d.Zone.2 ≠ 0) ↔ d.Zone ≠ ("UTC", 0) := by
    intro d
    rw [← not_and_or, ne_eq, Prod.ext_iff]
  refine ⟨rfl, ?_, ?_⟩
  · induction dates with
    | nil => simp [ValidateTimeZone]
    | cons d rest ih =>
      simp only [ValidateTimeZone, hz]
      split
      · rename_i h
        simp only [reduceCtorEq, List.mem_cons, forall_eq_or_imp, false_iff, not_and]
        intro h'
        exact absurd h' h
      · rename_i h
        rw [ih]
        simp only [List.mem_cons, forall_eq_or_imp]
        have h' : d.Zone = ("UTC", 0) := not_not.1 h
        simp [h']
  · intro pre d post hd hpre hbad
    subst hd
    induction pre with
    | nil =>
      simp only [List.nil_append, ValidateTimeZone, hz]
      rw [if_pos hbad]
    | cons x rest ih =>
      have hx : x.Zone = ("UTC", 0) := hpre x (List.mem_cons_self _ _)
      simp only [List.cons_append, ValidateTimeZone, hz]
      rw [if_neg (not_not.2 hx)]
      exact ih (fun y hy => hpre y (List.mem_cons_of_mem _ hy))

theorem ValidateTimeZone_spec_witness :
    ValidateTimeZone [Date 2024 2 23 12 0 0 0 UTC, Date 2024 2 23 7 0 0 0 ⟨"EST", -18000⟩,
        Date 2024 2 23 12 0 0 0 ⟨"GMT", 0⟩]
      = some ("the date provided is not in UTC timezone, date: " ++
          (Date 2024 2 23 7 0 0 0 ⟨"EST", -18000⟩).String) :=
  (ValidateTimeZone_spec [Date 2024 2 23 12 0 0 0 UTC, Date 2024 2 23 7 0 0 0 ⟨"EST", -18000⟩,
      Date 2024 2 23 12 0 0 0 ⟨"GMT", 0⟩]).2.2
    [Date 2024 2 23 12 0 0 0 UTC] (Date 2024 2 23 7 0 0 0 ⟨"EST", -18000⟩)
    [Date 2024 2 23 12 0 0 0 ⟨"GMT", 0⟩] rfl (by decide) (by decide)

/-! ### The bucket check of `syncLogs` -/

/-- C13 (the code when the bucket is missing). `VerifyBucket` returns true
exactly when `ListBuckets` succeeds and the name of the client is among the
returned names. For a valid window, when `ListBuckets` fails or its names do
not include the name of the client, `VerifyBucket` returns false and
`syncLogs` returns, after the `ListBuckets` request and no other request,
the error `no bucket found with name: ` followed by its argument
`bucketName`, which is not the name of the client when that name comes from
the environment variable. -/
theorem syncLogs_bucket_missing (env : Env) (fuel : Nat) (ctx : Context)
    (dbIdentifier startAt endAt bucketName : String) (start finish : Time) (w : World)
    (hs : parseTimestamp startAt = (start, none)) (hsz : start.IsZero = false)
    (hf : parseTimestamp endAt = (finish, none)) (hfz : finish.IsZero = false)
    (hord : start.ns ≤ finish.ns)
    (h7 : (env.now (w.clock + 1)).ns - 7 * 24 * Hour ≤ start.ns)
    (hmiss : ∀ names, env.listBuckets w.trace = .ok names →
      (CreateS3Client env ctx bucketName).bucketName ∉ names) :
    (∀ client w0, (VerifyBucket env client w0).1 = true ↔
      ∃ names, env.listBuckets w0.trace = .ok names ∧ client.bucketName ∈ names) ∧
    (VerifyBucket env (CreateS3Client env ctx bucketName) w).1 = false ∧
    ∃ w', syncLogs env fuel ctx dbIdentifier startAt endAt bucketName w
        = some (some ("no bucket found with name: " ++ bucketName), w') ∧
      w'.trace = w.trace ++ [Event.ListBuckets] := by
  have hno : ∀ w0 : World, w0.trace = w.trace →
      (VerifyBucket env (CreateS3Client env ctx bucketName) w0).1 = false := by
    intro w0 ht
    rw [Bool.eq_false_iff]
    intro h
    obtain ⟨names, h1, h2⟩ := (VerifyBucket_iff env _ w0).1 h
    rw [ht] at h1
    exact hmiss names h1 h2
  refine ⟨fun client w0 => VerifyBucket_iff env client w0, hno w rfl, ?_⟩
  have h7n : (Validate7DaysInterval env start (CurrentTime env [] w).2).1 = none := by
    by_contra h
    have := (Validate7DaysInterval_iff env start (CurrentTime env [] w).2).1 h
    have hclock : (CurrentTime env [] w).2.clock = w.clock + 1 := rfl
    rw [hclock] at this
    omega
  have hb := hno (Validate7DaysInterval env start (CurrentTime env [] w).2).2
    (by rw [Validate7DaysInterval_trace]; rfl)
  exact ⟨_, syncLogs_no_bucket env fuel ctx dbIdentifier startAt endAt bucketName start finish w
    hs hsz hf hfz hord h7n hb, checkedWorld_trace env ctx bucketName start w⟩

theorem syncLogs_bucket_missing_witness :
    (CreateS3Client envBucketEnv sampleCtx "").bucketName = "logs-bucket" ∧
    ∃ w', syncLogs envBucketEnv 1 sampleCtx "db" "2024-02-23 08:00:00.000 UTC"
        "2024-02-23 10:00:00.000 UTC" "" World.init
        = some (some ("no bucket found with name: " ++ ""), w') ∧
      w'.trace = World.init.trace ++ [Event.ListBuckets] :=
  ⟨by decide,
    (syncLogs_bucket_missing envBucketEnv 1 sampleCtx "db" "2024-02-23 08:00:00.000 UTC"
      "2024-02-23 10:00:00.000 UTC" "" (Date 2024 2 23 8 0 0 0 UTC)
      (Date 2024 2 23 10 0 0 0 UTC) World.init (by decide) (by decide) (by decide) (by decide)
      (by decide) (by decide)
      (by
        intro names h
        have h' : names = ["another-bucket"] := by
          have : envBucketEnv.listBuckets World.init.trace = .ok ["another-bucket"] := rfl
          rw [this] at h
          exact (Except.ok.inj h).symm
        rw [h']
        decide)).2.2⟩

/-! ### The two branches of `StartSyncProcess` -/

/-- The log branch makes no snapshot request. -/
theorem syncLogs_delta (env : Env) (fuel : Nat) (ctx : Context)
    (dbIdentifier startAt endAt bucketName : String) (w : World) (r : Option String × World)
    (hr : syncLogs env fuel ctx dbIdentifier startAt endAt bucketName w = some r) :
    ∃ evs, r.2.trace = w.trace ++ evs ∧ countSnapshots evs = 0 := by
  have hnil : ∀ (e : Option String), r = (e, (CurrentTime env [] w).2) →
      ∃ evs, r.2.trace = w.trace ++ evs ∧ countSnapshots evs = 0 := by
    intro e he
    rw [he]
    exact ⟨[], by simp [CurrentTime], rfl⟩
  cases hs : parseTimestamp startAt with
  | mk start e1 =>
  by_cases h1 : e1 ≠ none ∨ start.IsZero = true
  · unfold syncLogs at hr
    simp only [hs, h1, if_true, Option.some.injEq] at hr
    exact hnil e1 hr.symm
  · have he1 : e1 = none := by
      by_contra h
      exact h1 (Or.inl h)
    have hsz : start.IsZero = false := by
      rw [Bool.eq_false_iff]
      intro h
      exact h1 (Or.inr h)
    subst he1
    cases hf : parseTimestamp endAt with
    | mk finish e2 =>
    by_cases h2 : e2 ≠ none ∨ finish.IsZero = true
    · unfold syncLogs at hr
      simp only [hs, hsz, hf, h2, ne_eq, not_true_eq_false, Bool.false_eq_true, or_self,
        if_false, if_true, Option.some.injEq] at hr
      exact hnil e2 hr.symm
    · have he2 : e2 = none := by
        by_contra h
        exact h2 (Or.inl h)
      have hfz : finish.IsZero = false := by
        rw [Bool.eq_false_iff]
        intro h
        exact h2 (Or.inr h)
      subst he2
      by_cases hv : ValidateStartFinishInterval start finish ≠ none ∨
          (Validate7DaysInterval env start (CurrentTime env [] w).2).1 ≠ none
      · obtain ⟨err, w', h, ht⟩ := syncLogs_invalid env fuel ctx dbIdentifier startAt endAt
          bucketName start finish w hs hsz hf hfz hv
        rw [h] at hr
        simp only [Option.some.injEq] at hr
        rw [← hr]
        exact ⟨[], by simp [ht], rfl⟩
      · have hord : start.ns ≤ finish.ns := by
          by_contra h
          exact hv (Or.inl ((ValidateStartFinishInterval_iff start finish).2 (by omega)))
        have h7 : (Validate7DaysInterval env start (CurrentTime env [] w).2).1 = none := by
          by_contra h
          exact hv (Or.inr h)
        obtain ⟨evs, h, s⟩ := syncLogs_valid_trace env fuel ctx dbIdentifier startAt endAt
          bucketName start finish w hs hsz hf hfz hord h7 r hr
        exact ⟨Event.ListBuckets :: evs, h, by
          have : Event.ListBuckets :: evs = [Event.ListBuckets] ++ evs := rfl
          rw [this, countSnapshots_append, s]
          rfl⟩

theorem belongsToACluster_trace (env : Env) (client : RDSClient) (dbIdentifier : String)
    (w : World) :
    (belongsToACluster env client dbIdentifier w).2.trace
      = w.trace ++ [Event.DescribeDBInstances dbIdentifier] := by
  unfold belongsToACluster
  simp only []
  split <;> rfl

/-- Go `CreateDBSnapshot` makes exactly one snapshot request. -/
theorem CreateDBSnapshot_delta (env : Env) (client : RDSClient) (dbName : String)
    (startAt : Time) (w : World) :
    ∃ evs, (CreateDBSnapshot env client dbName startAt w).2.trace = w.trace ++ evs ∧
      countSnapshots evs = 1 := by
  unfold CreateDBSnapshot Until
  simp only []
  have hb := belongsToACluster_trace env client dbName
    ({ w with clock := w.clock + 1 }.emit (Event.Sleep (startAt.Sub (env.now w.clock))))
  generalize belongsToACluster env client dbName
    ({ w with clock := w.clock + 1 }.emit (Event.Sleep (startAt.Sub (env.now w.clock)))) = b
    at hb
  obtain ⟨⟨cl, ok⟩, w1⟩ := b
  simp only [World.emit] at hb
  cases ok with
  | true =>
    exact ⟨[Event.Sleep (startAt.Sub (env.now w.clock)), Event.DescribeDBInstances dbName,
      Event.CreateDBClusterSnapshot cl (buildSnapshotIdentifier client.ctx) buildTagsSnapshot],
      by simp [World.emit, hb], rfl⟩
  | false =>
    exact ⟨[Event.Sleep (startAt.Sub (env.now w.clock)), Event.DescribeDBInstances dbName,
      Event.CreateDBSnapshot dbName (buildSnapshotIdentifier client.ctx) buildTagsSnapshot],
      by simp [World.emit, hb], rfl⟩

/-- The snapshot branch makes one snapshot request when a snapshot is due,
and none otherwise. -/
theorem snapshotBranch_delta (env : Env) (ctx : Context) (dbIdentifier startAt : String)
    (w : World) :
    ∃ evs, (snapshotBranch env ctx dbIdentifier startAt w).trace = w.trace ++ evs ∧
      countSnapshots evs = (if snapshotDue env ctx startAt w = true then 1 else 0) := by
  unfold snapshotBranch snapshotDue
  by_cases hrec : IsRecovery ctx = true
  · simp only [hrec, if_true, Bool.not_true, Bool.false_and]
    exact ⟨[], by simp, rfl⟩
  · have hrec' : IsRecovery ctx = false := by simpa using hrec
    simp only [hrec', Bool.false_eq_true, if_false, Bool.not_false, Bool.true_and]
    have hloc := parseTimestamp_loc startAt
    unfold createSnapshot
    generalize parseTimestamp startAt = p at hloc
    obtain ⟨start, err⟩ := p
    simp only [] at hloc ⊢
    cases err with
    | some e =>
      simp only [ne_eq, reduceCtorEq, not_false_eq_true, if_true, Option.isNone_some,
        Bool.false_and, Bool.false_eq_true, if_false]
      exact ⟨[], by simp, rfl⟩
    | none =>
      simp only [ne_eq, not_true_eq_false, if_false, Option.isNone_none, Bool.true_and]
      by_cases hz : start.IsZero = true
      · simp only [hz, if_true, CurrentTime, List.foldl_nil, Until, decide_eq_true_eq]
        by_cases hd : (env.now w.clock).UTC.Sub (env.now (w.clock + 1)) < 0
        · rw [if_pos hd, if_neg (by omega)]
          exact ⟨[], by simp, rfl⟩
        · rw [if_neg hd, if_pos (by omega)]
          have hu : ValidateTimeZone [(env.now w.clock).UTC] = none :=
            ValidateTimeZone_of_utc _ (by
              intro d hd
              simp only [List.mem_singleton] at hd
              rw [hd]
              rfl)
          rw [hu]
          simp only []
          obtain ⟨evs, h, c⟩ := CreateDBSnapshot_delta env (CreateRDSClient ctx) dbIdentifier
            (env.now w.clock).UTC { w with clock := w.clock + 1 + 1 }
          exact ⟨evs, h, c⟩
      · simp only [hz, Bool.false_eq_true, if_false, Until, decide_eq_true_eq]
        by_cases hd : start.Sub (env.now w.clock) < 0
        · rw [if_pos hd, if_neg (by omega)]
          exact ⟨[], by simp, rfl⟩
        · rw [if_neg hd, if_pos (by omega)]
          have hu : ValidateTimeZone [start] = none :=
            ValidateTimeZone_of_utc _ (by
              intro d hd
              simp only [List.mem_singleton] at hd
              rw [hd]
              exact hloc)
          rw [hu]
          simp only []
          obtain ⟨evs, h, c⟩ := CreateDBSnapshot_delta env (CreateRDSClient ctx) dbIdentifier
            start { w with clock := w.clock + 1 }
          exact ⟨evs, h, c⟩

/-- C14 (counterexample). A run whose start is one hour ahead and whose bucket
is not among the listed ones: the log branch fails on the bucket check, and
the run has made a snapshot request. -/
theorem StartSyncProcess_snapshot_without_bucket :
    (VerifyBucket (sampleEnv [] "other" (Date 2024 2 23 12 0 0 0 UTC) [])
      (CreateS3Client (sampleEnv [] "other" (Date 2024 2 23 12 0 0 0 UTC) []) sampleCtx "bucket")
      World.init).1 = false ∧
    (StartSyncProcess (sampleEnv [] "other" (Date 2024 2 23 12 0 0 0 UTC) []) 1 sampleCtx "db"
        "2024-02-23 13:00:00.000 UTC" "2024-02-23 14:00:00.000 UTC" "bucket" World.init).map
      (fun r => (r.1, r.2.trace, countSnapshots r.2.trace))
      = some (some ("the process finished with an error, message_error: " ++
            "'no bucket found with name: bucket'"),
          [Event.Sleep (1 * Hour), Event.DescribeDBInstances "db",
            Event.CreateDBSnapshot "db" "pgreplay-A1234ASDF" [("app", "rdsrecorder")],
            Event.ListBuckets], 1) := by
  decide

/-- C14 (amended). For every sync run with a bucket name given that
returns, whether or not the listed buckets include the configured one: the
log branch makes no snapshot request, and the snapshot branch, which does not
depend on the bucket check, makes exactly one snapshot request when the run
is not a recovery, the start string parses and the start instant is not in
the past when the branch checks it, and none otherwise. -/
theorem StartSyncProcess_snapshots (env : Env) (fuel : Nat) (ctx : Context)
    (dbIdentifier startAt endAt bucketName : String) (w : World) (r : Option String × World)
    (hname : ¬ ((env.lookupEnv BucketEnvVar).isNone = true ∧ bucketName = ""))
    (hr : StartSyncProcess env fuel ctx dbIdentifier startAt endAt bucketName w = some r) :
    ∃ evs1 evs2,
      (snapshotBranch env ctx dbIdentifier startAt w).trace = w.trace ++ evs1 ∧
      r.2.trace = w.trace ++ evs1 ++ evs2 ∧
      countSnapshots evs1 = (if snapshotDue env ctx startAt w = true then 1 else 0) ∧
      countSnapshots evs2 = 0 := by
  obtain ⟨evs1, h1, c1⟩ := snapshotBranch_delta env ctx dbIdentifier startAt w
  unfold StartSyncProcess at hr
  rw [if_neg hname] at hr
  simp only [] at hr
  have hlog : ∀ r', logBranch env fuel ctx dbIdentifier startAt endAt bucketName
      (snapshotBranch env ctx dbIdentifier startAt w) = some r' →
      ∃ evs2, r'.2.trace = w.trace ++ evs1 ++ evs2 ∧ countSnapshots evs2 = 0 := by
    intro r' h
    unfold logBranch at h
    split_ifs at h
    · simp only [Option.some.injEq] at h
      rw [← h]
      exact ⟨[], by simp [h1], rfl⟩
    · obtain ⟨evs2, h2, c2⟩ := syncLogs_delta _ _ _ _ _ _ _ _ _ h
      exact ⟨evs2, by rw [h2, h1], c2⟩
  split at hr
  · simp at hr
  · rename_i err w' hl
    obtain ⟨evs2, h2, c2⟩ := hlog _ hl
    simp only [Option.some.injEq] at hr
    rw [← hr]
    exact ⟨evs1, evs2, h1, h2, c1, c2⟩
  · rename_i w' hl
    obtain ⟨evs2, h2, c2⟩ := hlog _ hl
    simp only [Option.some.injEq] at hr
    rw [← hr]
    exact ⟨evs1, evs2, h1, h2, c1, c2⟩

theorem StartSyncProcess_snapshots_witness :
    ∃ evs1 evs2,
      (snapshotBranch (sampleEnv [] "other" (Date 2024 2 23 12 0 0 0 UTC) []) sampleCtx "db"
        "2024-02-23 13:00:00.000 UTC" World.init).trace = World.init.trace ++ evs1 ∧
      [Event.Sleep (1 * Hour), Event.DescribeDBInstances "db",
        Event.CreateDBSnapshot "db" "pgreplay-A1234ASDF" [("app", "rdsrecorder")],
        Event.ListBuckets] = World.init.trace ++ evs1 ++ evs2 ∧
      countSnapshots evs1 = (if snapshotDue (sampleEnv [] "other" (Date 2024 2 23 12 0 0 0 UTC) [])
        sampleCtx "2024-02-23 13:00:00.000 UTC" World.init = true then 1 else 0) ∧
      countSnapshots evs2 = 0 :=
  StartSyncProcess_snapshots (sampleEnv [] "other" (Date 2024 2 23 12 0 0 0 UTC) []) 1 sampleCtx
    "db" "2024-02-23 13:00:00.000 UTC" "2024-02-23 14:00:00.000 UTC" "bucket" World.init
    (some ("the process finished with an error, message_error: " ++
        "'no bucket found with name: bucket'"),
      { World.init with
        trace := [Event.Sleep (1 * Hour), Event.DescribeDBInstances "db",
          Event.CreateDBSnapshot "db" "pgreplay-A1234ASDF" [("app", "rdsrecorder")],
          Event.ListBuckets]
        clock := 4 })
    (by decide) (by decide)

/-- C15. Given a bucket name (flag or environment variable): a recovery
run returns no error; otherwise `StartSyncProcess` returns when `syncLogs`,
the log branch, returns, with an error if and only if `syncLogs` returned
one (that error, wrapped); the error of `createSnapshot`, the snapshot
branch, has no part in the result. -/
theorem StartSyncProcess_error_iff (env : Env) (fuel : Nat) (ctx : Context)
    (dbIdentifier startAt endAt bucketName : String) (w : World)
    (hname : ¬ ((env.lookupEnv BucketEnvVar).isNone = true ∧ bucketName = "")) :
    (IsRecovery ctx = true →
      StartSyncProcess env fuel ctx dbIdentifier startAt endAt bucketName w = some (none, w)) ∧
    (IsRecovery ctx = false →
      (∀ e w', syncLogs env fuel ctx dbIdentifier startAt endAt bucketName
          (createSnapshot env ctx dbIdentifier startAt w).2 = some (e, w') →
        ∃ r, StartSyncProcess env fuel ctx dbIdentifier startAt endAt bucketName w = some r ∧
          r.2 = w' ∧ (r.1 ≠ none ↔ e ≠ none) ∧
          (∀ err, e = some err → r.1 = some
            ("the process finished with an error, message_error: '" ++ err ++ "'"))) ∧
      (∀ r, StartSyncProcess env fuel ctx dbIdentifier startAt endAt bucketName w = some r →
        ∃ e, syncLogs env fuel ctx dbIdentifier startAt endAt bucketName
            (createSnapshot env ctx dbIdentifier startAt w).2 = some (e, r.2) ∧
          (r.1 ≠ none ↔ e ≠ none)) ∧
      (∀ w', (createSnapshot env ctx dbIdentifier startAt w).1 ≠ none →
        syncLogs env fuel ctx dbIdentifier startAt endAt bucketName
          (createSnapshot env ctx dbIdentifier startAt w).2 = some (none, w') →
        StartSyncProcess env fuel ctx dbIdentifier startAt endAt bucketName w
          = some (none, w'))) := by
  constructor
  · intro hrec
    unfold StartSyncProcess
    rw [if_neg hname]
    simp only [snapshotBranch, logBranch, hrec, if_true]
  · intro hrec
    have hnone : syncLogs env fuel ctx dbIdentifier startAt endAt bucketName
        (createSnapshot env ctx dbIdentifier startAt w).2 = none →
        StartSyncProcess env fuel ctx dbIdentifier startAt endAt bucketName w = none := by
      intro h
      unfold StartSyncProcess
      rw [if_neg hname]
      simp only [snapshotBranch, logBranch, hrec, Bool.false_eq_true, if_false, h]
    have herr : ∀ err w', syncLogs env fuel ctx dbIdentifier startAt endAt bucketName
        (createSnapshot env ctx dbIdentifier startAt w).2 = some (some err, w') →
        StartSyncProcess env fuel ctx dbIdentifier startAt endAt bucketName w = some
          (some ("the process finished with an error, message_error: '" ++ err ++ "'"), w') := by
      intro err w' h
      unfold StartSyncProcess
      rw [if_neg hname]
      simp only [snapshotBranch, logBranch, hrec, Bool.false_eq_true, if_false, h]
    have hok : ∀ w', syncLogs env fuel ctx dbIdentifier startAt endAt bucketName
        (createSnapshot env ctx dbIdentifier startAt w).2 = some (none, w') →
        StartSyncProcess env fuel ctx dbIdentifier startAt endAt bucketName w
          = some (none, w') := by
      intro w' h
      unfold StartSyncProcess
      rw [if_neg hname]
      simp only [snapshotBranch, logBranch, hrec, Bool.false_eq_true, if_false, h]
    refine ⟨?_, ?_, ?_⟩
    · intro e w' h
      cases e with
      | none => exact ⟨_, hok w' h, rfl, by simp, by simp⟩
      | some err =>
        exact ⟨_, herr err w' h, rfl, by simp, by
          intro err' he
          simp only [Option.some.injEq] at he
          rw [he]⟩
    · intro r h
      cases hl : syncLogs env fuel ctx dbIdentifier startAt endAt bucketName
          (createSnapshot env ctx dbIdentifier startAt w).2 with
      | none =>
        rw [hnone hl] at h
        simp at h
      | some x =>
        obtain ⟨e, w'⟩ := x
        cases e with
        | none =>
          rw [hok w' hl] at h
          simp only [Option.some.injEq] at h
          rw [← h]
          exact ⟨none, rfl, by simp⟩
        | some err =>
          rw [herr err w' hl] at h
          simp only [Option.some.injEq] at h
          rw [← h]
          exact ⟨some err, rfl, by simp⟩
    · intro w' _ h
      exact hok w' h

theorem StartSyncProcess_error_iff_witness :
    (createSnapshot (sampleEnv [] "bucket" (Date 2024 2 23 12 0 0 0 UTC) []) sampleCtx "db"
      "2024-02-23 08:00:00.000 UTC" World.init).1
      = some "unable to create a snapshot from past data" ∧
    StartSyncProcess (sampleEnv [] "bucket" (Date 2024 2 23 12 0 0 0 UTC) []) 1 sampleCtx "db"
        "2024-02-23 08:00:00.000 UTC" "2024-02-23 10:00:00.000 UTC" "bucket" World.init
      = some (none, { World.init with
          trace := [Event.ListBuckets, Event.DescribeDBLogFiles "db" "0"], clock := 3 }) :=
  ⟨by decide,
    (StartSyncProcess_error_iff (sampleEnv [] "bucket" (Date 2024 2 23 12 0 0 0 UTC) []) 1
      sampleCtx "db" "2024-02-23 08:00:00.000 UTC" "2024-02-23 10:00:00.000 UTC" "bucket"
      World.init (by decide)).2 (by decide) |>.2.2
      { World.init with
          trace := [Event.ListBuckets, Event.DescribeDBLogFiles "db" "0"], clock := 3 }
      (by decide) (by decide)⟩

/-! ### The errors of `DownloadLogsInterval` -/

theorem filterLogs_parses (start finish : Time) (logFiles acc sel : List String)
    (h : filterLogs start finish logFiles acc = some sel)
    (hacc : ∀ n ∈ acc, ∃ t, FindDateTimeFromLogFile n = some (t, none)) :
    ∀ n ∈ sel, ∃ t, FindDateTimeFromLogFile n = some (t, none) := by
  induction logFiles generalizing acc with
  | nil =>
    simp only [filterLogs, Option.some.injEq] at h
    subst h
    exact hacc
  | cons file rest ih =>
    simp only [filterLogs] at h
    split at h
    · simp at h
    · exact ih _ h hacc
    · rename_i t hfile
      split_ifs at h
      · apply ih _ h
        intro n hn
        simp only [List.mem_append, List.mem_singleton] at hn
        rcases hn with hn | rfl
        · exact hacc n hn
        · exact ⟨t, hfile⟩
      · exact ih _ h hacc

/-- C16. A result of `DownloadLogsInterval` carries the error of
`describeLogFiles` and no other: it is non-nil if and only if the listing
failed. When the listing succeeds the result is nil whatever happens to the
files, and the worker of every selected file has run: after the listing the
run has created one temp file for each file that the filter kept, however
the earlier ones ended. -/
theorem DownloadLogsInterval_error_iff (env : Env) (fuel : Nat) (rdsClient : RDSClient)
    (s3Client : S3BucketClient) (dbIdentifier : String) (strictInterval : Bool)
    (start finish : Time) (w : World) (r : Option String × World)
    (hr : DownloadLogsInterval env fuel rdsClient s3Client dbIdentifier strictInterval
      start finish w = some r) :
    ∃ files derr w1,
      describeLogFiles env fuel rdsClient dbIdentifier w = some ((files, derr), w1) ∧
      r.1 = derr ∧ (r.1 ≠ none ↔ derr ≠ none) ∧
      (derr ≠ none → r.2 = w1) ∧
      (derr = none → ∃ filteredLogs evs,
        filterLogs (roundStart strictInterval start) finish files [] = some filteredLogs ∧
        runWorkers env fuel rdsClient s3Client dbIdentifier filteredLogs w1 = some r.2 ∧
        r.2.trace = w1.trace ++ evs ∧ countCreateTemp evs = filteredLogs.length) := by
  unfold DownloadLogsInterval at hr
  split at hr
  · simp at hr
  · rename_i l e w1 hd
    simp only [Option.some.injEq] at hr
    rw [← hr]
    exact ⟨l, some e, w1, hd, rfl, by simp, fun _ => rfl, fun h => by simp at h⟩
  · rename_i l w1 hd
    refine ⟨l, none, w1, hd, ?_⟩
    simp only [] at hr
    split at hr
    · simp at hr
    · rename_i sel hsel
      have hp := filterLogs_parses _ _ _ _ _ hsel (by simp)
      split_ifs at hr with hlen
      · simp only [Option.some.injEq] at hr
        rw [← hr]
        have hnil : sel = [] := List.length_eq_zero.1 hlen
        subst hnil
        exact ⟨rfl, by simp, fun h => absurd rfl h,
          fun _ => ⟨[], [], hsel, rfl, by simp, rfl⟩⟩
      · split at hr
        · simp at hr
        · rename_i w2 hw
          simp only [Option.some.injEq] at hr
          rw [← hr]
          obtain ⟨evs, t, _, c⟩ := runWorkers_delta _ _ _ _ _ _ _ _ hw
          exact ⟨rfl, by simp, fun h => absurd rfl h,
            fun _ => ⟨sel, evs, hsel, hw, t, c hp⟩⟩

theorem DownloadLogsInterval_error_iff_witness :
    ∃ files derr w1,
      describeLogFiles brokenDownloadEnv 2 (CreateRDSClient sampleCtx) "db" World.init
        = some ((files, derr), w1) ∧
      (none : Option String) = derr ∧ ((none : Option String) ≠ none ↔ derr ≠ none) ∧
      (derr ≠ none → { World.init with trace :=
        [Event.DescribeDBLogFiles "db" "0",
          Event.CreateTemp "/var/tmp" "rds-log-A1234ASDF-",
          Event.DownloadDBLogFilePortion "db" "error/postgresql.log.2024-02-23-0830.csv" "0" 1450,
          Event.DownloadDBLogFilePortion "db" "error/postgresql.log.2024-02-23-0830.csv"
            "next-token" 1450,
          Event.Remove "/var/tmp/rds-log-A1234ASDF-1",
          Event.CreateTemp "/var/tmp" "rds-log-A1234ASDF-",
          Event.DownloadDBLogFilePortion "db" "error/postgresql.log.2024-02-23-0900.csv" "0" 1450,
          Event.DownloadDBLogFilePortion "db" "error/postgresql.log.2024-02-23-0900.csv"
            "next-token" 1450,
          Event.Remove "/var/tmp/rds-log-A1234ASDF-5"] } = w1) ∧
      (derr = none → ∃ filteredLogs evs,
        filterLogs (roundStart true (Date 2024 2 23 8 0 0 0 UTC)) (Date 2024 2 23 10 0 0 0 UTC)
          files [] = some filteredLogs ∧
        runWorkers brokenDownloadEnv 2 (CreateRDSClient sampleCtx)
          (CreateS3Client brokenDownloadEnv sampleCtx "bucket") "db" filteredLogs w1
          = some { World.init with trace :=
            [Event.DescribeDBLogFiles "db" "0",
              Event.CreateTemp "/var/tmp" "rds-log-A1234ASDF-",
              Event.DownloadDBLogFilePortion "db" "error/postgresql.log.2024-02-23-0830.csv"
                "0" 1450,
              Event.DownloadDBLogFilePortion "db" "error/postgresql.log.2024-02-23-0830.csv"
                "next-token" 1450,
              Event.Remove "/var/tmp/rds-log-A1234ASDF-1",
              Event.CreateTemp "/var/tmp" "rds-log-A1234ASDF-",
              Event.DownloadDBLogFilePortion "db" "error/postgresql.log.2024-02-23-0900.csv"
                "0" 1450,
              Event.DownloadDBLogFilePortion "db" "error/postgresql.log.2024-02-23-0900.csv"
                "next-token" 1450,
              Event.Remove "/var/tmp/rds-log-A1234ASDF-5"] } ∧
        [Event.DescribeDBLogFiles "db" "0",
          Event.CreateTemp "/var/tmp" "rds-log-A1234ASDF-",
          Event.DownloadDBLogFilePortion "db" "error/postgresql.log.2024-02-23-0830.csv" "0" 1450,
          Event.DownloadDBLogFilePortion "db" "error/postgresql.log.2024-02-23-0830.csv"
            "next-token" 1450,
          Event.Remove "/var/tmp/rds-log-A1234ASDF-1",
          Event.CreateTemp "/var/tmp" "rds-log-A1234ASDF-",
          Event.DownloadDBLogFilePortion "db" "error/postgresql.log.2024-02-23-0900.csv" "0" 1450,
          Event.DownloadDBLogFilePortion "db" "error/postgresql.log.2024-02-23-0900.csv"
            "next-token" 1450,
          Event.Remove "/var/tmp/rds-log-A1234ASDF-5"] = w1.trace ++ evs ∧
        countCreateTemp evs = filteredLogs.length) :=
  DownloadLogsInterval_error_iff brokenDownloadEnv 2 (CreateRDSClient sampleCtx)
    (CreateS3Client brokenDownloadEnv sampleCtx "bucket") "db" true
    (Date 2024 2 23 8 0 0 0 UTC) (Date 2024 2 23 10 0 0 0 UTC) World.init
    (none, { World.init with trace :=
      [Event.DescribeDBLogFiles "db" "0",
        Event.CreateTemp "/var/tmp" "rds-log-A1234ASDF-",
        Event.DownloadDBLogFilePortion "db" "error/postgresql.log.2024-02-23-0830.csv" "0" 1450,
        Event.DownloadDBLogFilePortion "db" "error/postgresql.log.2024-02-23-0830.csv"
          "next-token" 1450,
        Event.Remove "/var/tmp/rds-log-A1234ASDF-1",
        Event.CreateTemp "/var/tmp" "rds-log-A1234ASDF-",
        Event.DownloadDBLogFilePortion "db" "error/postgresql.log.2024-02-23-0900.csv" "0" 1450,
        Event.DownloadDBLogFilePortion "db" "error/postgresql.log.2024-02-23-0900.csv"
          "next-token" 1450,
        Event.Remove "/var/tmp/rds-log-A1234ASDF-5"] })
    (by decide)

/-! ### The pattern of `describeLogFiles` -/

theorem tryCounts_complete (cont : List Char → Option Nat) (s : List Char) (lo k c : Nat)
    (h1 : lo ≤ c) (h2 : c ≤ k) (h : (cont (s.drop c)).isSome = true) :
    (tryCounts cont s lo k).isSome = true := by
  induction k with
  | zero =>
    have hc : c = 0 := by omega
    subst hc
    have hlo : lo = 0 := by omega
    simp only [tryCounts, hlo, if_true]
    simpa using h
  | succ j ih =>
    simp only [tryCounts]
    rw [if_neg (by omega)]
    cases hj : cont (s.drop (j + 1)) with
    | some n => rfl
    | none =>
      simp only []
      have hne : c ≠ j + 1 := by
        intro e
        rw [e, hj] at h
        simp at h
      exact ih (by omega)

theorem runLength_ge (cls : Char → Bool) (a b : List Char) (cap : Nat)
    (ha : ∀ x ∈ a, cls x = true) (hcap : a.length ≤ cap) :
    a.length ≤ runLength cls cap (a ++ b) := by
  induction a generalizing cap with
  | nil => simp
  | cons x xs ih =>
    cases cap with
    | zero => simp at hcap
    | succ n =>
      have e : runLength cls (n + 1) (x :: xs ++ b) = runLength cls n (xs ++ b) + 1 := by
        have e' : x :: xs ++ b = x :: (xs ++ b) := rfl
        rw [e', runLength, if_pos (ha x (List.mem_cons_self _ _))]
      rw [e]
      have := ih n (fun y hy => ha y (List.mem_cons_of_mem _ hy))
        (by simp only [List.length_cons] at hcap; omega)
      simp only [List.length_cons]
      omega

/-- The matcher finds a match at the start of every input that starts with
a string of the language of the pattern. -/
theorem matchPieces_complete (ps : List Piece) (m rest : List Char)
    (h : matchesPieces ps m) : (matchPieces ps (m ++ rest)).isSome = true := by
  induction ps generalizing m with
  | nil => simp [matchPieces]
  | cons p ps ih =>
    obtain ⟨a, b, e, hmin, hmax, hcls, hb⟩ := h
    subst e
    simp only [matchPieces]
    have hcap : a.length ≤ p.cap (a ++ b ++ rest) := by
      unfold Piece.cap
      split
      · rename_i n hn
        exact hmax n hn
      · simp only [List.length_append]
        omega
    apply tryCounts_complete _ _ _ _ a.length hmin
    · rw [List.append_assoc]
      exact runLength_ge p.cls a (b ++ rest) _ hcls (by rw [← List.append_assoc]; exact hcap)
    · rw [List.append_assoc, List.drop_left]
      exact ih b hb

theorem MatchStringAtStart_iff (pat : List Piece) (s : List Char) :
    MatchStringAtStart pat s = true ↔ ∃ m rest, s = m ++ rest ∧ matchesPieces pat m := by
  unfold MatchStringAtStart
  constructor
  · intro h
    obtain ⟨n, hn⟩ := Option.isSome_iff_exists.1 h
    obtain ⟨_, hm⟩ := matchPieces_sound pat s n hn
    exact ⟨s.take n, s.drop n, (List.take_append_drop n s).symm, hm⟩
  · rintro ⟨m, rest, rfl, hm⟩
    exact matchPieces_complete pat m rest hm

theorem csvPattern_language (m : List Char) :
    matchesPieces csvPattern m ↔
      ∃ a, m = a ++ ['.', 'c', 's', 'v'] ∧ a ≠ [] ∧ ∀ c ∈ a, c ≠ '\n' := by
  constructor
  · intro h
    simp only [csvPattern, matchesPieces] at h
    obtain ⟨a, r1, e1, ha1, _, ha3, s1, r2, e2, h1a, h1b, h1c, s2, r3, e3, h2a, h2b, h2c,
      s3, r4, e4, h3a, h3b, h3c, s4, r5, e5, h4a, h4b, h4c, e6⟩ := h
    have q1 := lit_run '.' s1 h1a h1b h1c
    have q2 := lit_run 'c' s2 h2a h2b h2c
    have q3 := lit_run 's' s3 h3a h3b h3c
    have q4 := lit_run 'v' s4 h4a h4b h4c
    subst e6 q1 q2 q3 q4
    refine ⟨a, by rw [e1, e2, e3, e4, e5]; simp, ?_, ?_⟩
    · intro h
      subst h
      simp [anyPlus] at ha1
    · intro c hc
      have := ha3 c hc
      simpa [anyPlus] using this
  · rintro ⟨a, rfl, hne, hall⟩
    simp only [csvPattern, matchesPieces]
    refine ⟨a, ['.', 'c', 's', 'v'], rfl, ?_, by simp [anyPlus], ?_,
      ['.'], ['c', 's', 'v'], rfl, by simp [lit], by simp [lit], by simp [lit],
      ['c'], ['s', 'v'], rfl, by simp [lit], by simp [lit], by simp [lit],
      ['s'], ['v'], rfl, by simp [lit], by simp [lit], by simp [lit],
      ['v'], [], rfl, by simp [lit], by simp [lit], by simp [lit], rfl⟩
    · cases a with
      | nil => exact absurd rfl hne
      | cons x xs => simp [anyPlus]
    · intro c hc
      simpa [anyPlus] using hall c hc

/-! ### The paging of `describeLogFiles` -/

theorem describeLogFilesLoop_listed (env : Env) (db : String) (fuel : Nat) (token : String)
    (files : List String) (w : World) :
    (∀ names, listedNames env db fuel token w.trace = some names →
      ∃ w', describeLogFilesLoop env db fuel token files w =
        some ((files ++ names.filter (fun n => MatchStringAtStart csvPattern n.data), none), w')) ∧
    (∀ l w', describeLogFilesLoop env db fuel token files w = some ((l, none), w') →
      ∃ names, listedNames env db fuel token w.trace = some names ∧
        l = files ++ names.filter (fun n => MatchStringAtStart csvPattern n.data)) ∧
    (∀ l err w', describeLogFilesLoop env db fuel token files w = some ((l, some err), w') →
      l = [] ∧ ∃ tr tok, env.describeDBLogFiles tr db tok = .error err) := by
  induction fuel generalizing token files w with
  | zero => simp [describeLogFilesLoop, listedNames]
  | succ n ih =>
    simp only [describeLogFilesLoop, listedNames]
    cases hd : env.describeDBLogFiles w.trace db token with
    | error e =>
      simp only [reduceCtorEq, false_implies, implies_true, Option.some.injEq, Prod.mk.injEq,
        and_false, false_and, exists_false, true_and]
      intro l err w' h
      exact ⟨h.1.1.symm, w.trace, token, by rw [hd, h.1.2]⟩
    | ok p =>
      obtain ⟨names, marker⟩ := p
      cases marker with
      | none =>
        simp only [Option.some.injEq, Prod.mk.injEq, and_true, reduceCtorEq, and_false,
          false_and, false_implies, implies_true]
        refine ⟨?_, ?_⟩
        · intro names' h
          subst h
          exact ⟨_, rfl, rfl⟩
        · intro l w' h
          exact ⟨names, rfl, h.1.symm⟩
      | some m =>
        simp only []
        by_cases hm : m = token
        · simp only [hm, if_true, Option.some.injEq, Prod.mk.injEq, and_true, reduceCtorEq,
            and_false, false_and, false_implies, implies_true]
          refine ⟨?_, ?_⟩
          · intro names' h
            subst h
            exact ⟨_, rfl, rfl⟩
          · intro l w' h
            exact ⟨names, rfl, h.1.symm⟩
        · simp only [hm, if_false]
          obtain ⟨i1, i2, i3⟩ := ih m
            (files ++ names.filter (fun n => MatchStringAtStart csvPattern n.data))
            (w.emit (Event.DescribeDBLogFiles db token))
          have ht : (w.emit (Event.DescribeDBLogFiles db token)).trace
              = w.trace ++ [Event.DescribeDBLogFiles db token] := rfl
          rw [ht] at i1 i2
          refine ⟨?_, ?_, i3⟩
          · intro names' h
            cases hl : listedNames env db n m (w.trace ++ [Event.DescribeDBLogFiles db token]) with
            | none => rw [hl] at h; simp at h
            | some rest =>
              rw [hl] at h
              simp only [Option.some.injEq] at h
              subst h
              obtain ⟨w', hw'⟩ := i1 rest hl
              exact ⟨w', by rw [hw', List.filter_append, List.append_assoc]⟩
          · intro l w' h
            obtain ⟨rest, hl, e⟩ := i2 l w' h
            rw [hl]
            exact ⟨names ++ rest, rfl, by rw [e, List.filter_append, List.append_assoc]⟩

theorem describeLogFilesLoop_requests (env : Env) (db : String) (n : Nat) (token : String)
    (w : World) (hstop : stopsWithin env db n token w.trace) (fuel : Nat) (hfuel : n ≤ fuel)
    (files : List String) :
    ∃ r, describeLogFilesLoop env db fuel token files w = some r ∧
      r.2.trace = w.trace ++ describeRequests env db n token w.trace := by
  induction n generalizing token w fuel files with
  | zero => simp [stopsWithin] at hstop
  | succ k ih =>
    cases fuel with
    | zero => omega
    | succ f =>
      simp only [stopsWithin] at hstop
      simp only [describeLogFilesLoop, describeRequests]
      cases hd : env.describeDBLogFiles w.trace db token with
      | error e => exact ⟨_, rfl, rfl⟩
      | ok p =>
        obtain ⟨names, marker⟩ := p
        cases marker with
        | none => exact ⟨_, rfl, rfl⟩
        | some m =>
          rw [hd] at hstop
          simp only [] at hstop ⊢
          by_cases hm : m = token
          · simp only [hm, if_true]
            exact ⟨_, rfl, rfl⟩
          · simp only [hm, if_false]
            have hs := hstop.resolve_left hm
            obtain ⟨r, hr, ht⟩ := ih m (w.emit (Event.DescribeDBLogFiles db token)) hs f
              (by omega) (files ++ names.filter (fun n => MatchStringAtStart csvPattern n.data))
            exact ⟨r, hr, by rw [ht]; simp [World.emit]⟩

/-- C17 (counterexample). A listing with a name that does not end in `.csv`
but has `.csv` inside, and with the name `.csv`: `describeLogFiles` returns
the first and drops the second. -/
theorem describeLogFiles_not_csv_ending :
    (describeLogFiles (sampleEnv ["error/pg.csv.gz", ".csv", "error/pg.csv", "error/pg.log"]
        "bucket" Time.zero []) 1 (CreateRDSClient sampleCtx) "db" World.init).map (fun r => r.1)
      = some (["error/pg.csv.gz", "error/pg.csv"], none) ∧
    "error/pg.csv.gz".data.reverse.take 4 ≠ ".csv".data.reverse ∧
    ".csv".data.reverse.take 4 = ".csv".data.reverse := by
  decide

/-- C17 (amended). On success `describeLogFiles` returns exactly the listed
file names that match `^.+\.csv`, in the order of the provider across all
fetched pages; a name matches when it has `.csv` after at least one
character, none of the characters before it being a line feed, whatever
follows. If a page request fails it returns no list and the error of that
request. -/
theorem describeLogFiles_spec (env : Env) (fuel : Nat) (client : RDSClient)
    (dbIdentifier : String) (w : World) :
    (∀ l w', describeLogFiles env fuel client dbIdentifier w = some ((l, none), w') →
      ∃ names, listedNames env dbIdentifier fuel startToken w.trace = some names ∧
        l = names.filter (fun n => MatchStringAtStart csvPattern n.data)) ∧
    (∀ names, listedNames env dbIdentifier fuel startToken w.trace = some names →
      ∃ w', describeLogFiles env fuel client dbIdentifier w =
        some ((names.filter (fun n => MatchStringAtStart csvPattern n.data), none), w')) ∧
    (∀ l err w', describeLogFiles env fuel client dbIdentifier w = some ((l, some err), w') →
      l = [] ∧ ∃ tr tok, env.describeDBLogFiles tr dbIdentifier tok = .error err) ∧
    (∀ name : String, MatchStringAtStart csvPattern name.data = true ↔
      ∃ a b, name.data = a ++ ['.', 'c', 's', 'v'] ++ b ∧ a ≠ [] ∧ ∀ c ∈ a, c ≠ '\n') := by
  obtain ⟨h1, h2, h3⟩ := describeLogFilesLoop_listed env dbIdentifier fuel startToken [] w
  refine ⟨?_, ?_, h3, ?_⟩
  · intro l w' h
    obtain ⟨names, hn, e⟩ := h2 l w' h
    exact ⟨names, hn, by simpa using e⟩
  · intro names h
    obtain ⟨w', hw⟩ := h1 names h
    exact ⟨w', by simpa [describeLogFiles] using hw⟩
  · intro name
    rw [MatchStringAtStart_iff]
    constructor
    · rintro ⟨m, rest, e, hm⟩
      obtain ⟨a, rfl, hne, hall⟩ := (csvPattern_language m).1 hm
      exact ⟨a, rest, e, hne, hall⟩
    · rintro ⟨a, b, e, hne, hall⟩
      exact ⟨a ++ ['.', 'c', 's', 'v'], b, e, (csvPattern_language _).2 ⟨a, rfl, hne, hall⟩⟩

theorem describeLogFiles_spec_witness :
    ∃ w', describeLogFiles (sampleEnv ["error/pg.csv.gz", ".csv", "error/pg.csv", "error/pg.log"]
        "bucket" Time.zero []) 1 (CreateRDSClient sampleCtx) "db" World.init =
      some ((["error/pg.csv.gz", ".csv", "error/pg.csv", "error/pg.log"].filter
        (fun n => MatchStringAtStart csvPattern n.data), none), w') :=
  (describeLogFiles_spec (sampleEnv ["error/pg.csv.gz", ".csv", "error/pg.csv", "error/pg.log"]
      "bucket" Time.zero []) 1 (CreateRDSClient sampleCtx) "db" World.init).2.1
    ["error/pg.csv.gz", ".csv", "error/pg.csv", "error/pg.log"] (by decide)

/-- C18. The requests of `describeLogFiles` are those of the
specification: the marker `0` with the first request, each returned marker
with the next one, and none after the first response whose marker is absent
or is the marker that was sent (or that fails). So `describeLogFiles`
returns, with fuel for `n` requests or more, for every provider whose
listing stops within `n` requests; a provider that always answers with the
same marker `m`, other than `0`, is asked exactly twice. -/
theorem describeLogFiles_paging (env : Env) (client : RDSClient) (dbIdentifier : String)
    (w : World) :
    (∀ n, stopsWithin env dbIdentifier n startToken w.trace → ∀ fuel, n ≤ fuel →
      ∃ r, describeLogFiles env fuel client dbIdentifier w = some r ∧
        r.2.trace = w.trace ++ describeRequests env dbIdentifier n startToken w.trace ∧
        ∃ rest, describeRequests env dbIdentifier n startToken w.trace
          = Event.DescribeDBLogFiles dbIdentifier "0" :: rest) ∧
    (∀ m, m ≠ "0" →
      (∀ tr tok, ∃ names, env.describeDBLogFiles tr dbIdentifier tok = .ok (names, some m)) →
      ∀ fuel, 2 ≤ fuel →
        ∃ r, describeLogFiles env fuel client dbIdentifier w = some r ∧
          r.2.trace = w.trace ++ [Event.DescribeDBLogFiles dbIdentifier "0",
            Event.DescribeDBLogFiles dbIdentifier m]) := by
  have hmain : ∀ n, stopsWithin env dbIdentifier n startToken w.trace → ∀ fuel, n ≤ fuel →
      ∃ r, describeLogFiles env fuel client dbIdentifier w = some r ∧
        r.2.trace = w.trace ++ describeRequests env dbIdentifier n startToken w.trace := by
    intro n hstop fuel hfuel
    exact describeLogFilesLoop_requests env dbIdentifier n startToken w hstop fuel hfuel []
  refine ⟨?_, ?_⟩
  · intro n hstop fuel hfuel
    obtain ⟨r, h1, h2⟩ := hmain n hstop fuel hfuel
    refine ⟨r, h1, h2, ?_⟩
    cases n with
    | zero => simp [stopsWithin] at hstop
    | succ k => exact ⟨_, rfl⟩
  · intro m hm hconst fuel hfuel
    obtain ⟨n1, h1⟩ := hconst w.trace "0"
    obtain ⟨n2, h2⟩ := hconst (w.trace ++ [Event.DescribeDBLogFiles dbIdentifier "0"]) m
    have hstop : stopsWithin env dbIdentifier 2 startToken w.trace := by
      simp only [stopsWithin, startToken, h1, h2, true_or, or_true]
    obtain ⟨r, hr, ht⟩ := hmain 2 hstop fuel hfuel
    refine ⟨r, hr, ?_⟩
    rw [ht]
    simp only [describeRequests, startToken, h1, h2, hm, if_false, if_true]

theorem describeLogFiles_paging_witness :
    ∃ r, describeLogFiles sameMarkerEnv 5 (CreateRDSClient sampleCtx) "db" World.init = some r ∧
      r.2.trace = World.init.trace ++
        [Event.DescribeDBLogFiles "db" "0", Event.DescribeDBLogFiles "db" "next-marker"] :=
  (describeLogFiles_paging sameMarkerEnv (CreateRDSClient sampleCtx) "db" World.init).2
    "next-marker" (by decide) (fun _ _ => ⟨["test_file_1.csv"], rfl⟩) 5 (by decide)

/-! ### The temp file of `downloadLogFile` -/

theorem prefixAndSuffix_plain (pattern : List Char)
    (h : ∀ c ∈ pattern, c ≠ '*' ∧ c ≠ '/') : prefixAndSuffix pattern = some (pattern, []) := by
  have h1 : pattern.any (fun c => c == '/') = false := by
    rw [Bool.eq_false_iff]
    intro hc
    obtain ⟨c, hc, e⟩ := List.any_eq_true.1 hc
    exact (h c hc).2 (by simpa using e)
  have h2 : pattern.any (fun c => c == '*') = false := by
    rw [Bool.eq_false_iff]
    intro hc
    obtain ⟨c, hc, e⟩ := List.any_eq_true.1 hc
    exact (h c hc).1 (by simpa using e)
  simp [prefixAndSuffix, h1, h2]

theorem CreateTemp_cases (env : Env) (dir pattern : String) (w : World) :
    (∃ err, CreateTemp env dir pattern w = (.error err, w.emit (Event.CreateTemp dir pattern))) ∨
    (∃ tmp, CreateTemp env dir pattern w = (.ok tmp,
      { w.emit (Event.CreateTemp dir pattern) with files := w.files ++ [(tmp.name, "")] })) := by
  unfold CreateTemp
  simp only []
  split
  · exact Or.inl ⟨_, rfl⟩
  · split
    · exact Or.inl ⟨_, rfl⟩
    · exact Or.inr ⟨_, rfl⟩

/-- The name of the temp file for a process identifier without `*` and
without a path separator. -/
theorem CreateTemp_name (env : Env) (pid random : String) (w : World)
    (hpid : ∀ c ∈ pid.data, c ≠ '*' ∧ c ≠ '/')
    (hct : env.createTemp w.trace "/var/tmp" ("rds-log-" ++ pid ++ "-") = .ok random) :
    CreateTemp env "/var/tmp" ("rds-log-" ++ pid ++ "-") w =
      (.ok ⟨"/var/tmp/rds-log-" ++ pid ++ "-" ++ random⟩,
        { w.emit (Event.CreateTemp "/var/tmp" ("rds-log-" ++ pid ++ "-")) with
          files := w.files ++ [("/var/tmp/rds-log-" ++ pid ++ "-" ++ random, "")] }) := by
  have hp : prefixAndSuffix ("rds-log-" ++ pid ++ "-").data
      = some (("rds-log-" ++ pid ++ "-").data, []) := by
    apply prefixAndSuffix_plain
    intro c hc
    simp only [String.data_append, List.mem_append] at hc
    rcases hc with (hc | hc) | hc
    · have : ∀ x ∈ "rds-log-".data, x ≠ '*' ∧ x ≠ '/' := by decide
      exact this c hc
    · exact hpid c hc
    · have : ∀ x ∈ "-".data, x ≠ '*' ∧ x ≠ '/' := by decide
      exact this c hc
  unfold CreateTemp
  simp only [hp, hct]
  have e : "/var/tmp" ++ "/" ++ String.mk ("rds-log-" ++ pid ++ "-").data ++ random
      ++ String.mk [] = "/var/tmp/rds-log-" ++ pid ++ "-" ++ random := by
    apply String.ext
    simp [String.data_append]
  rw [e]
  rfl

theorem find_fresh (fs : List (String × String)) (nm c : String) (g : String → String)
    (h : ∀ f ∈ fs, f.1 ≠ nm) :
    ((fs ++ [(nm, c)]).map (fun f => if (f.1 == nm) = true then (f.1, g f.2) else f)).find?
      (fun f => f.1 == nm) = some (nm, g c) := by
  induction fs with
  | nil => simp
  | cons f rest ih =>
    have hf : f.1 ≠ nm := h f (List.mem_cons_self _ _)
    have hb : (f.1 == nm) = false := by simpa using hf
    simp only [List.cons_append, List.map_cons, hb, Bool.false_eq_true, if_false,
      List.find?_cons]
    exact ih (fun x hx => h x (List.mem_cons_of_mem _ hx))

/-- The pages that the loop of `downloadLogFile` writes when every page
request and every write succeed. -/
theorem downloadLogFileLoop_pages (env : Env) (db name : String) (tmp : File)
    (hwrite : ∀ tr nm data, env.writeString tr nm data = none)
    (fuel : Nat) (token : String) (w : World) (pages : List String)
    (hpages : fetchedPages env db name fuel token w.trace = some pages) :
    ∃ w' evs, downloadLogFileLoop env db name tmp fuel token w = some (none, w') ∧
      w'.files = w.files.map
        (fun f => if (f.1 == tmp.name) = true then (f.1, pages.foldl (fun r s => r ++ s) f.2)
          else f) ∧
      w'.trace = w.trace ++ evs ∧ evs.length = pages.length ∧
      ∀ e ∈ evs, ∃ m, e = Event.DownloadDBLogFilePortion db name m 1450 := by
  induction fuel generalizing token w pages with
  | zero => simp [fetchedPages] at hpages
  | succ n ih =>
    simp only [fetchedPages] at hpages
    simp only [downloadLogFileLoop, hwrite]
    cases hd : env.downloadDBLogFilePortion w.trace db name token 1450 with
    | error e => rw [hd] at hpages; simp at hpages
    | ok p =>
      obtain ⟨data, marker⟩ := p
      rw [hd] at hpages
      have hone : ∀ w0 : World, w0 = (w.emit (Event.DownloadDBLogFilePortion db name token
          1450)).append tmp.name data → pages = [data] →
          w0.files = w.files.map (fun f =>
            if (f.1 == tmp.name) = true then (f.1, pages.foldl (fun r s => r ++ s) f.2)
            else f) ∧
          w0.trace = w.trace ++ [Event.DownloadDBLogFilePortion db name token 1450] := by
        intro w0 h0 hp
        subst h0 hp
        exact ⟨rfl, rfl⟩
      cases marker with
      | none =>
        simp only [Option.some.injEq] at hpages
        obtain ⟨h1, h2⟩ := hone _ rfl hpages.symm
        exact ⟨_, [Event.DownloadDBLogFilePortion db name token 1450], rfl, h1, h2,
          by rw [← hpages]; rfl, by
            intro e he
            simp only [List.mem_singleton] at he
            exact ⟨token, he⟩⟩
      | some m =>
        simp only [] at hpages ⊢
        by_cases hm : m = token
        · simp only [hm, if_true, Option.some.injEq] at hpages ⊢
          obtain ⟨h1, h2⟩ := hone _ rfl hpages.symm
          exact ⟨_, [Event.DownloadDBLogFilePortion db name token 1450], rfl, h1, h2,
            by rw [← hpages]; rfl, by
              intro e he
              simp only [List.mem_singleton] at he
              exact ⟨token, he⟩⟩
        · simp only [hm, if_false] at hpages ⊢
          cases hrest : fetchedPages env db name n m
              (w.trace ++ [Event.DownloadDBLogFilePortion db name token 1450]) with
          | none => rw [hrest] at hpages; simp at hpages
          | some rest =>
            rw [hrest] at hpages
            simp only [Option.some.injEq] at hpages
            subst hpages
            obtain ⟨w', evs, hl, hf, ht, hlen, hall⟩ := ih m
              ((w.emit (Event.DownloadDBLogFilePortion db name token 1450)).append tmp.name data)
              rest hrest
            refine ⟨w', Event.DownloadDBLogFilePortion db name token 1450 :: evs, hl, ?_, ?_,
              by simp [hlen], ?_⟩
            · rw [hf]
              simp only [World.append, World.emit, List.map_map]
              apply List.map_congr_left
              intro f _
              simp only [Function.comp]
              by_cases hf1 : (f.1 == tmp.name) = true
              · simp [hf1]
              · simp [hf1]
            · rw [ht]
              simp [World.append, World.emit]
            · intro e he
              simp only [List.mem_cons] at he
              rcases he with rfl | he
              · exact ⟨token, rfl⟩
              · exact hall e he

/-- C19. For a process identifier without `*` and without a path separator,
when the temp file is created under a name not in use and every write
succeeds: if every page request succeeds, `downloadLogFile` returns, without
an error, the temp file `/var/tmp/rds-log-{PID}-` followed by the random end
of the name, holding exactly the concatenation in the order fetched of the
data of the pages, up to and including the first page whose marker is absent
or echoes the marker sent; it makes one request for each page, each for 1450
lines. -/
theorem downloadLogFile_pages (env : Env) (fuel : Nat) (client : RDSClient)
    (dbIdentifier logFileName random : String) (pages : List String) (w : World)
    (hpid : ∀ c ∈ (GetProcessID client.ctx).data, c ≠ '*' ∧ c ≠ '/')
    (hct : env.createTemp w.trace "/var/tmp" ("rds-log-" ++ GetProcessID client.ctx ++ "-")
      = .ok random)
    (hfresh : ∀ f ∈ w.files,
      f.1 ≠ "/var/tmp/rds-log-" ++ GetProcessID client.ctx ++ "-" ++ random)
    (hwrite : ∀ tr nm data, env.writeString tr nm data = none)
    (hpages : fetchedPages env dbIdentifier logFileName fuel startToken
      (w.trace ++ [Event.CreateTemp "/var/tmp" ("rds-log-" ++ GetProcessID client.ctx ++ "-")])
      = some pages) :
    ∃ w' evs, downloadLogFile env fuel client dbIdentifier logFileName w =
        some ((some ⟨"/var/tmp/rds-log-" ++ GetProcessID client.ctx ++ "-" ++ random⟩, none),
          w') ∧
      w'.content ("/var/tmp/rds-log-" ++ GetProcessID client.ctx ++ "-" ++ random)
        = String.join pages ∧
      w'.trace = w.trace ++
        Event.CreateTemp "/var/tmp" ("rds-log-" ++ GetProcessID client.ctx ++ "-") :: evs ∧
      evs.length = pages.length ∧
      ∀ e ∈ evs, ∃ m, e = Event.DownloadDBLogFilePortion dbIdentifier logFileName m 1450 := by
  have hc := CreateTemp_name env (GetProcessID client.ctx) random w hpid hct
  obtain ⟨w', evs, hl, hf, ht, hlen, hall⟩ := downloadLogFileLoop_pages env dbIdentifier
    logFileName ⟨"/var/tmp/rds-log-" ++ GetProcessID client.ctx ++ "-" ++ random⟩ hwrite fuel
    startToken
    { w.emit (Event.CreateTemp "/var/tmp" ("rds-log-" ++ GetProcessID client.ctx ++ "-")) with
      files := w.files ++ [("/var/tmp/rds-log-" ++ GetProcessID client.ctx ++ "-" ++ random, "")] }
    pages hpages
  refine ⟨w', evs, ?_, ?_, ?_, hlen, hall⟩
  · unfold downloadLogFile
    rw [hc]
    simp only [hl]
  · unfold World.content
    rw [hf]
    simp only []
    rw [find_fresh w.files _ "" (fun c => pages.foldl (fun r s => r ++ s) c) hfresh]
    rfl
  · rw [ht]
    simp [World.emit]

theorem downloadLogFile_pages_witness :
    ∃ w' evs, downloadLogFile twoPageEnv 2 (CreateRDSClient sampleCtx) "db"
        "error/postgresql.log.2024-02-23-0830.csv" World.init =
        some ((some ⟨"/var/tmp/rds-log-" ++ GetProcessID (CreateRDSClient sampleCtx).ctx ++ "-"
          ++ "0"⟩, none), w') ∧
      w'.content ("/var/tmp/rds-log-" ++ GetProcessID (CreateRDSClient sampleCtx).ctx ++ "-"
        ++ "0") = String.join ["Hello ", "World!"] ∧
      w'.trace = World.init.trace ++
        Event.CreateTemp "/var/tmp"
          ("rds-log-" ++ GetProcessID (CreateRDSClient sampleCtx).ctx ++ "-") :: evs ∧
      evs.length = ["Hello ", "World!"].length ∧
      ∀ e ∈ evs, ∃ m, e = Event.DownloadDBLogFilePortion "db"
        "error/postgresql.log.2024-02-23-0830.csv" m 1450 :=
  downloadLogFile_pages twoPageEnv 2 (CreateRDSClient sampleCtx) "db"
    "error/postgresql.log.2024-02-23-0830.csv" "0" ["Hello ", "World!"] World.init
    (by decide) rfl (by decide) (fun _ _ _ => rfl) (by decide)

/-! ### The temp file of `startSyncLogProcess` -/

theorem append_filter (w : World) (name data : String) :
    (w.append name data).files.filter (fun g => g.1 != name)
      = w.files.filter (fun g => g.1 != name) := by
  simp only [World.append]
  induction w.files with
  | nil => rfl
  | cons f rest ih =>
    simp only [List.map_cons]
    by_cases hf : (f.1 == name) = true
    · have hn : (f.1 != name) = false := by simp [bne, hf]
      simp only [hf, if_true, List.filter_cons, hn, Bool.false_eq_true, if_false]
      exact ih
    · have hb : (f.1 == name) = false := by simpa using hf
      have hn : (f.1 != name) = true := by simp [bne, hb]
      simp only [hb, Bool.false_eq_true, if_false, List.filter_cons, hn, if_true]
      rw [ih]

/-- The loop of `downloadLogFile` touches no file but the temp file. -/
theorem downloadLogFileLoop_files (env : Env) (db name : String) (tmp : File) (fuel : Nat)
    (token : String) (w : World) (r : Option String × World)
    (h : downloadLogFileLoop env db name tmp fuel token w = some r) :
    r.2.files.filter (fun g => g.1 != tmp.name) = w.files.filter (fun g => g.1 != tmp.name) := by
  induction fuel generalizing token w with
  | zero => simp [downloadLogFileLoop] at h
  | succ n ih =>
    simp only [downloadLogFileLoop] at h
    split at h
    · simp only [Option.some.injEq] at h
      rw [← h]
      rfl
    · split at h
      · simp only [Option.some.injEq] at h
        rw [← h]
        rfl
      · have ha := append_filter (w.emit (Event.DownloadDBLogFilePortion db name token 1450))
          tmp.name
        split at h
        · simp only [Option.some.injEq] at h
          rw [← h]
          exact ha _
        · split_ifs at h
          · simp only [Option.some.injEq] at h
            rw [← h]
            exact ha _
          · rw [ih _ _ h]
            exact ha _

theorem CleanTmpFile_files (f : File) (w : World) :
    (CleanTmpFile (some f) w).files = w.files.filter (fun g => g.1 != f.name) ∧
    (CleanTmpFile (some f) w).trace = w.trace ++ [Event.Remove f.name] := ⟨rfl, rfl⟩

theorem filter_fresh_entry (fs : List (String × String)) (name c : String) :
    (fs ++ [(name, c)]).filter (fun g => g.1 != name) = fs.filter (fun g => g.1 != name) := by
  simp [List.filter_append]

/-- C20. A call of `startSyncLogProcess` that returns: for a name that does
not parse it changes nothing; else, when no temp file could be created it
leaves the local files as they were, and when `os.CreateTemp` created the
file `tmp`, `downloadLogFile` returns `tmp` also when a page request or a
write fails, and on every path the last thing the worker does is to remove
`tmp`: no file of that name remains and the other files are as before. -/
theorem startSyncLogProcess_cleans (env : Env) (fuel : Nat) (rdsClient : RDSClient)
    (s3Client : S3BucketClient) (dbIdentifier targetFile : String) (w w' : World)
    (h : startSyncLogProcess env fuel rdsClient s3Client dbIdentifier targetFile w = some w') :
    ((∃ t e, FindDateTimeFromLogFile targetFile = some (t, some e)) → w' = w) ∧
    ((∃ t, FindDateTimeFromLogFile targetFile = some (t, none)) →
      (∀ err, (CreateTemp env "/var/tmp" ("rds-log-" ++ GetProcessID rdsClient.ctx ++ "-") w).1
          = .error err → w'.files = w.files) ∧
      (∀ tmp, (CreateTemp env "/var/tmp" ("rds-log-" ++ GetProcessID rdsClient.ctx ++ "-") w).1
          = .ok tmp →
        (∃ err w1, downloadLogFile env fuel rdsClient dbIdentifier targetFile w
          = some ((some tmp, err), w1)) ∧
        w'.files = w.files.filter (fun g => g.1 != tmp.name) ∧
        (∀ g ∈ w'.files, g.1 ≠ tmp.name) ∧
        ∃ evs, w'.trace = w.trace ++ evs ++ [Event.Remove tmp.name])) ∧
    (∀ g ∈ w'.files, g ∈ w.files) := by
  have hmem : ∀ nm : String, ∀ g ∈ w.files.filter (fun g => g.1 != nm), g.1 ≠ nm := by
    intro nm g hg
    have := (List.mem_filter.1 hg).2
    simpa using this
  have hsub : ∀ nm : String, ∀ g ∈ w.files.filter (fun g => g.1 != nm), g ∈ w.files :=
    fun nm g hg => (List.mem_filter.1 hg).1
  unfold startSyncLogProcess at h
  rcases FindDateTimeFromLogFile_cases targetFile with ⟨_, e⟩ |
    ⟨_, _, _, _, _, _, _, _, _, _, _, _, _, _, e⟩
  · have hfmt : FormatFileNameForS3 rdsClient.ctx targetFile
        = some ("", some (dateTimeError targetFile)) := by
      simp only [FormatFileNameForS3, e]
    rw [hfmt] at h
    simp only [Option.some.injEq] at h
    subst h
    refine ⟨fun _ => rfl, ?_, fun g hg => hg⟩
    rintro ⟨t, ht⟩
    rw [e] at ht
    simp at ht
  · have hfmt : ∃ nm, FormatFileNameForS3 rdsClient.ctx targetFile = some (nm, none) := by
      simp only [FormatFileNameForS3, e]
      exact ⟨_, rfl⟩
    obtain ⟨nm, hfmt⟩ := hfmt
    rw [hfmt] at h
    simp only [] at h
    have hno : ¬ ∃ t e', FindDateTimeFromLogFile targetFile = some (t, some e') := by
      rintro ⟨t, e', h'⟩
      rw [e] at h'
      simp at h'
    -- what `downloadLogFile` does, by the outcome of `os.CreateTemp`
    have hdl : (∃ err, CreateTemp env "/var/tmp"
          ("rds-log-" ++ GetProcessID rdsClient.ctx ++ "-") w
          = (.error err, w.emit (Event.CreateTemp "/var/tmp"
            ("rds-log-" ++ GetProcessID rdsClient.ctx ++ "-"))) ∧
        w'.files = w.files) ∨
      (∃ tmp err w1, (CreateTemp env "/var/tmp"
          ("rds-log-" ++ GetProcessID rdsClient.ctx ++ "-") w).1 = .ok tmp ∧
        downloadLogFile env fuel rdsClient dbIdentifier targetFile w
          = some ((some tmp, err), w1) ∧
        ∃ evs, w'.files = w.files.filter (fun g => g.1 != tmp.name) ∧
          w'.trace = w.trace ++ evs ++ [Event.Remove tmp.name]) := by
      rcases CreateTemp_cases env "/var/tmp" ("rds-log-" ++ GetProcessID rdsClient.ctx ++ "-") w
        with ⟨err, hc⟩ | ⟨tmp, hc⟩
      · left
        refine ⟨err, hc, ?_⟩
        have hd : downloadLogFile env fuel rdsClient dbIdentifier targetFile w
            = some ((none, some err), w.emit (Event.CreateTemp "/var/tmp"
              ("rds-log-" ++ GetProcessID rdsClient.ctx ++ "-"))) := by
          unfold downloadLogFile
          rw [hc]
        rw [hd] at h
        simp only [Option.some.injEq] at h
        rw [← h]
        rfl
      · right
        cases hl : downloadLogFileLoop env dbIdentifier targetFile tmp fuel startToken
            { w.emit (Event.CreateTemp "/var/tmp"
                ("rds-log-" ++ GetProcessID rdsClient.ctx ++ "-")) with
              files := w.files ++ [(tmp.name, "")] } with
        | none =>
          have hd : downloadLogFile env fuel rdsClient dbIdentifier targetFile w = none := by
            unfold downloadLogFile
            rw [hc]
            simp only [hl]
          rw [hd] at h
          simp at h
        | some x =>
          obtain ⟨err, w1⟩ := x
          have hd : downloadLogFile env fuel rdsClient dbIdentifier targetFile w
              = some ((some tmp, err), w1) := by
            unfold downloadLogFile
            rw [hc]
            simp only [hl]
          have hfiles := downloadLogFileLoop_files _ _ _ _ _ _ _ _ hl
          simp only [filter_fresh_entry] at hfiles
          obtain ⟨e1, t1, _, _⟩ := downloadLogFile_delta _ _ _ _ _ _ _ hd
          simp only [] at t1
          rw [hd] at h
          refine ⟨tmp, err, w1, by rw [hc], hd, ?_⟩
          cases err with
          | some er =>
            simp only [Option.some.injEq] at h
            rw [← h]
            exact ⟨e1, by rw [(CleanTmpFile_files tmp w1).1, hfiles],
              by rw [(CleanTmpFile_files tmp w1).2, t1]⟩
          | none =>
            simp only [] at h
            have hrec := recordDownload_trace env tmp w1
            generalize recordDownload env tmp w1 = w2 at h hrec
            obtain ⟨e3, h3, _, _, f3⟩ := PushLogToBucket_delta env s3Client (some tmp) nm
              dbIdentifier w2
            generalize PushLogToBucket env s3Client (some tmp) nm dbIdentifier w2 = p at h h3 f3
            obtain ⟨perr, w3⟩ := p
            simp only [] at h3 f3
            cases perr with
            | some er =>
              have h : CleanTmpFile (some tmp) w3 = w' := Option.some.inj h
              rw [← h]
              exact ⟨e1 ++ e3, by rw [(CleanTmpFile_files tmp w3).1, f3, hrec.2, hfiles],
                by rw [(CleanTmpFile_files tmp w3).2, h3, hrec.1, t1]; simp⟩
            | none =>
              have h : CleanTmpFile (some tmp) (IncrementUploadedLogs w3) = w' :=
                Option.some.inj h
              have hi : (IncrementUploadedLogs w3).files = w3.files ∧
                  (IncrementUploadedLogs w3).trace = w3.trace := ⟨rfl, rfl⟩
              rw [← h]
              exact ⟨e1 ++ e3,
                by rw [(CleanTmpFile_files tmp _).1, hi.1, f3, hrec.2, hfiles],
                by rw [(CleanTmpFile_files tmp _).2, hi.2, h3, hrec.1, t1]; simp⟩
    refine ⟨fun hx => absurd hx hno, fun _ => ⟨?_, ?_⟩, ?_⟩
    · intro err hc
      rcases hdl with ⟨_, _, hf⟩ | ⟨tmp, _, _, hc', _⟩
      · exact hf
      · rw [hc] at hc'
        simp at hc'
    · intro tmp hc
      rcases hdl with ⟨err, hc', _⟩ | ⟨tmp', err, w1, hc', hd, evs, hf, ht⟩
      · rw [hc'] at hc
        simp at hc
      · rw [hc] at hc'
        have ht' : tmp = tmp' := Except.ok.inj hc'
        subst ht'
        exact ⟨⟨err, w1, hd⟩, hf, by rw [hf]; exact hmem tmp.name, evs, ht⟩
    · rcases hdl with ⟨_, _, hf⟩ | ⟨tmp, _, _, _, _, _, hf, _⟩
      · rw [hf]
        exact fun g hg => hg
      · rw [hf]
        exact hsub tmp.name

theorem startSyncLogProcess_cleans_witness :
    (∃ err w1, downloadLogFile brokenDownloadEnv 2 (CreateRDSClient sampleCtx) "db"
        "error/postgresql.log.2024-02-23-0830.csv" World.init
        = some ((some ⟨"/var/tmp/rds-log-A1234ASDF-0"⟩, err), w1)) ∧
    ({ World.init with trace :=
        [Event.CreateTemp "/var/tmp" "rds-log-A1234ASDF-",
          Event.DownloadDBLogFilePortion "db" "error/postgresql.log.2024-02-23-0830.csv" "0" 1450,
          Event.DownloadDBLogFilePortion "db" "error/postgresql.log.2024-02-23-0830.csv"
            "next-token" 1450,
          Event.Remove "/var/tmp/rds-log-A1234ASDF-0"] } : World).files
      = World.init.files.filter (fun g => g.1 != "/var/tmp/rds-log-A1234ASDF-0") :=
  have h := ((startSyncLogProcess_cleans brokenDownloadEnv 2 (CreateRDSClient sampleCtx)
    (CreateS3Client brokenDownloadEnv sampleCtx "bucket") "db"
    "error/postgresql.log.2024-02-23-0830.csv" World.init
    { World.init with trace :=
      [Event.CreateTemp "/var/tmp" "rds-log-A1234ASDF-",
        Event.DownloadDBLogFilePortion "db" "error/postgresql.log.2024-02-23-0830.csv" "0" 1450,
        Event.DownloadDBLogFilePortion "db" "error/postgresql.log.2024-02-23-0830.csv"
          "next-token" 1450,
        Event.Remove "/var/tmp/rds-log-A1234ASDF-0"] }
    (by decide)).2.1 ⟨Date 2024 2 23 8 30 0 0 UTC, by decide⟩).2
      ⟨"/var/tmp/rds-log-A1234ASDF-0"⟩ rfl
  ⟨h.1, h.2.1⟩

/-! ### The worker pool of `DownloadLogsInterval` -/

/-- A step of the pool keeps the number of tokens: those in the channel, the
one that the loop holds, and one for each goroutine that has been started and
has not sent its token back. -/
theorem poolStep_tokens (p q : WorkerPool) (s : PoolStep) (h : p.step s = some q) :
    q.maxParallel + q.received.toList.length + q.running.length + q.returned.length
        + q.sending.length
      = p.maxParallel + p.received.toList.length + p.running.length + p.returned.length
        + p.sending.length := by
  cases s with
  | receive =>
    simp only [WorkerPool.step] at h
    split at h
    · rename_i f rest hr hf
      split_ifs at h with h0
      simp only [Option.some.injEq] at h
      rw [← h]
      simp only [hr, Option.toList, List.length_cons, List.length_nil]
      omega
    · simp at h
  | spawn =>
    simp only [WorkerPool.step] at h
    split at h
    · rename_i f hr
      simp only [Option.some.injEq] at h
      rw [← h]
      simp only [hr, Option.toList, List.length_cons, List.length_nil, List.length_append]
      omega
    · simp at h
  | finish i =>
    simp only [WorkerPool.step] at h
    split at h
    · rename_i f hi
      have hlt : i < p.running.length := (List.getElem?_eq_some_iff.1 hi).1
      simp only [Option.some.injEq] at h
      rw [← h]
      simp only [List.length_append, List.length_cons, List.length_nil,
        List.length_eraseIdx_of_lt hlt]
      omega
    · simp at h
  | done i =>
    simp only [WorkerPool.step] at h
    split at h
    · rename_i f hi
      have hlt : i < p.returned.length := (List.getElem?_eq_some_iff.1 hi).1
      simp only [Option.some.injEq] at h
      rw [← h]
      simp only [List.length_append, List.length_cons, List.length_nil,
        List.length_eraseIdx_of_lt hlt]
      omega
    · simp at h
  | send i =>
    simp only [WorkerPool.step] at h
    split at h
    · rename_i f hi
      have hlt : i < p.sending.length := (List.getElem?_eq_some_iff.1 hi).1
      split_ifs at h with h0
      simp only [Option.some.injEq] at h
      rw [← h]
      simp only [List.length_eraseIdx_of_lt hlt]
      omega
    · simp at h

theorem poolRun_tokens (steps : List PoolStep) (p q : WorkerPool)
    (h : WorkerPool.run steps p = some q) :
    q.maxParallel + q.received.toList.length + q.running.length + q.returned.length
        + q.sending.length
      = p.maxParallel + p.received.toList.length + p.running.length + p.returned.length
        + p.sending.length := by
  induction steps generalizing p with
  | nil =>
    simp only [WorkerPool.run, Option.some.injEq] at h
    rw [h]
  | cons s rest ih =>
    simp only [WorkerPool.run] at h
    split at h
    · simp at h
    · rename_i r hs
      rw [ih r h, poolStep_tokens p r s hs]

/-- C21. In every state that the worker pool of one `DownloadLogsInterval`
call reaches, whatever the number of selected files and whatever the order
in which the scheduler runs the loop and the goroutines, at most 5 workers
are in `startSyncLogProcess`; the goroutines started and not yet done with
sending their token are at most 5 as well, so the send of a token never finds
the channel full. -/
theorem workerPool_bound (filteredLogs : List String) (steps : List PoolStep) (p : WorkerPool)
    (h : WorkerPool.run steps (WorkerPool.start filteredLogs) = some p) :
    p.running.length ≤ 5 ∧
    p.running.length + p.returned.length + p.sending.length ≤ 5 ∧
    (p.sending ≠ [] → p.maxParallel < parallel) := by
  have ht := poolRun_tokens steps _ p h
  simp only [WorkerPool.start, parallel, Option.toList, List.length_nil] at ht
  refine ⟨by omega, by omega, ?_⟩
  intro hs
  have : 0 < p.sending.length := List.length_pos.2 hs
  simp only [parallel]
  omega

theorem workerPool_bound_witness :
    (["f1", "f2", "f3", "f4", "f5"] : List String).length ≤ 5 ∧
    (["f1", "f2", "f3", "f4", "f5"] : List String).length + ([] : List String).length
      + ([] : List String).length ≤ 5 ∧
    (([] : List String) ≠ [] → 0 < parallel) :=
  workerPool_bound ["f1", "f2", "f3", "f4", "f5", "f6", "f7"]
    [.receive, .spawn, .receive, .spawn, .receive, .spawn, .receive, .spawn, .receive, .spawn]
    { maxParallel := 0, filteredLogs := ["f6", "f7"], received := none,
      running := ["f1", "f2", "f3", "f4", "f5"], returned := [], sending := [], wg := 5 }
    (by decide)

/-! ### What the functions leave untouched -/

theorem verifyBucketFolder_frame (env : Env) (client : S3BucketClient) (folder : String)
    (w : World) :
    (verifyBucketFolder env client folder w).2.counters = w.counters ∧
    (verifyBucketFolder env client folder w).2.intervalLogSync = w.intervalLogSync ∧
    (verifyBucketFolder env client folder w).2.files = w.files := by
  unfold verifyBucketFolder
  split <;> exact ⟨rfl, rfl, rfl⟩

theorem createBucketFolder_frame (env : Env) (client : S3BucketClient)
    (folder dbIdentifier : String) (w : World) :
    (createBucketFolder env client folder dbIdentifier w).2.counters = w.counters ∧
    (createBucketFolder env client folder dbIdentifier w).2.intervalLogSync
      = w.intervalLogSync ∧
    (createBucketFolder env client folder dbIdentifier w).2.files = w.files :=
  ⟨rfl, rfl, rfl⟩

theorem UploadLargeFile_frame (env : Env) (f : Option File) (key : String) (w : World) :
    (UploadLargeFile env f key w).2.counters = w.counters ∧
    (UploadLargeFile env f key w).2.intervalLogSync = w.intervalLogSync ∧
    (UploadLargeFile env f key w).2.files = w.files :=
  ⟨rfl, rfl, rfl⟩

/-- What `PushLogToBucket` is, by the answer of `verifyBucketFolder` and the
error of `createBucketFolder`. -/
theorem PushLogToBucket_cases (env : Env) (client : S3BucketClient) (targetFile : Option File)
    (fileName dbIdentifier : String) (w : World) :
    ((verifyBucketFolder env client (GetProcessID client.ctx) w).1 = true ∧
      PushLogToBucket env client targetFile fileName dbIdentifier w =
        UploadLargeFile env targetFile (GetProcessID client.ctx ++ "/" ++ fileName)
          (verifyBucketFolder env client (GetProcessID client.ctx) w).2) ∨
    ((verifyBucketFolder env client (GetProcessID client.ctx) w).1 = false ∧
      (createBucketFolder env client (GetProcessID client.ctx) dbIdentifier
        (verifyBucketFolder env client (GetProcessID client.ctx) w).2).1 = none ∧
      PushLogToBucket env client targetFile fileName dbIdentifier w =
        UploadLargeFile env targetFile (GetProcessID client.ctx ++ "/" ++ fileName)
          (createBucketFolder env client (GetProcessID client.ctx) dbIdentifier
            (verifyBucketFolder env client (GetProcessID client.ctx) w).2).2) ∨
    ((verifyBucketFolder env client (GetProcessID client.ctx) w).1 = false ∧
      ∃ err, (createBucketFolder env client (GetProcessID client.ctx) dbIdentifier
        (verifyBucketFolder env client (GetProcessID client.ctx) w).2).1 = some err ∧
      PushLogToBucket env client targetFile fileName dbIdentifier w =
        (some err, (createBucketFolder env client (GetProcessID client.ctx) dbIdentifier
          (verifyBucketFolder env client (GetProcessID client.ctx) w).2).2)) := by
  unfold PushLogToBucket
  simp only []
  generalize verifyBucketFolder env client (GetProcessID client.ctx) w = r
  obtain ⟨exist, w1⟩ := r
  cases exist with
  | true =>
    left
    simp only [Bool.not_true, Bool.false_eq_true, if_false, formatFilePath, true_and]
  | false =>
    right
    simp only [Bool.not_false, if_true]
    generalize createBucketFolder env client (GetProcessID client.ctx) dbIdentifier w1 = r2
    obtain ⟨err, w2⟩ := r2
    cases err with
    | none =>
      left
      simp only [formatFilePath, true_and]
    | some e =>
      right
      exact ⟨trivial, e, rfl, rfl⟩

theorem PushLogToBucket_frame (env : Env) (client : S3BucketClient) (targetFile : Option File)
    (fileName dbIdentifier : String) (w : World) :
    (PushLogToBucket env client targetFile fileName dbIdentifier w).2.counters = w.counters ∧
    (PushLogToBucket env client targetFile fileName dbIdentifier w).2.intervalLogSync
      = w.intervalLogSync := by
  have hv := verifyBucketFolder_frame env client (GetProcessID client.ctx) w
  have hc := createBucketFolder_frame env client (GetProcessID client.ctx) dbIdentifier
    (verifyBucketFolder env client (GetProcessID client.ctx) w).2
  rcases PushLogToBucket_cases env client targetFile fileName dbIdentifier w with
    ⟨_, h⟩ | ⟨_, _, h⟩ | ⟨_, err, _, h⟩ <;> rw [h]
  · exact ⟨(UploadLargeFile_frame _ _ _ _).1.trans hv.1, (UploadLargeFile_frame _ _ _ _).2.1.trans hv.2.1⟩
  · exact ⟨(UploadLargeFile_frame _ _ _ _).1.trans (hc.1.trans hv.1),
      (UploadLargeFile_frame _ _ _ _).2.1.trans (hc.2.1.trans hv.2.1)⟩
  · exact ⟨hc.1.trans hv.1, hc.2.1.trans hv.2.1⟩

/-- C22. With the process identifier of the client as folder:
`PushLogToBucket` returns the error of `createBucketFolder`, and makes no
`UploadLargeFile` call, when `verifyBucketFolder` answers false and
`createBucketFolder` fails; when the folder exists, or is created, it is the
one call of `UploadLargeFile` with the key `folder/fileName`, whose result it
returns. -/
theorem PushLogToBucket_spec (env : Env) (client : S3BucketClient) (targetFile : Option File)
    (fileName dbIdentifier : String) (w : World) :
    ((verifyBucketFolder env client (GetProcessID client.ctx) w).1 = false →
      ∀ err, (createBucketFolder env client (GetProcessID client.ctx) dbIdentifier
          (verifyBucketFolder env client (GetProcessID client.ctx) w).2).1 = some err →
        (PushLogToBucket env client targetFile fileName dbIdentifier w).1 = some err ∧
        uploadKeys (PushLogToBucket env client targetFile fileName dbIdentifier w).2.trace
          = uploadKeys w.trace) ∧
    ((verifyBucketFolder env client (GetProcessID client.ctx) w).1 = true →
      PushLogToBucket env client targetFile fileName dbIdentifier w =
        UploadLargeFile env targetFile (GetProcessID client.ctx ++ "/" ++ fileName)
          (verifyBucketFolder env client (GetProcessID client.ctx) w).2 ∧
      uploadKeys (PushLogToBucket env client targetFile fileName dbIdentifier w).2.trace
        = uploadKeys w.trace ++ [GetProcessID client.ctx ++ "/" ++ fileName]) ∧
    ((verifyBucketFolder env client (GetProcessID client.ctx) w).1 = false →
      (createBucketFolder env client (GetProcessID client.ctx) dbIdentifier
        (verifyBucketFolder env client (GetProcessID client.ctx) w).2).1 = none →
      PushLogToBucket env client targetFile fileName dbIdentifier w =
        UploadLargeFile env targetFile (GetProcessID client.ctx ++ "/" ++ fileName)
          (createBucketFolder env client (GetProcessID client.ctx) dbIdentifier
            (verifyBucketFolder env client (GetProcessID client.ctx) w).2).2 ∧
      uploadKeys (PushLogToBucket env client targetFile fileName dbIdentifier w).2.trace
        = uploadKeys w.trace ++ [GetProcessID client.ctx ++ "/" ++ fileName]) ∧
    (∀ key w0, (UploadLargeFile env targetFile key w0).1 =
        env.uploadLargeFile w0.trace (targetFile.map (fun f => f.name))
          (match targetFile with
            | some f => w0.content f.name
            | none => "") key ∧
      (UploadLargeFile env targetFile key w0).2.trace = w0.trace ++
        [Event.UploadLargeFile (targetFile.map (fun f => f.name))
          (match targetFile with
            | some f => w0.content f.name
            | none => "") key]) := by
  have hvk := verifyBucketFolder_uploadKeys env client (GetProcessID client.ctx) w
  have hck : uploadKeys (createBucketFolder env client (GetProcessID client.ctx) dbIdentifier
      (verifyBucketFolder env client (GetProcessID client.ctx) w).2).2.trace
      = uploadKeys w.trace := by
    rw [← hvk]
    simp [createBucketFolder, World.emit, uploadKeys_append, uploadKeys]
  refine ⟨?_, ?_, ?_, ?_⟩
  · intro hv err he
    rcases PushLogToBucket_cases env client targetFile fileName dbIdentifier w with
      ⟨hv', _⟩ | ⟨_, he', _⟩ | ⟨_, err', he', h⟩
    · rw [hv] at hv'
      simp at hv'
    · rw [he] at he'
      simp at he'
    · rw [he] at he'
      simp only [Option.some.injEq] at he'
      rw [h, ← he']
      exact ⟨rfl, hck⟩
  · intro hv
    rcases PushLogToBucket_cases env client targetFile fileName dbIdentifier w with
      ⟨_, h⟩ | ⟨hv', _⟩ | ⟨hv', _⟩
    · refine ⟨h, ?_⟩
      rw [h, UploadLargeFile_uploadKeys, hvk]
    · rw [hv] at hv'
      simp at hv'
    · rw [hv] at hv'
      simp at hv'
  · intro hv he
    rcases PushLogToBucket_cases env client targetFile fileName dbIdentifier w with
      ⟨hv', _⟩ | ⟨_, _, h⟩ | ⟨_, err', he', _⟩
    · rw [hv] at hv'
      simp at hv'
    · refine ⟨h, ?_⟩
      rw [h, UploadLargeFile_uploadKeys, hck]
    · rw [he] at he'
      simp at he'
  · intro key w0
    exact ⟨rfl, rfl⟩

theorem PushLogToBucket_spec_witness :
    PushLogToBucket (sampleEnv [] "bucket" Time.zero []) (CreateS3Client (sampleEnv [] "bucket" Time.zero []) sampleCtx "bucket")
        (some ⟨"/var/tmp/rds-log-A1234ASDF-0"⟩) "rds_log_A1234ASDF_1708677000" "db" World.init =
      UploadLargeFile (sampleEnv [] "bucket" Time.zero []) (some ⟨"/var/tmp/rds-log-A1234ASDF-0"⟩)
        (GetProcessID (CreateS3Client (sampleEnv [] "bucket" Time.zero []) sampleCtx "bucket").ctx ++ "/" ++
          "rds_log_A1234ASDF_1708677000")
        (createBucketFolder (sampleEnv [] "bucket" Time.zero []) (CreateS3Client (sampleEnv [] "bucket" Time.zero []) sampleCtx "bucket")
          (GetProcessID (CreateS3Client (sampleEnv [] "bucket" Time.zero []) sampleCtx "bucket").ctx) "db"
          (verifyBucketFolder (sampleEnv [] "bucket" Time.zero []) (CreateS3Client (sampleEnv [] "bucket" Time.zero []) sampleCtx "bucket")
            (GetProcessID (CreateS3Client (sampleEnv [] "bucket" Time.zero []) sampleCtx "bucket").ctx)
            World.init).2).2 ∧
    uploadKeys (PushLogToBucket (sampleEnv [] "bucket" Time.zero []) (CreateS3Client (sampleEnv [] "bucket" Time.zero []) sampleCtx "bucket")
        (some ⟨"/var/tmp/rds-log-A1234ASDF-0"⟩) "rds_log_A1234ASDF_1708677000" "db"
        World.init).2.trace
      = uploadKeys World.init.trace ++
        [GetProcessID (CreateS3Client (sampleEnv [] "bucket" Time.zero []) sampleCtx "bucket").ctx ++ "/" ++
          "rds_log_A1234ASDF_1708677000"] :=
  (PushLogToBucket_spec (sampleEnv [] "bucket" Time.zero []) (CreateS3Client (sampleEnv [] "bucket" Time.zero []) sampleCtx "bucket")
    (some ⟨"/var/tmp/rds-log-A1234ASDF-0"⟩) "rds_log_A1234ASDF_1708677000" "db"
    World.init).2.2.1 (by decide) (by decide)

theorem CreateTemp_frame (env : Env) (dir pattern : String) (w : World) :
    (CreateTemp env dir pattern w).2.counters = w.counters ∧
    (CreateTemp env dir pattern w).2.intervalLogSync = w.intervalLogSync := by
  rcases CreateTemp_cases env dir pattern w with ⟨err, h⟩ | ⟨tmp, h⟩ <;> rw [h] <;>
    exact ⟨rfl, rfl⟩

theorem downloadLogFileLoop_frame (env : Env) (db name : String) (tmp : File) (fuel : Nat)
    (token : String) (w : World) (r : Option String × World)
    (h : downloadLogFileLoop env db name tmp fuel token w = some r) :
    r.2.counters = w.counters ∧ r.2.intervalLogSync = w.intervalLogSync := by
  induction fuel generalizing token w with
  | zero => simp [downloadLogFileLoop] at h
  | succ n ih =>
    simp only [downloadLogFileLoop] at h
    split at h
    · simp only [Option.some.injEq] at h
      rw [← h]
      exact ⟨rfl, rfl⟩
    · split at h
      · simp only [Option.some.injEq] at h
        rw [← h]
        exact ⟨rfl, rfl⟩
      · split at h
        · simp only [Option.some.injEq] at h
          rw [← h]
          exact ⟨rfl, rfl⟩
        · split_ifs at h
          · simp only [Option.some.injEq] at h
            rw [← h]
            exact ⟨rfl, rfl⟩
          · obtain ⟨h1, h2⟩ := ih _ _ h
            exact ⟨h1, h2⟩

theorem downloadLogFile_frame (env : Env) (fuel : Nat) (client : RDSClient) (db name : String)
    (w : World) (r : (Option File × Option String) × World)
    (h : downloadLogFile env fuel client db name w = some r) :
    r.2.counters = w.counters ∧ r.2.intervalLogSync = w.intervalLogSync ∧
    (r.1.1 = none → r.1.2 ≠ none) := by
  unfold downloadLogFile at h
  have hc := CreateTemp_frame env "/var/tmp" ("rds-log-" ++ GetProcessID client.ctx ++ "-") w
  split at h
  · rename_i err w1 hct
    rw [hct] at hc
    simp only [Option.some.injEq] at h
    rw [← h]
    exact ⟨hc.1, hc.2, fun _ => by simp⟩
  · rename_i tmpFile w1 hct
    rw [hct] at hc
    split at h
    · simp at h
    · rename_i err w' hl
      simp only [Option.some.injEq] at h
      rw [← h]
      obtain ⟨h1, h2⟩ := downloadLogFileLoop_frame _ _ _ _ _ _ _ _ hl
      exact ⟨h1.trans hc.1, h2.trans hc.2, fun hn => by simp at hn⟩

theorem CleanTmpFile_frame (f : Option File) (w : World) :
    (CleanTmpFile f w).counters = w.counters ∧
    (CleanTmpFile f w).intervalLogSync = w.intervalLogSync := by
  cases f <;> exact ⟨rfl, rfl⟩

/-- The paths of a call of `startSyncLogProcess` that returns, for a name
that parses. -/
theorem startSyncLogProcess_paths (env : Env) (fuel : Nat) (rdsClient : RDSClient)
    (s3Client : S3BucketClient) (dbIdentifier targetFile : String) (w w' : World)
    (hparse : ∃ t, FindDateTimeFromLogFile targetFile = some (t, none))
    (h : startSyncLogProcess env fuel rdsClient s3Client dbIdentifier targetFile w = some w') :
    ∃ nm file derr w1, FormatFileNameForS3 rdsClient.ctx targetFile = some (nm, none) ∧
      downloadLogFile env fuel rdsClient dbIdentifier targetFile w = some ((file, derr), w1) ∧
      ((derr ≠ none ∧ w' = CleanTmpFile file w1) ∨
        (derr = none ∧ ∃ f, file = some f ∧
          (((PushLogToBucket env s3Client (some f) nm dbIdentifier
                (recordDownload env f w1)).1 ≠ none ∧
              w' = CleanTmpFile (some f) (PushLogToBucket env s3Client (some f) nm dbIdentifier
                (recordDownload env f w1)).2) ∨
            ((PushLogToBucket env s3Client (some f) nm dbIdentifier
                (recordDownload env f w1)).1 = none ∧
              w' = CleanTmpFile (some f) (IncrementUploadedLogs
                (PushLogToBucket env s3Client (some f) nm dbIdentifier
                  (recordDownload env f w1)).2))))) := by
  obtain ⟨t, ht⟩ := hparse
  have hfmt : ∃ nm, FormatFileNameForS3 rdsClient.ctx targetFile = some (nm, none) := by
    simp only [FormatFileNameForS3, ht]
    exact ⟨_, rfl⟩
  obtain ⟨nm, hfmt⟩ := hfmt
  unfold startSyncLogProcess at h
  rw [hfmt] at h
  simp only [] at h
  split at h
  · simp at h
  · rename_i file er w1 hdl
    simp only [Option.some.injEq] at h
    exact ⟨nm, file, some er, w1, hfmt, hdl, Or.inl ⟨by simp, h.symm⟩⟩
  · simp at h
  · rename_i file w1 hdl
    refine ⟨nm, some file, none, w1, hfmt, hdl, Or.inr ⟨rfl, file, rfl, ?_⟩⟩
    generalize PushLogToBucket env s3Client (some file) nm dbIdentifier
      (recordDownload env file w1) = p at h ⊢
    obtain ⟨perr, w3⟩ := p
    cases perr with
    | some er =>
      left
      exact ⟨by simp, (Option.some.inj h).symm⟩
    | none =>
      right
      exact ⟨rfl, (Option.some.inj h).symm⟩

theorem startSyncLogProcess_unparsable (env : Env) (fuel : Nat) (rdsClient : RDSClient)
    (s3Client : S3BucketClient) (dbIdentifier targetFile : String) (w : World)
    (hbad : ∃ t e, FindDateTimeFromLogFile targetFile = some (t, some e)) :
    startSyncLogProcess env fuel rdsClient s3Client dbIdentifier targetFile w = some w ∧
    FormatFileNameForS3 rdsClient.ctx targetFile = some ("", some (dateTimeError targetFile)) := by
  obtain ⟨t, e, h⟩ := hbad
  rcases FindDateTimeFromLogFile_cases targetFile with ⟨_, e'⟩ |
    ⟨_, _, _, _, _, _, _, _, _, _, _, _, _, _, e'⟩
  · have hfmt : FormatFileNameForS3 rdsClient.ctx targetFile
        = some ("", some (dateTimeError targetFile)) := by
      simp only [FormatFileNameForS3, e']
    refine ⟨?_, hfmt⟩
    unfold startSyncLogProcess
    rw [hfmt]
  · rw [e'] at h
    simp at h

/-! ### The counters -/

theorem counters_eq (w w' : World) (h : w'.counters = w.counters) :
    w'.downloadedLogsTotal = w.downloadedLogsTotal ∧
    w'.uploadedS3LogsTotal = w.uploadedS3LogsTotal ∧
    w'.sizeUploadedLogsBytes = w.sizeUploadedLogsBytes := by
  simp only [World.counters, Prod.mk.injEq] at h
  exact h

theorem recordDownload_counters (env : Env) (file : File) (w : World) :
    (recordDownload env file w).downloadedLogsTotal
      = w.downloadedLogsTotal + (if env.stat w.trace file.name = none then 1 else 0) ∧
    (recordDownload env file w).uploadedS3LogsTotal = w.uploadedS3LogsTotal ∧
    (recordDownload env file w).sizeUploadedLogsBytes
      = w.sizeUploadedLogsBytes +
        (if env.stat w.trace file.name = none then (w.content file.name).utf8ByteSize else 0) := by
  unfold recordDownload
  split
  · rename_i h
    simp [h, IncrementSizeUploadedLogs, IncrementDownloadedLogs]
  · rename_i e h
    simp [h]

/-- The counters after a call of `startSyncLogProcess` that returns. -/
theorem startSyncLogProcess_counters_after (env : Env) (fuel : Nat) (rdsClient : RDSClient)
    (s3Client : S3BucketClient) (dbIdentifier targetFile : String) (w w' : World)
    (hparse : ∃ t, FindDateTimeFromLogFile targetFile = some (t, none))
    (h : startSyncLogProcess env fuel rdsClient s3Client dbIdentifier targetFile w = some w') :
    ∃ nm file derr w1, FormatFileNameForS3 rdsClient.ctx targetFile = some (nm, none) ∧
      downloadLogFile env fuel rdsClient dbIdentifier targetFile w = some ((file, derr), w1) ∧
      ((derr ≠ none ∧ w'.counters = w.counters ∧ uploadKeys w'.trace = uploadKeys w.trace) ∨
        (derr = none ∧ ∃ f, file = some f ∧
          w'.downloadedLogsTotal
            = w.downloadedLogsTotal + (if env.stat w1.trace f.name = none then 1 else 0) ∧
          w'.sizeUploadedLogsBytes = w.sizeUploadedLogsBytes +
            (if env.stat w1.trace f.name = none then (w1.content f.name).utf8ByteSize else 0) ∧
          w'.uploadedS3LogsTotal = w.uploadedS3LogsTotal +
            (if (PushLogToBucket env s3Client (some f) nm dbIdentifier
              (recordDownload env f w1)).1 = none then 1 else 0))) := by
  obtain ⟨nm, file, derr, w1, hfmt, hdl, hp⟩ := startSyncLogProcess_paths env fuel rdsClient
    s3Client dbIdentifier targetFile w w' hparse h
  obtain ⟨hd1, _, _⟩ := downloadLogFile_frame _ _ _ _ _ _ _ hdl
  simp only [] at hd1
  refine ⟨nm, file, derr, w1, hfmt, hdl, ?_⟩
  rcases hp with ⟨hne, hw⟩ | ⟨he, f, hf, hp⟩
  · left
    refine ⟨hne, ?_, ?_⟩
    · rw [hw, (CleanTmpFile_frame file w1).1, hd1]
    · rw [hw, CleanTmpFile_uploadKeys]
      exact downloadLogFile_uploadKeys _ _ _ _ _ _ _ hdl
  · right
    refine ⟨he, f, hf, ?_⟩
    obtain ⟨d1, d2, d3⟩ := counters_eq _ _ hd1
    obtain ⟨r1, r2, r3⟩ := recordDownload_counters env f w1
    obtain ⟨p1, p2, p3⟩ := counters_eq _ _ (PushLogToBucket_frame env s3Client (some f) nm
      dbIdentifier (recordDownload env f w1)).1
    rcases hp with ⟨hne, hw⟩ | ⟨hn, hw⟩
    · obtain ⟨c1, c2, c3⟩ := counters_eq _ _ (CleanTmpFile_frame (some f)
        (PushLogToBucket env s3Client (some f) nm dbIdentifier (recordDownload env f w1)).2).1
      rw [hw, if_neg hne]
      exact ⟨by rw [c1, p1, r1, d1], by rw [c3, p3, r3, d3], by rw [c2, p2, r2, d2]; rfl⟩
    · obtain ⟨c1, c2, c3⟩ := counters_eq _ _ (CleanTmpFile_frame (some f)
        (IncrementUploadedLogs (PushLogToBucket env s3Client (some f) nm dbIdentifier
          (recordDownload env f w1)).2)).1
      rw [hw, if_pos hn]
      have i1 : ∀ x : World, (IncrementUploadedLogs x).downloadedLogsTotal
          = x.downloadedLogsTotal := fun _ => rfl
      have i2 : ∀ x : World, (IncrementUploadedLogs x).uploadedS3LogsTotal
          = x.uploadedS3LogsTotal + 1 := fun _ => rfl
      have i3 : ∀ x : World, (IncrementUploadedLogs x).sizeUploadedLogsBytes
          = x.sizeUploadedLogsBytes := fun _ => rfl
      exact ⟨by rw [c1, i1, p1, r1, d1], by rw [c3, i3, p3, r3, d3],
        by rw [c2, i2, p2, r2, d2]⟩

theorem startSyncLogProcess_size (env : Env) (fuel : Nat) (rdsClient : RDSClient)
    (s3Client : S3BucketClient) (dbIdentifier targetFile : String) (w w' : World)
    (h : startSyncLogProcess env fuel rdsClient s3Client dbIdentifier targetFile w = some w') :
    w'.sizeUploadedLogsBytes
      = w.sizeUploadedLogsBytes + recordedBytes env fuel rdsClient dbIdentifier targetFile w := by
  rcases FindDateTimeFromLogFile_cases targetFile with ⟨_, e⟩ |
    ⟨_, _, _, _, _, _, _, _, _, _, _, _, _, _, e⟩
  · obtain ⟨h1, h2⟩ := startSyncLogProcess_unparsable env fuel rdsClient s3Client dbIdentifier
      targetFile w ⟨_, _, e⟩
    rw [h1] at h
    simp only [Option.some.injEq] at h
    rw [← h]
    simp only [recordedBytes, h2, Nat.add_zero]
  · obtain ⟨nm, file, derr, w1, hfmt, hdl, hp⟩ := startSyncLogProcess_counters_after env fuel
      rdsClient s3Client dbIdentifier targetFile w w' ⟨_, e⟩ h
    simp only [recordedBytes, hfmt, hdl]
    rcases hp with ⟨hne, hc, _⟩ | ⟨he, f, hf, _, hs, _⟩
    · rw [(counters_eq _ _ hc).2.2]
      cases derr with
      | none => exact absurd rfl hne
      | some er => simp
    · subst he hf
      simp only []
      exact hs

/-- C23 (counterexample). A run of `startSyncLogProcess` whose upload fails:
no byte has been uploaded to the object store, and the size counter stands
at the 12 bytes of the downloaded file. -/
theorem size_counter_counts_failed_upload :
    (startSyncLogProcess failedUploadEnv 1 (CreateRDSClient sampleCtx)
        (CreateS3Client failedUploadEnv sampleCtx "bucket") "db"
        "error/postgresql.log.2024-02-23-0830.csv" World.init).map
      (fun w => (w.sizeUploadedLogsBytes, uploadedBytes failedUploadEnv [] w.trace,
        w.downloadedLogsTotal, w.uploadedS3LogsTotal))
      = some (12, 0, 1, 0) := by
  decide

/-- C23 (amended). After every sequence of runs of `startSyncLogProcess`
the size counter has grown by the total number of bytes of the files
downloaded in these runs, those for which the name parsed and the download
and `file.Stat()` succeeded, whether or not their upload succeeded; the
counter `rdsrecorder_uploaded_s3_size_logs_total` is that number of bytes
divided by 1048576. -/
theorem size_counter_downloaded_bytes (env : Env) (fuel : Nat) (rdsClient : RDSClient)
    (s3Client : S3BucketClient) (dbIdentifier : String) (names : List String) (w w' : World)
    (h : runWorkers env fuel rdsClient s3Client dbIdentifier names w = some w') :
    w'.sizeUploadedLogsBytes = w.sizeUploadedLogsBytes +
      recordedBytesOfRuns env fuel rdsClient s3Client dbIdentifier names w ∧
    w'.sizeUploadedLogsTotal = ((w.sizeUploadedLogsBytes +
      recordedBytesOfRuns env fuel rdsClient s3Client dbIdentifier names w : Nat) : ℚ) / 1048576 := by
  have key : w'.sizeUploadedLogsBytes = w.sizeUploadedLogsBytes +
      recordedBytesOfRuns env fuel rdsClient s3Client dbIdentifier names w := by
    induction names generalizing w with
    | nil =>
      simp only [runWorkers, Option.some.injEq] at h
      rw [← h]
      simp [recordedBytesOfRuns]
    | cons n rest ih =>
      simp only [runWorkers] at h
      split at h
      · simp at h
      · rename_i w1 h1
        simp only [recordedBytesOfRuns, h1]
        rw [ih _ h, startSyncLogProcess_size _ _ _ _ _ _ _ _ h1]
        omega
  refine ⟨key, ?_⟩
  rw [World.sizeUploadedLogsTotal, key]
  norm_num [megabyte]

theorem size_counter_downloaded_bytes_witness :
    (12 : Nat) = World.init.sizeUploadedLogsBytes +
      recordedBytesOfRuns failedUploadEnv 1 (CreateRDSClient sampleCtx)
        (CreateS3Client failedUploadEnv sampleCtx "bucket") "db"
        ["error/postgresql.log.2024-02-23-0830.csv"] World.init :=
  (size_counter_downloaded_bytes failedUploadEnv 1 (CreateRDSClient sampleCtx)
    (CreateS3Client failedUploadEnv sampleCtx "bucket") "db"
    ["error/postgresql.log.2024-02-23-0830.csv"] World.init
    { World.init with
      trace := [Event.CreateTemp "/var/tmp" "rds-log-A1234ASDF-",
        Event.DownloadDBLogFilePortion "db" "error/postgresql.log.2024-02-23-0830.csv" "0" 1450,
        Event.ListObjectsV2 "bucket" "A1234ASDF/" 1,
        Event.PutObject "bucket" "A1234ASDF/" [("db-identifier", "db")],
        Event.UploadLargeFile (some "/var/tmp/rds-log-A1234ASDF-0") "Hello World!"
          "A1234ASDF/rds_log_A1234ASDF_1708677000",
        Event.Remove "/var/tmp/rds-log-A1234ASDF-0"]
      downloadedLogsTotal := 1
      sizeUploadedLogsBytes := 12 }
    (by decide)).1

/-! ### The snapshot -/

theorem buildSnapshotIdentifier_eq (ctx : Context) :
    buildSnapshotIdentifier ctx = "pgreplay-" ++ GetProcessID ctx := by
  unfold buildSnapshotIdentifier GetProcessID
  cases ctx.pid <;> rfl

/-- C26 (counterexample). A run that is not a recovery, with a window that
is valid and lies in the past: the log branch archives the window and the
run returns no error, and the snapshot branch, with the error that the start
is in the past, has made no request at all. -/
theorem snapshot_skipped_for_past_start :
    IsRecovery sampleCtx = false ∧
    (createSnapshot (sampleEnv [] "bucket" (Date 2024 2 23 12 0 0 0 UTC) []) sampleCtx "db"
      "2024-02-23 08:00:00.000 UTC" World.init).1
      = some "unable to create a snapshot from past data" ∧
    (snapshotBranch (sampleEnv [] "bucket" (Date 2024 2 23 12 0 0 0 UTC) []) sampleCtx "db"
      "2024-02-23 08:00:00.000 UTC" World.init).trace = [] ∧
    (StartSyncProcess (sampleEnv [] "bucket" (Date 2024 2 23 12 0 0 0 UTC) []) 1 sampleCtx "db"
        "2024-02-23 08:00:00.000 UTC" "2024-02-23 10:00:00.000 UTC" "bucket" World.init).map
      (fun r => (r.1, r.2.trace))
      = some (none, [Event.ListBuckets, Event.DescribeDBLogFiles "db" "0"]) := by
  decide

/-- C26 (amended). In a run that is not a recovery and whose start string
parses to a non-zero instant, the snapshot branch calls `CreateDBSnapshot`
with that instant as `startAt` when the instant is not before the time read
for the check (`time.Until(start) >= 0`); the call then sleeps the time left
until the start at its own reading of the clock. When the start is before
the time read, the branch ends with the error that the snapshot is from past
data and makes no request. -/
theorem snapshotBranch_start (env : Env) (ctx : Context) (dbIdentifier startAt : String)
    (start : Time) (w : World)
    (hrec : IsRecovery ctx = false)
    (hs : parseTimestamp startAt = (start, none)) (hsz : start.IsZero = false) :
    (0 ≤ start.Sub (env.now w.clock) →
      createSnapshot env ctx dbIdentifier startAt w =
        CreateDBSnapshot env (CreateRDSClient ctx) dbIdentifier start
          { w with clock := w.clock + 1 } ∧
      snapshotBranch env ctx dbIdentifier startAt w =
        (CreateDBSnapshot env (CreateRDSClient ctx) dbIdentifier start
          { w with clock := w.clock + 1 }).2 ∧
      ∃ evs, (snapshotBranch env ctx dbIdentifier startAt w).trace =
        w.trace ++ Event.Sleep (start.Sub (env.now (w.clock + 1))) :: evs) ∧
    (start.Sub (env.now w.clock) < 0 →
      createSnapshot env ctx dbIdentifier startAt w =
        (some "unable to create a snapshot from past data", { w with clock := w.clock + 1 }) ∧
      (snapshotBranch env ctx dbIdentifier startAt w).trace = w.trace) := by
  have hu : ValidateTimeZone [start] = none :=
    ValidateTimeZone_of_utc _ (by
      intro d hd
      simp only [List.mem_singleton] at hd
      rw [hd]
      exact parseTimestamp_utc _ _ hs)
  constructor
  · intro hd
    have hc : createSnapshot env ctx dbIdentifier startAt w =
        CreateDBSnapshot env (CreateRDSClient ctx) dbIdentifier start
          { w with clock := w.clock + 1 } := by
      unfold createSnapshot
      simp only [hs, hsz, ne_eq, not_true_eq_false, if_false, Bool.false_eq_true, Until]
      rw [if_neg (by omega), hu]
    refine ⟨hc, ?_, ?_⟩
    · unfold snapshotBranch
      simp only [hrec, Bool.false_eq_true, if_false, hc]
    · unfold snapshotBranch
      simp only [hrec, Bool.false_eq_true, if_false, hc]
      unfold CreateDBSnapshot Until
      simp only []
      have hb := belongsToACluster_trace env (CreateRDSClient ctx) dbIdentifier
        ({ w with clock := w.clock + 1 + 1 }.emit
          (Event.Sleep (start.Sub (env.now (w.clock + 1)))))
      generalize belongsToACluster env (CreateRDSClient ctx) dbIdentifier
        ({ w with clock := w.clock + 1 + 1 }.emit
          (Event.Sleep (start.Sub (env.now (w.clock + 1))))) = b at hb
      obtain ⟨⟨cl, ok⟩, w1⟩ := b
      simp only [World.emit] at hb
      cases ok with
      | true =>
        exact ⟨[Event.DescribeDBInstances dbIdentifier,
          Event.CreateDBClusterSnapshot cl (buildSnapshotIdentifier (CreateRDSClient ctx).ctx)
            buildTagsSnapshot], by simp [World.emit, hb]⟩
      | false =>
        exact ⟨[Event.DescribeDBInstances dbIdentifier,
          Event.CreateDBSnapshot dbIdentifier (buildSnapshotIdentifier (CreateRDSClient ctx).ctx)
            buildTagsSnapshot], by simp [World.emit, hb]⟩
  · intro hd
    have hc : createSnapshot env ctx dbIdentifier startAt w =
        (some "unable to create a snapshot from past data", { w with clock := w.clock + 1 }) := by
      unfold createSnapshot
      simp only [hs, hsz, ne_eq, not_true_eq_false, if_false, Bool.false_eq_true, Until]
      rw [if_pos hd]
    refine ⟨hc, ?_⟩
    unfold snapshotBranch
    simp only [hrec, Bool.false_eq_true, if_false, hc]

theorem snapshotBranch_start_witness :
    createSnapshot (sampleEnv [] "bucket" (Date 2024 2 23 12 0 0 0 UTC) []) sampleCtx "db"
        "2024-02-23 13:00:00.000 UTC" World.init =
      CreateDBSnapshot (sampleEnv [] "bucket" (Date 2024 2 23 12 0 0 0 UTC) [])
        (CreateRDSClient sampleCtx) "db" (Date 2024 2 23 13 0 0 0 UTC)
        { World.init with clock := World.init.clock + 1 } :=
  ((snapshotBranch_start (sampleEnv [] "bucket" (Date 2024 2 23 12 0 0 0 UTC) []) sampleCtx "db"
    "2024-02-23 13:00:00.000 UTC" (Date 2024 2 23 13 0 0 0 UTC) World.init
    (by decide) (by decide) (by decide)).1 (by decide)).1

/-- C29. A context built while the environment variable
`rdsrecorder_PROCESS_ID` is set carries that process identifier and the
recovery flag. With the recovery flag and a bucket name given, by the flag
or by the environment, `StartSyncProcess` returns nil for every start and
finish string and leaves the state as it was: it makes no request of any
kind. -/
theorem StartSyncProcess_recovery (env : Env) (fuel : Nat) (ctx : Context)
    (dbIdentifier startAt endAt bucketName : String) (w : World)
    (hname : ¬ ((env.lookupEnv BucketEnvVar).isNone = true ∧ bucketName = "")) :
    (∀ pid parent, env.lookupEnv "rdsrecorder_PROCESS_ID" = some pid →
      ∃ c, CreateContextWithPid env parent = (some c, none) ∧ GetProcessID c = pid ∧
        IsRecovery c = true) ∧
    (IsRecovery ctx = true →
      StartSyncProcess env fuel ctx dbIdentifier startAt endAt bucketName w = some (none, w) ∧
      snapshotBranch env ctx dbIdentifier startAt w = w ∧
      logBranch env fuel ctx dbIdentifier startAt endAt bucketName w = some (none, w)) := by
  constructor
  · intro pid parent hp
    exact ⟨{ parent with pid := some pid, pidExternal := some true },
      by simp only [CreateContextWithPid, hp], rfl, rfl⟩
  · intro hrec
    refine ⟨?_, ?_, ?_⟩
    · unfold StartSyncProcess
      rw [if_neg hname]
      simp only [snapshotBranch, logBranch, hrec, if_true]
    · simp only [snapshotBranch, hrec, if_true]
    · simp only [logBranch, hrec, if_true]

theorem StartSyncProcess_recovery_witness :
    StartSyncProcess recoveryEnv 1 ⟨some "A1234ASDF", some true⟩ "db"
        "2024-02-23 08:00:00.000 UTC" "2024-02-23 10:00:00.000 UTC" "" World.init
      = some (none, World.init) :=
  ((StartSyncProcess_recovery recoveryEnv 1 ⟨some "A1234ASDF", some true⟩ "db"
    "2024-02-23 08:00:00.000 UTC" "2024-02-23 10:00:00.000 UTC" "" World.init
    (by decide)).2 (by decide)).1

/-! ### The streamer -/

theorem describeLogFilesLoop_interval (env : Env) (db : String) (fuel : Nat) (token : String)
    (files : List String) (w : World) (r : (List String × Option String) × World)
    (h : describeLogFilesLoop env db fuel token files w = some r) :
    r.2.intervalLogSync = w.intervalLogSync := by
  induction fuel generalizing token files w with
  | zero => simp [describeLogFilesLoop] at h
  | succ n ih =>
    simp only [describeLogFilesLoop] at h
    split at h
    · simp only [Option.some.injEq] at h
      rw [← h]
      rfl
    · split at h
      · simp only [Option.some.injEq] at h
        rw [← h]
        rfl
      · split_ifs at h
        · simp only [Option.some.injEq] at h
          rw [← h]
          rfl
        · rw [ih _ _ _ h]; rfl

theorem recordDownload_interval (env : Env) (file : File) (w : World) :
    (recordDownload env file w).intervalLogSync = w.intervalLogSync := by
  unfold recordDownload
  split <;> rfl

theorem startSyncLogProcess_interval (env : Env) (fuel : Nat) (rdsClient : RDSClient)
    (s3Client : S3BucketClient) (dbIdentifier targetFile : String) (w w' : World)
    (h : startSyncLogProcess env fuel rdsClient s3Client dbIdentifier targetFile w = some w') :
    w'.intervalLogSync = w.intervalLogSync := by
  rcases FindDateTimeFromLogFile_cases targetFile with ⟨_, e⟩ |
    ⟨_, _, _, _, _, _, _, _, _, _, _, _, _, _, e⟩
  · obtain ⟨h1, _⟩ := startSyncLogProcess_unparsable env fuel rdsClient s3Client dbIdentifier
      targetFile w ⟨_, _, e⟩
    rw [h1] at h
    rw [← Option.some.inj h]
  · obtain ⟨nm, file, derr, w1, _, hdl, hp⟩ := startSyncLogProcess_paths env fuel rdsClient
      s3Client dbIdentifier targetFile w w' ⟨_, e⟩ h
    obtain ⟨_, hd, _⟩ := downloadLogFile_frame _ _ _ _ _ _ _ hdl
    simp only [] at hd
    rcases hp with ⟨_, hw⟩ | ⟨_, f, _, hp⟩
    · rw [hw, (CleanTmpFile_frame file w1).2, hd]
    · have hpf := (PushLogToBucket_frame env s3Client (some f) nm dbIdentifier
        (recordDownload env f w1)).2
      rcases hp with ⟨_, hw⟩ | ⟨_, hw⟩
      · rw [hw, (CleanTmpFile_frame _ _).2, hpf, recordDownload_interval, hd]
      · rw [hw, (CleanTmpFile_frame _ _).2]
        have : ∀ x : World, (IncrementUploadedLogs x).intervalLogSync = x.intervalLogSync :=
          fun _ => rfl
        rw [this, hpf, recordDownload_interval, hd]

theorem runWorkers_interval (env : Env) (fuel : Nat) (rdsClient : RDSClient)
    (s3Client : S3BucketClient) (dbIdentifier : String) (names : List String) (w w' : World)
    (h : runWorkers env fuel rdsClient s3Client dbIdentifier names w = some w') :
    w'.intervalLogSync = w.intervalLogSync := by
  induction names generalizing w with
  | nil =>
    simp only [runWorkers, Option.some.injEq] at h
    rw [← h]
  | cons n rest ih =>
    simp only [runWorkers] at h
    split at h
    · simp at h
    · rename_i w1 h1
      rw [ih _ h, startSyncLogProcess_interval _ _ _ _ _ _ _ _ h1]

theorem DownloadLogsInterval_interval (env : Env) (fuel : Nat) (rdsClient : RDSClient)
    (s3Client : S3BucketClient) (db : String) (strict : Bool) (start finish : Time)
    (w : World) (r : Option String × World)
    (h : DownloadLogsInterval env fuel rdsClient s3Client db strict start finish w = some r) :
    r.2.intervalLogSync = w.intervalLogSync := by
  unfold DownloadLogsInterval at h
  split at h
  · simp at h
  · rename_i l e w1 hd
    simp only [Option.some.injEq] at h
    rw [← h]
    exact describeLogFilesLoop_interval _ _ _ _ _ _ _ hd
  · rename_i l w1 hd
    have h1 := describeLogFilesLoop_interval _ _ _ _ _ _ _ hd
    simp only [] at h1 h
    split at h
    · simp at h
    · split_ifs at h
      · simp only [Option.some.injEq] at h
        rw [← h]
        exact h1
      · split at h
        · simp at h
        · rename_i w2 hw
          simp only [Option.some.injEq] at h
          rw [← h]
          simp only []
          rw [runWorkers_interval _ _ _ _ _ _ _ _ hw, h1]

/-- The loop of `StreamLogFiles` does, tick by tick, what the specification
says, for the period in force when it starts. -/
theorem runTicks_streamTicks (env : Env) (fuel : Nat) (rdsClient : RDSClient)
    (s3Client : S3BucketClient) (db : String) (endAt : Time) (ticks : List Time) (w : World) :
    runTicks env fuel rdsClient s3Client db endAt ticks w =
      streamTicks env fuel rdsClient s3Client db w.intervalLogSync endAt ticks w := by
  induction ticks generalizing w with
  | nil => rfl
  | cons t rest ih =>
    simp only [runTicks, streamTicks]
    have ht : t.Add (-1 * w.intervalLogSync) = ⟨t.ns - w.intervalLogSync, t.loc⟩ := by
      unfold Time.Add
      congr 1
      omega
    rw [ht]
    cases hd : DownloadLogsInterval env fuel rdsClient s3Client db true
        ⟨t.ns - w.intervalLogSync, t.loc⟩ t w with
    | none => rfl
    | some r =>
      obtain ⟨e, w1⟩ := r
      have hi := DownloadLogsInterval_interval _ _ _ _ _ _ _ _ _ _ hd
      simp only [] at hi ⊢
      by_cases ha : t.After endAt = true
      · have ha' : endAt.ns < t.ns := (Time.After_iff t endAt).1 ha
        rw [if_pos ha, if_pos ha', ih]
        have : (w1.emit Event.Cancel).intervalLogSync = w.intervalLogSync := hi
        rw [this]
      · have ha' : ¬ endAt.ns < t.ns := fun h => ha ((Time.After_iff t endAt).2 h)
        rw [if_neg ha, if_neg ha', ih, hi]

/-- C27. Go `StreamLogFiles` sets its deadline to `endAt + 2 s`, asks for
the ticks of the schedule that starts at `startAt + 1 s` with the period
`intervalLogSync`, and for every tick `t` that it gets calls
`DownloadLogsInterval` with a strict interval, the start `t - period` and
the finish `t`, and requests cancellation when `t` is after that deadline. -/
theorem StreamLogFiles_schedule (env : Env) (fuel : Nat) (rdsClient : RDSClient)
    (s3Client : S3BucketClient) (dbIdentifier : String) (startAt endAt : Time) (w : World) :
    StreamLogFiles env fuel rdsClient s3Client dbIdentifier startAt endAt w =
      streamTicks env fuel rdsClient s3Client dbIdentifier w.intervalLogSync
        ⟨endAt.ns + 2 * 1000000000, endAt.loc⟩
        (env.every (w.trace ++ [Event.NewTimer ⟨endAt.ns + 2 * 1000000000, endAt.loc⟩])
          ⟨startAt.ns + 1000000000, startAt.loc⟩ w.intervalLogSync
          ⟨endAt.ns + 2 * 1000000000, endAt.loc⟩)
        { w with trace := w.trace ++ [Event.NewTimer ⟨endAt.ns + 2 * 1000000000, endAt.loc⟩,
            Event.Every ⟨startAt.ns + 1000000000, startAt.loc⟩ w.intervalLogSync] } ∧
    (∀ period deadline t rest w0,
      streamTicks env fuel rdsClient s3Client dbIdentifier period deadline (t :: rest) w0 =
        (DownloadLogsInterval env fuel rdsClient s3Client dbIdentifier true
          ⟨t.ns - period, t.loc⟩ t w0).bind (fun r =>
            streamTicks env fuel rdsClient s3Client dbIdentifier period deadline rest
              (if deadline.ns < t.ns then r.2.emit Event.Cancel else r.2))) ∧
    (∀ w', StreamLogFiles env fuel rdsClient s3Client dbIdentifier startAt endAt w = some w' →
      ∃ evs, w'.trace = w.trace ++
        Event.NewTimer ⟨endAt.ns + 2 * 1000000000, endAt.loc⟩ ::
        Event.Every ⟨startAt.ns + 1000000000, startAt.loc⟩ w.intervalLogSync :: evs) := by
  refine ⟨?_, ?_, ?_⟩
  · unfold StreamLogFiles
    simp only []
    rw [runTicks_streamTicks]
    have h1 : startAt.Add (1 * Second) = ⟨startAt.ns + 1000000000, startAt.loc⟩ := by
      unfold Time.Add
      congr 1
    have h2 : endAt.Add (2 * Second) = ⟨endAt.ns + 2 * 1000000000, endAt.loc⟩ := by
      unfold Time.Add
      congr 1
    rw [h1, h2]
    simp only [World.emit, List.append_assoc, List.singleton_append, List.cons_append,
      List.nil_append]
  · intro period deadline t rest w0
    simp only [streamTicks]
    cases DownloadLogsInterval env fuel rdsClient s3Client dbIdentifier true
      ⟨t.ns - period, t.loc⟩ t w0 with
    | none => rfl
    | some r => rfl
  · intro w' h
    unfold StreamLogFiles at h
    simp only [] at h
    obtain ⟨evs, ht, _⟩ := runTicks_delta _ _ _ _ _ _ _ _ _ h
    refine ⟨evs, ?_⟩
    rw [ht]
    simp only [World.emit, Time.Add, List.append_assoc, List.singleton_append,
      List.cons_append, List.nil_append]
    rfl

theorem StreamLogFiles_schedule_witness :
    ∃ evs, [Event.NewTimer ⟨(Date 2024 2 23 13 0 0 0 UTC).ns + 2 * 1000000000, UTC⟩,
        Event.Every ⟨(Date 2024 2 23 12 0 0 0 UTC).ns + 1000000000, UTC⟩ (1 * Hour),
        Event.DescribeDBLogFiles "db" "0"] = World.init.trace ++
      Event.NewTimer ⟨(Date 2024 2 23 13 0 0 0 UTC).ns + 2 * 1000000000,
        (Date 2024 2 23 13 0 0 0 UTC).loc⟩ ::
      Event.Every ⟨(Date 2024 2 23 12 0 0 0 UTC).ns + 1000000000,
        (Date 2024 2 23 12 0 0 0 UTC).loc⟩ World.init.intervalLogSync :: evs :=
  (StreamLogFiles_schedule
    (sampleEnv [] "bucket" (Date 2024 2 23 12 0 0 0 UTC) [Date 2024 2 23 12 0 1 0 UTC]) 1
    (CreateRDSClient sampleCtx)
    (CreateS3Client
      (sampleEnv [] "bucket" (Date 2024 2 23 12 0 0 0 UTC) [Date 2024 2 23 12 0 1 0 UTC])
      sampleCtx "bucket") "db" (Date 2024 2 23 12 0 0 0 UTC)
    (Date 2024 2 23 13 0 0 0 UTC) World.init).2.2
    { World.init with trace :=
      [Event.NewTimer ⟨(Date 2024 2 23 13 0 0 0 UTC).ns + 2 * 1000000000, UTC⟩,
        Event.Every ⟨(Date 2024 2 23 12 0 0 0 UTC).ns + 1000000000, UTC⟩ (1 * Hour),
        Event.DescribeDBLogFiles "db" "0"] }
    (by decide)

/-! ### The hand-off between the interval download and the streamer -/

/-- C28 (counterexample). A straddling run at 12:00:59.5 whose first tick
comes at the start of the schedule, 12:01:00.5, with the period of one hour:
the log file of 11:01 lies between the rounded start and the first tick, and
neither in the interval of the download, which ends at 11:00:59.5, nor in
that of the first tick, which starts at 11:01:00.5; the run lists it twice
and never downloads it. -/
theorem straddle_handoff_gap :
    (syncLogs handoffEnv 1 sampleCtx "db" "2024-02-23 08:45:00.000 UTC"
        "2024-02-23 13:00:00.000 UTC" "bucket" World.init).map
      (fun r => (r.1, countCreateTemp r.2.trace, r.2.trace))
      = some (none, 0,
        [Event.ListBuckets, Event.DescribeDBLogFiles "db" "0",
          Event.NewTimer ((Date 2024 2 23 13 0 0 0 UTC).Add (2 * Second)),
          Event.Every ((Date 2024 2 23 12 0 59 500000000 UTC).Add (1 * Second)) (1 * Hour),
          Event.DescribeDBLogFiles "db" "0"]) ∧
    inWindow (hourFloor ((Date 2024 2 23 8 45 0 0 UTC).Add (-1 * Hour)))
      ((Date 2024 2 23 12 0 59 500000000 UTC).Add (1 * Second))
      "error/postgresql.log.2024-02-23-1101.csv" = true ∧
    inWindow (hourFloor ((Date 2024 2 23 8 45 0 0 UTC).Add (-1 * Hour)))
      ((Date 2024 2 23 12 0 59 500000000 UTC).Add (-1 * Hour))
      "error/postgresql.log.2024-02-23-1101.csv" = false ∧
    inWindow (((Date 2024 2 23 12 0 59 500000000 UTC).Add (1 * Second)).Add (-1 * Hour))
      ((Date 2024 2 23 12 0 59 500000000 UTC).Add (1 * Second))
      "error/postgresql.log.2024-02-23-1101.csv" = false := by
  decide

/-- C28 (amended). In straddling mode, with a positive period and the first
tick not before the start of the schedule, one second after the time `now`
of the hand-off: an instant from the rounded start of the download up to the
first tick lies in the interval of the download, from `start - period`
rounded down to the hour to `now - period`, or in that of the first tick,
from `tick - period` to `tick`, if and only if it is not strictly between
`now - period` and `tick - period`; these two are at least one second
apart, so there are such instants. -/
theorem straddle_handoff (start now tick x : Time) (period : Int) (hp : 0 < period)
    (hs : start.ns < now.ns) (ht : (now.Add (1 * Second)).ns ≤ tick.ns)
    (h1 : (roundStart false (start.Add (-1 * period))).ns ≤ x.ns) (h2 : x.ns ≤ tick.ns) :
    ((TimeBetween x (roundStart false (start.Add (-1 * period))) (now.Add (-1 * period)) = true ∨
        TimeBetween x (tick.Add (-1 * period)) tick = true) ↔
      ¬ ((now.Add (-1 * period)).ns < x.ns ∧ x.ns < (tick.Add (-1 * period)).ns)) ∧
    (now.Add (-1 * period)).ns + 1 * Second ≤ (tick.Add (-1 * period)).ns ∧
    (roundStart false (start.Add (-1 * period))).ns ≤ (now.Add (-1 * period)).ns := by
  have hr := hourFloor_le (start.Add (-1 * period))
  rw [roundStart_eq] at h1 ⊢
  simp only [Bool.false_eq_true, if_false] at h1 ⊢
  rw [TimeBetween_iff, TimeBetween_iff]
  simp only [Time.Add, Second, Millisecond, Microsecond, Nanosecond] at *
  refine ⟨?_, by omega, by omega⟩
  constructor
  · rintro (⟨_, hb⟩ | ⟨ha, _⟩)
    · rw [max_eq_right (by omega)] at hb
      omega
    · rw [min_eq_left (by omega)] at ha
      omega
  · intro hn
    by_cases hx : x.ns ≤ now.ns + -1 * period
    · left
      rw [min_eq_left (by omega), max_eq_right (by omega)]
      exact ⟨h1, hx⟩
    · right
      rw [min_eq_left (by omega), max_eq_right (by omega)]
      constructor
      · by_contra hc
        exact hn ⟨by omega, by omega⟩
      · exact h2

theorem straddle_handoff_witness :
    ((TimeBetween (Date 2024 2 23 11 1 0 0 UTC)
          (roundStart false ((Date 2024 2 23 8 45 0 0 UTC).Add (-1 * (1 * Hour))))
          ((Date 2024 2 23 12 0 59 500000000 UTC).Add (-1 * (1 * Hour))) = true ∨
        TimeBetween (Date 2024 2 23 11 1 0 0 UTC)
          (((Date 2024 2 23 12 0 59 500000000 UTC).Add (1 * Second)).Add (-1 * (1 * Hour)))
          ((Date 2024 2 23 12 0 59 500000000 UTC).Add (1 * Second)) = true) ↔
      ¬ (((Date 2024 2 23 12 0 59 500000000 UTC).Add (-1 * (1 * Hour))).ns
          < (Date 2024 2 23 11 1 0 0 UTC).ns ∧
        (Date 2024 2 23 11 1 0 0 UTC).ns <
          (((Date 2024 2 23 12 0 59 500000000 UTC).Add (1 * Second)).Add (-1 * (1 * Hour))).ns)) :=
  (straddle_handoff (Date 2024 2 23 8 45 0 0 UTC) (Date 2024 2 23 12 0 59 500000000 UTC)
    ((Date 2024 2 23 12 0 59 500000000 UTC).Add (1 * Second)) (Date 2024 2 23 11 1 0 0 UTC)
    (1 * Hour) (by decide) (by decide) (by decide)
    (by
      rw [roundStart_eq]
      decide)
    (by decide)).1

/-! ### The object name as a function of the instant -/

theorem digitChar_val (k : Nat) (h : k < 10) :
    (Nat.digitChar k).toNat - 48 = k ∧ Nat.digitChar k ≠ '-' := by
  interval_cases k <;> decide

theorem toDigitsCore_foldl (fuel n : Nat) (ds : List Char) (h : n < fuel) :
    (Nat.toDigitsCore 10 fuel n ds).foldl (fun a c => a * 10 + (c.toNat - 48)) 0
      = ds.foldl (fun a c => a * 10 + (c.toNat - 48)) n := by
  induction fuel generalizing n ds with
  | zero => omega
  | succ f ih =>
    simp only [Nat.toDigitsCore]
    have hd := (digitChar_val (n % 10) (Nat.mod_lt _ (by norm_num))).1
    split_ifs with h0
    · simp only [List.foldl_cons, Nat.zero_mul, Nat.zero_add, hd]
      have : n % 10 = n := by omega
      rw [this]
    · rw [ih (n / 10) _ (by omega)]
      simp only [List.foldl_cons, hd]
      have : n / 10 * 10 + n % 10 = n := by omega
      rw [this]

theorem toDigitsCore_no_dash (fuel n : Nat) (ds : List Char) :
    ∀ c ∈ Nat.toDigitsCore 10 fuel n ds, c ∈ ds ∨ c ≠ '-' := by
  induction fuel generalizing n ds with
  | zero =>
    intro c hc
    simp only [Nat.toDigitsCore] at hc
    exact Or.inl hc
  | succ f ih =>
    intro c hc
    simp only [Nat.toDigitsCore] at hc
    have hd := (digitChar_val (n % 10) (Nat.mod_lt _ (by norm_num))).2
    split_ifs at hc with h0
    · simp only [List.mem_cons] at hc
      rcases hc with rfl | hc
      · exact Or.inr hd
      · exact Or.inl hc
    · rcases ih _ _ c hc with h | h
      · simp only [List.mem_cons] at h
        rcases h with rfl | h
        · exact Or.inr hd
        · exact Or.inl h
      · exact Or.inr h

theorem Nat_repr_inj (a b : Nat) (h : Nat.repr a = Nat.repr b) : a = b := by
  have h' : Nat.toDigits 10 a = Nat.toDigits 10 b := by
    have := congrArg String.data h
    simpa [Nat.repr, List.asString] using this
  have ha := toDigitsCore_foldl (a + 1) a [] (by omega)
  have hb := toDigitsCore_foldl (b + 1) b [] (by omega)
  simp only [Nat.toDigits] at h'
  rw [h'] at ha
  rw [ha] at hb
  simpa using hb

theorem Nat_repr_no_dash (a : Nat) : '-' ∉ (Nat.repr a).data := by
  intro h
  have h' : '-' ∈ Nat.toDigits 10 a := by simpa [Nat.repr, List.asString] using h
  rcases toDigitsCore_no_dash (a + 1) a [] _ h' with h | h
  · simp at h
  · exact h rfl

/-- The verb `%d` prints different integers differently. -/
theorem formatInt_inj (i j : Int) (h : formatInt i = formatInt j) : i = j := by
  have hdash : ∀ a b : Nat, Nat.repr a ≠ "-" ++ Nat.repr b := by
    intro a b e
    apply Nat_repr_no_dash a
    rw [e]
    simp [String.data_append]
  cases i with
  | ofNat a =>
    cases j with
    | ofNat b =>
      simp only [formatInt] at h
      rw [Nat_repr_inj a b h]
    | negSucc b =>
      simp only [formatInt] at h
      exact absurd h (hdash _ _)
  | negSucc a =>
    cases j with
    | ofNat b =>
      simp only [formatInt] at h
      exact absurd h.symm (hdash _ _)
    | negSucc b =>
      simp only [formatInt] at h
      have h2 : Nat.repr (a + 1) = Nat.repr (b + 1) := by
        have := congrArg String.data h
        simp only [String.data_append, List.append_cancel_left_eq] at this
        exact String.ext this
      have := Nat_repr_inj _ _ h2
      have : a = b := by omega
      rw [this]

/-- An instant that `time.Date` builds from whole seconds has no nanoseconds. -/
theorem Date_whole_seconds (year month day hour min : Int) (loc : Location) :
    (Date year month day hour min 0 0 loc).ns % 1000000000 = 0 := by
  unfold Date
  simp only [norm_id 0 0 1000000000 (by norm_num) (by norm_num)]
  simp

theorem Unix_inj_of_whole (t u : Time) (ht : t.ns % 1000000000 = 0)
    (hu : u.ns % 1000000000 = 0) (h : t.UTC.Unix = u.UTC.Unix) : t.ns = u.ns := by
  simp only [Time.Unix, Time.UTC, Time.sec] at h
  omega

/-- C30. For a fixed process identifier and two file names that
`FindDateTimeFromLogFile` accepts, `FormatFileNameForS3` returns the same
object name if and only if the two names have the same instant; so two
different names with the same date string, or with date strings of the same
instant such as `-08` and `-0800`, get one object name. -/
theorem FormatFileNameForS3_same_name (ctx : Context) (name1 name2 : String) (t1 t2 : Time)
    (h1 : FindDateTimeFromLogFile name1 = some (t1, none))
    (h2 : FindDateTimeFromLogFile name2 = some (t2, none)) :
    (FormatFileNameForS3 ctx name1 = FormatFileNameForS3 ctx name2 ↔ t1 = t2) ∧
    (t1 = t2 ↔ t1.ns = t2.ns) := by
  have hshape : ∀ (n : String) (t : Time), FindDateTimeFromLogFile n = some (t, none) →
      t.ns % 1000000000 = 0 ∧ t.loc = UTC := by
    intro n t h
    rcases FindDateTimeFromLogFile_cases n with ⟨_, e⟩ |
      ⟨_, _, _, _, _, _, _, _, _, _, _, _, _, _, e⟩
    · rw [e] at h
      simp at h
    · rw [e] at h
      simp only [Option.some.injEq, Prod.mk.injEq, and_true] at h
      rw [← h]
      exact ⟨Date_whole_seconds _ _ _ _ _ _, rfl⟩
  obtain ⟨w1, l1⟩ := hshape name1 t1 h1
  obtain ⟨w2, l2⟩ := hshape name2 t2 h2
  have hns : t1 = t2 ↔ t1.ns = t2.ns := by
    constructor
    · intro h
      rw [h]
    · intro h
      cases t1
      cases t2
      simp only [] at h l1 l2
      simp only [Time.mk.injEq]
      exact ⟨h, by rw [l1, l2]⟩
  refine ⟨?_, hns⟩
  simp only [FormatFileNameForS3, h1, h2, Option.some.injEq, Prod.mk.injEq, and_true]
  constructor
  · intro h
    have hd := congrArg String.data h
    simp only [String.data_append, List.append_assoc, List.append_cancel_left_eq] at hd
    have hf : formatInt t1.UTC.Unix = formatInt t2.UTC.Unix := String.ext hd
    exact hns.2 (Unix_inj_of_whole t1 t2 w1 w2 (formatInt_inj _ _ hf))
  · intro h
    rw [h]

theorem FormatFileNameForS3_same_name_witness :
    "error/postgresql.log.2024-02-23-08.csv" ≠ "error/postgresql.log.2024-02-23-0800.csv" ∧
    FormatFileNameForS3 sampleCtx "error/postgresql.log.2024-02-23-08.csv"
      = FormatFileNameForS3 sampleCtx "error/postgresql.log.2024-02-23-0800.csv" :=
  ⟨by decide,
    (FormatFileNameForS3_same_name sampleCtx "error/postgresql.log.2024-02-23-08.csv"
      "error/postgresql.log.2024-02-23-0800.csv" (Date 2024 2 23 8 0 0 0 UTC)
      (Date 2024 2 23 8 0 0 0 UTC) (by decide) (by decide)).1.2 rfl⟩

/-! ### Overlapping `PushLogToBucket` calls -/

/-- One step of a call adds a marker request to the trace exactly when it
adds one to the count of the call. -/
theorem PushCall_step_count (env : Env) (client : S3BucketClient) (dbIdentifier : String)
    (c : PushCall) (w : World) :
    countPutObject (GetProcessID client.ctx ++ "/")
        (c.step env client dbIdentifier w).2.trace + c.markers
      = countPutObject (GetProcessID client.ctx ++ "/") w.trace
        + (c.step env client dbIdentifier w).1.markers := by
  obtain ⟨tf, fn, pt, m⟩ := c
  cases pt with
  | check =>
    simp only [PushCall.step]
    split_ifs <;> rfl
  | list =>
    simp only [PushCall.step, World.emit, countPutObject_append]
    simp [countPutObject]
  | assign found => rfl
  | answer =>
    simp only [PushCall.step]
    split_ifs <;> rfl
  | create =>
    have hc := createBucketFolder_countPutObject env client (GetProcessID client.ctx)
      dbIdentifier w
    simp only [PushCall.step]
    generalize createBucketFolder env client (GetProcessID client.ctx) dbIdentifier w = r at hc
    obtain ⟨err, w2⟩ := r
    simp only [] at hc
    cases err with
    | some e => simp only []; omega
    | none => simp only []; omega
  | upload =>
    have hu := UploadLargeFile_countPutObject env (GetProcessID client.ctx ++ "/") tf
      (formatFilePath (GetProcessID client.ctx) fn) w
    simp only [PushCall.step]
    omega
  | returned err => rfl

/-- One step of a call keeps it sound. -/
theorem PushCall_step_sound (env : Env) (client : S3BucketClient) (dbIdentifier : String)
    (c : PushCall) (w : World) (h : c.sound) : (c.step env client dbIdentifier w).1.sound := by
  obtain ⟨tf, fn, pt, m⟩ := c
  unfold PushCall.sound at h ⊢
  cases pt with
  | check =>
    simp only [PushCall.step]
    split_ifs <;> simp_all
  | list => simp_all [PushCall.step]
  | assign found => simp_all [PushCall.step]
  | answer =>
    simp only [PushCall.step]
    split_ifs <;> simp_all
  | create =>
    simp only [PushCall.step]
    have hm : m = 0 := by simp_all
    subst hm
    split <;> simp
  | upload =>
    simp only [PushCall.step]
    rcases h with h | h
    · left; exact h
    · right; exact ⟨h.1, Or.inr ⟨_, rfl⟩⟩
  | returned err => exact h

/-- Six steps in a row bring a call from its start to its return, with the
outcome of `PushLogToBucket`. -/
theorem PushCall_steps_six (env : Env) (client : S3BucketClient) (dbIdentifier : String)
    (tf : Option File) (fn : String) (m : Nat) (w : World) :
    ∃ m2, PushCall.steps env client dbIdentifier 6 ⟨tf, fn, .check, m⟩ w =
      (⟨tf, fn, .returned (PushLogToBucket env client tf fn dbIdentifier w).1, m2⟩,
        (PushLogToBucket env client tf fn dbIdentifier w).2) := by
  unfold PushLogToBucket verifyBucketFolder
  by_cases hf : w.folderExists = true
  · refine ⟨m, ?_⟩
    simp [PushCall.steps, PushCall.step, hf]
  · have hf2 : w.folderExists = false := by simpa using hf
    cases hr : env.listObjectsV2 w.trace client.bucketName (GetProcessID client.ctx ++ "/") 1 with
    | error e =>
      simp only [PushCall.steps, PushCall.step, createBucketFolder, hf2, hr, World.emit,
        Bool.false_eq_true, if_false, Bool.not_false, if_true]
      generalize env.putObject _ _ _ _ = perr
      cases perr with
      | some e2 => exact ⟨m + 1, by simp [PushCall.step]⟩
      | none => exact ⟨m + 1, by simp [PushCall.step]⟩
    | ok n =>
      by_cases hn : n = 0
      · simp only [PushCall.steps, PushCall.step, createBucketFolder, hf2, hr, hn, World.emit,
          Bool.false_eq_true, if_false, Bool.not_false, if_true]
        generalize env.putObject _ _ _ _ = perr
        cases perr with
        | some e2 => exact ⟨m + 1, by simp [PushCall.step]⟩
        | none => exact ⟨m + 1, by simp [PushCall.step]⟩
      · refine ⟨m, ?_⟩
        simp [PushCall.steps, PushCall.step, hf2, hr, hn, World.emit]

/-- The marker count of a run after one call has been replaced. -/
theorem markersOf_set (cs : List PushCall) (i : Nat) (c c2 : PushCall) (h : cs[i]? = some c) :
    markersOf (cs.set i c2) + c.markers = markersOf cs + c2.markers := by
  induction cs generalizing i with
  | nil => simp at h
  | cons x xs ih =>
    cases i with
    | zero =>
      simp only [List.getElem?_cons_zero, Option.some.injEq] at h
      subst h
      simp only [markersOf, List.set_cons_zero, List.map_cons, List.sum_cons]
      omega
    | succ j =>
      simp only [List.getElem?_cons_succ] at h
      have := ih j h
      simp only [markersOf, List.set_cons_succ, List.map_cons, List.sum_cons] at this ⊢
      omega

/-- Sound calls have each made at most one marker request. -/
theorem markersOf_le (cs : List PushCall) (h : ∀ c ∈ cs, c.sound) :
    markersOf cs ≤ cs.length ∧ ∀ c ∈ cs, c.markers ≤ 1 := by
  constructor
  · induction cs with
    | nil => simp [markersOf]
    | cons x xs ih =>
      have hx := h x (List.mem_cons_self _ _)
      have := ih (fun c hc => h c (List.mem_cons_of_mem _ hc))
      simp only [markersOf, List.map_cons, List.sum_cons, List.length_cons] at this ⊢
      unfold PushCall.sound at hx
      omega
  · intro c hc
    have := h c hc
    unfold PushCall.sound at this
    omega

/-- Calls that have not started are sound and have made no marker request. -/
theorem markersOf_startCalls (files : List (Option File × String)) :
    markersOf (startCalls files) = 0 ∧ ∀ c ∈ startCalls files, c.sound := by
  constructor
  · induction files with
    | nil => rfl
    | cons f fs ih =>
      simp only [markersOf, startCalls, List.map_cons, List.sum_cons] at ih ⊢
      omega
  · intro c hc
    simp only [startCalls, List.mem_map] at hc
    obtain ⟨f, _, rfl⟩ := hc
    exact Or.inl rfl

/-- One step of a run keeps the number of calls, and adds to the trace as
many marker requests as it adds to the counts of the calls. -/
theorem stepCall_count (env : Env) (client : S3BucketClient) (dbIdentifier : String)
    (s : List PushCall × World) (i : Nat) (hs : ∀ c ∈ s.1, c.sound) :
    (∀ c ∈ (stepCall env client dbIdentifier s i).1, c.sound) ∧
    (stepCall env client dbIdentifier s i).1.length = s.1.length ∧
    countPutObject (GetProcessID client.ctx ++ "/")
        (stepCall env client dbIdentifier s i).2.trace + markersOf s.1
      = countPutObject (GetProcessID client.ctx ++ "/") s.2.trace
        + markersOf (stepCall env client dbIdentifier s i).1 := by
  unfold stepCall
  cases hc : s.1[i]? with
  | none => exact ⟨hs, rfl, rfl⟩
  | some c =>
    simp only []
    have hmem : c ∈ s.1 := (List.mem_iff_getElem?.2 ⟨i, hc⟩)
    refine ⟨?_, List.length_set _ _ _, ?_⟩
    · intro d hd
      rcases List.mem_or_eq_of_mem_set hd with h | h
      · exact hs d h
      · rw [h]
        exact PushCall_step_sound env client dbIdentifier c s.2 (hs c hmem)
    · have h1 := PushCall_step_count env client dbIdentifier c s.2
      have h2 := markersOf_set s.1 i c (c.step env client dbIdentifier s.2).1 hc
      omega

/-- A run keeps the number of calls, and adds to the trace as many marker
requests as it adds to the counts of the calls. -/
theorem runCalls_count (env : Env) (client : S3BucketClient) (dbIdentifier : String)
    (schedule : List Nat) (s : List PushCall × World) (hs : ∀ c ∈ s.1, c.sound) :
    (∀ c ∈ (runCalls env client dbIdentifier schedule s).1, c.sound) ∧
    (runCalls env client dbIdentifier schedule s).1.length = s.1.length ∧
    countPutObject (GetProcessID client.ctx ++ "/")
        (runCalls env client dbIdentifier schedule s).2.trace + markersOf s.1
      = countPutObject (GetProcessID client.ctx ++ "/") s.2.trace
        + markersOf (runCalls env client dbIdentifier schedule s).1 := by
  induction schedule generalizing s with
  | nil => exact ⟨hs, rfl, rfl⟩
  | cons i rest ih =>
    obtain ⟨a1, a2, a3⟩ := stepCall_count env client dbIdentifier s i hs
    obtain ⟨b1, b2, b3⟩ := ih (stepCall env client dbIdentifier s i) a1
    have e : runCalls env client dbIdentifier (i :: rest) s
        = runCalls env client dbIdentifier rest (stepCall env client dbIdentifier s i) := rfl
    rw [e]
    exact ⟨b1, b2.trans a2, by omega⟩

/-- A run under two schedules in a row. -/
theorem runCalls_append (env : Env) (client : S3BucketClient) (dbIdentifier : String)
    (a b : List Nat) (s : List PushCall × World) :
    runCalls env client dbIdentifier (a ++ b) s
      = runCalls env client dbIdentifier b (runCalls env client dbIdentifier a s) := by
  simp [runCalls, List.foldl_append]

/-- Putting back the call that is there changes nothing. -/
theorem set_self_of_get (cs : List PushCall) (i : Nat) (c : PushCall)
    (h : cs[i]? = some c) : cs.set i c = cs := by
  induction cs generalizing i with
  | nil => rfl
  | cons x xs ih =>
    cases i with
    | zero =>
      simp only [List.getElem?_cons_zero, Option.some.injEq] at h
      subst h
      rfl
    | succ j =>
      simp only [List.getElem?_cons_succ] at h
      simp only [List.set_cons_succ, ih j h]

/-- A run in which one call takes a number of steps in a row. -/
theorem runCalls_replicate (env : Env) (client : S3BucketClient) (dbIdentifier : String)
    (n i : Nat) (cs : List PushCall) (w : World) (c : PushCall) (h : cs[i]? = some c) :
    runCalls env client dbIdentifier (List.replicate n i) (cs, w)
      = (cs.set i (PushCall.steps env client dbIdentifier n c w).1,
        (PushCall.steps env client dbIdentifier n c w).2) := by
  induction n generalizing cs w c with
  | zero =>
    simp only [List.replicate_zero, runCalls, List.foldl_nil, PushCall.steps]
    rw [set_self_of_get cs i c h]
  | succ n ih =>
    have e : runCalls env client dbIdentifier (List.replicate (n + 1) i) (cs, w)
        = runCalls env client dbIdentifier (List.replicate n i)
          (stepCall env client dbIdentifier (cs, w) i) := rfl
    have hlt : i < cs.length := by
      rcases Nat.lt_or_ge i cs.length with h1 | h1
      · exact h1
      · rw [List.getElem?_eq_none h1] at h
        simp at h
    have e2 : stepCall env client dbIdentifier (cs, w) i
        = (cs.set i (c.step env client dbIdentifier w).1, (c.step env client dbIdentifier w).2) := by
      simp only [stepCall, h]
    rw [e, e2, ih (cs.set i (c.step env client dbIdentifier w).1) _
      (c.step env client dbIdentifier w).1 (by simp [List.getElem?_set, hlt])]
    simp only [List.set_set, PushCall.steps]

/-- A run in which the calls that have not started take their steps one
after the other changes the state as the sequence of `PushLogToBucket` calls
does. -/
theorem runCalls_oneByOne (env : Env) (client : S3BucketClient) (dbIdentifier : String)
    (files : List (Option File × String)) (k : Nat) (cs : List PushCall) (w : World)
    (h : cs.drop k = startCalls files) :
    (runCalls env client dbIdentifier
      ((List.range' k files.length).flatMap (fun i => List.replicate 6 i)) (cs, w)).2
      = pushLogs env client dbIdentifier files w := by
  induction files generalizing k cs w with
  | nil => rfl
  | cons f fs ih =>
    obtain ⟨tf, fn⟩ := f
    have hk : cs[k]? = some ⟨tf, fn, .check, 0⟩ := by
      have : (cs.drop k)[0]? = some ⟨tf, fn, .check, 0⟩ := by rw [h]; simp [startCalls]
      simpa using this
    simp only [List.length_cons, List.range'_succ, List.flatMap_cons, runCalls_append]
    rw [runCalls_replicate env client dbIdentifier 6 k cs w _ hk]
    obtain ⟨m2, h6⟩ := PushCall_steps_six env client dbIdentifier tf fn 0 w
    rw [h6]
    simp only [pushLogs]
    apply ih
    rw [List.drop_set_of_lt _ _ (Nat.lt_succ_self k)]
    have : cs.drop (k + 1) = (cs.drop k).tail := by
      rw [List.tail_drop]
    rw [this, h]
    rfl

/-- C6 (amended). However the steps of the `PushLogToBucket` calls of a run
are interleaved, each call makes the `PutObject` request for the folder
marker `PID/` at most once, so that a run of `n` calls makes at most `n`
such requests, the number of the calls that made one. When the calls do not
overlap the run is the sequence of the calls, and then, started before any
folder marker was put and provided every listing of the folder made after a
marker request succeeds and reports at least one object, it makes the
request at most once. -/
theorem PushLogToBucket_folder_marker (env : Env) (client : S3BucketClient)
    (dbIdentifier : String) (files : List (Option File × String)) (w : World) :
    (∀ schedule : List Nat,
      (runCalls env client dbIdentifier schedule (startCalls files, w)).1.length
        = files.length ∧
      (∀ c ∈ (runCalls env client dbIdentifier schedule (startCalls files, w)).1,
        c.markers ≤ 1) ∧
      countPutObject (GetProcessID client.ctx ++ "/")
          (runCalls env client dbIdentifier schedule (startCalls files, w)).2.trace
        = countPutObject (GetProcessID client.ctx ++ "/") w.trace
          + markersOf (runCalls env client dbIdentifier schedule (startCalls files, w)).1 ∧
      countPutObject (GetProcessID client.ctx ++ "/")
          (runCalls env client dbIdentifier schedule (startCalls files, w)).2.trace
        ≤ countPutObject (GetProcessID client.ctx ++ "/") w.trace + files.length) ∧
    (runCalls env client dbIdentifier (oneByOne files.length) (startCalls files, w)).2
      = pushLogs env client dbIdentifier files w ∧
    ((∀ tr, 1 ≤ countPutObject (GetProcessID client.ctx ++ "/") tr →
        ∃ n, env.listObjectsV2 tr client.bucketName (GetProcessID client.ctx ++ "/") 1
          = .ok (n + 1)) →
      countPutObject (GetProcessID client.ctx ++ "/") w.trace = 0 →
      countPutObject (GetProcessID client.ctx ++ "/")
        (runCalls env client dbIdentifier (oneByOne files.length)
          (startCalls files, w)).2.trace ≤ 1) := by
  have hseq : (runCalls env client dbIdentifier (oneByOne files.length) (startCalls files, w)).2
      = pushLogs env client dbIdentifier files w := by
    unfold oneByOne
    rw [List.range_eq_range']
    exact runCalls_oneByOne env client dbIdentifier files 0 (startCalls files) w rfl
  refine ⟨?_, hseq, ?_⟩
  · intro schedule
    obtain ⟨h0, hs⟩ := markersOf_startCalls files
    obtain ⟨a1, a2, a3⟩ := runCalls_count env client dbIdentifier schedule (startCalls files, w) hs
    obtain ⟨b1, b2⟩ := markersOf_le _ a1
    have hl : (startCalls files).length = files.length := by simp [startCalls]
    simp only [] at a2 a3
    rw [h0] at a3
    rw [hl] at a2
    rw [a2] at b1
    exact ⟨a2, b2, by omega, by omega⟩
  · intro hlist h0
    rw [hseq]
    exact pushLogs_folder_marker_once env client dbIdentifier files w hlist h0

theorem PushLogToBucket_folder_marker_witness :
    countPutObject "A1234ASDF/"
        (runCalls (sampleEnv [] "bucket" Time.zero []) ⟨sampleCtx, "bucket"⟩ "db"
          [0, 0, 1, 1, 0, 0, 0, 0, 1, 1, 1, 1]
          (startCalls [(none, "a"), (none, "b")], World.init)).2.trace = 2 ∧
    countPutObject "A1234ASDF/"
        (runCalls (sampleEnv [] "bucket" Time.zero []) ⟨sampleCtx, "bucket"⟩ "db"
          (oneByOne 2) (startCalls [(none, "a"), (none, "b")], World.init)).2.trace ≤ 1 :=
  ⟨by decide,
    (PushLogToBucket_folder_marker (sampleEnv [] "bucket" Time.zero []) ⟨sampleCtx, "bucket"⟩
      "db" [(none, "a"), (none, "b")] World.init).2.2
      (fun tr h => sampleEnv_lists_marker tr h) (by decide)⟩

/-- C24 (counterexample). A run of `startSyncLogProcess` on a name that
parses, whose download succeeds while `file.Stat()` on the downloaded file
fails: the download counter has not moved, and the upload counter has grown
by one. -/
theorem download_counter_skipped_on_stat_error :
    (FindDateTimeFromLogFile "error/postgresql.log.2024-02-23-0830.csv").map (fun r => r.2)
      = some none ∧
    (downloadLogFile failedStatEnv 1 (CreateRDSClient sampleCtx) "db"
        "error/postgresql.log.2024-02-23-0830.csv" World.init).map (fun r => r.1.2)
      = some none ∧
    (startSyncLogProcess failedStatEnv 1 (CreateRDSClient sampleCtx)
        (CreateS3Client failedStatEnv sampleCtx "bucket") "db"
        "error/postgresql.log.2024-02-23-0830.csv" World.init).map
      (fun w => (w.downloadedLogsTotal, w.uploadedS3LogsTotal, uploadKeys w.trace))
      = some (0, 1, ["A1234ASDF/rds_log_A1234ASDF_1708677000"]) := by
  decide

/-- C24 (amended). One call of `startSyncLogProcess` that returns: for a name
that does not parse it makes no request and leaves the counters as they are;
for a name that parses, a failed download leaves both counters as they are
and is followed by no upload; after a successful download
`rdsrecorder_downloaded_logs_total` grows by exactly one when `file.Stat()`
on the downloaded file succeeds and not at all when it fails, and
`rdsrecorder_uploaded_s3_logs_total` grows by exactly one when the push to the
bucket succeeds, whatever `file.Stat()` answered, and not at all when the
push fails. -/
theorem startSyncLogProcess_counters (env : Env) (fuel : Nat) (rdsClient : RDSClient)
    (s3Client : S3BucketClient) (dbIdentifier targetFile : String) (w w' : World)
    (h : startSyncLogProcess env fuel rdsClient s3Client dbIdentifier targetFile w = some w') :
    ((∃ t e, FindDateTimeFromLogFile targetFile = some (t, some e)) → w' = w) ∧
    ((∃ t, FindDateTimeFromLogFile targetFile = some (t, none)) →
      ∃ nm file derr w1, FormatFileNameForS3 rdsClient.ctx targetFile = some (nm, none) ∧
        downloadLogFile env fuel rdsClient dbIdentifier targetFile w = some ((file, derr), w1) ∧
        (derr ≠ none →
          w'.downloadedLogsTotal = w.downloadedLogsTotal ∧
          w'.uploadedS3LogsTotal = w.uploadedS3LogsTotal ∧
          uploadKeys w'.trace = uploadKeys w.trace) ∧
        (derr = none → ∃ f, file = some f ∧
          (env.stat w1.trace f.name = none →
            w'.downloadedLogsTotal = w.downloadedLogsTotal + 1) ∧
          (env.stat w1.trace f.name ≠ none →
            w'.downloadedLogsTotal = w.downloadedLogsTotal) ∧
          ((PushLogToBucket env s3Client (some f) nm dbIdentifier
              (recordDownload env f w1)).1 = none →
            w'.uploadedS3LogsTotal = w.uploadedS3LogsTotal + 1) ∧
          ((PushLogToBucket env s3Client (some f) nm dbIdentifier
              (recordDownload env f w1)).1 ≠ none →
            w'.uploadedS3LogsTotal = w.uploadedS3LogsTotal))) := by
  constructor
  · intro hbad
    obtain ⟨h1, _⟩ := startSyncLogProcess_unparsable env fuel rdsClient s3Client dbIdentifier
      targetFile w hbad
    rw [h1] at h
    exact (Option.some.inj h).symm
  · intro hparse
    obtain ⟨nm, file, derr, w1, hfmt, hdl, hp⟩ := startSyncLogProcess_counters_after env fuel
      rdsClient s3Client dbIdentifier targetFile w w' hparse h
    refine ⟨nm, file, derr, w1, hfmt, hdl, ?_, ?_⟩
    · intro hne
      rcases hp with ⟨_, hc, hk⟩ | ⟨he, _⟩
      · exact ⟨(counters_eq _ _ hc).1, (counters_eq _ _ hc).2.1, hk⟩
      · exact absurd he hne
    · intro he
      rcases hp with ⟨hne, _⟩ | ⟨_, f, hf, hd, _, hu⟩
      · exact absurd he hne
      · refine ⟨f, hf, ?_, ?_, ?_, ?_⟩
        · intro hs
          rw [hd, if_pos hs]
        · intro hs
          rw [hd, if_neg hs]
          rfl
        · intro hp
          rw [hu, if_pos hp]
        · intro hp
          rw [hu, if_neg hp]
          rfl

theorem startSyncLogProcess_counters_witness :
    ∃ nm file derr w1, FormatFileNameForS3 (CreateRDSClient sampleCtx).ctx
          "error/postgresql.log.2024-02-23-0830.csv" = some (nm, none) ∧
        downloadLogFile failedStatEnv 1
          (CreateRDSClient sampleCtx) "db" "error/postgresql.log.2024-02-23-0830.csv" World.init
          = some ((file, derr), w1) ∧
        (derr ≠ none →
          (0 : Nat) = World.init.downloadedLogsTotal ∧
          (1 : Nat) = World.init.uploadedS3LogsTotal ∧
          uploadKeys [Event.CreateTemp "/var/tmp" "rds-log-A1234ASDF-",
            Event.DownloadDBLogFilePortion "db" "error/postgresql.log.2024-02-23-0830.csv" "0"
              1450,
            Event.ListObjectsV2 "bucket" "A1234ASDF/" 1,
            Event.PutObject "bucket" "A1234ASDF/" [("db-identifier", "db")],
            Event.UploadLargeFile (some "/var/tmp/rds-log-A1234ASDF-0") "Hello World!"
              "A1234ASDF/rds_log_A1234ASDF_1708677000",
            Event.Remove "/var/tmp/rds-log-A1234ASDF-0"] = uploadKeys World.init.trace) ∧
        (derr = none → ∃ f, file = some f ∧
          (failedStatEnv.stat w1.trace f.name = none →
            (0 : Nat) = World.init.downloadedLogsTotal + 1) ∧
          (failedStatEnv.stat w1.trace f.name ≠ none →
            (0 : Nat) = World.init.downloadedLogsTotal) ∧
          ((PushLogToBucket failedStatEnv
              (CreateS3Client failedStatEnv sampleCtx "bucket") (some f) nm "db"
              (recordDownload failedStatEnv f w1)).1 = none →
            (1 : Nat) = World.init.uploadedS3LogsTotal + 1) ∧
          ((PushLogToBucket failedStatEnv
              (CreateS3Client failedStatEnv sampleCtx "bucket") (some f) nm "db"
              (recordDownload failedStatEnv f w1)).1 ≠ none →
            (1 : Nat) = World.init.uploadedS3LogsTotal)) :=
  (startSyncLogProcess_counters failedStatEnv 1
    (CreateRDSClient sampleCtx)
    (CreateS3Client failedStatEnv sampleCtx "bucket")
    "db" "error/postgresql.log.2024-02-23-0830.csv" World.init
    { World.init with
      trace := [Event.CreateTemp "/var/tmp" "rds-log-A1234ASDF-",
        Event.DownloadDBLogFilePortion "db" "error/postgresql.log.2024-02-23-0830.csv" "0" 1450,
        Event.ListObjectsV2 "bucket" "A1234ASDF/" 1,
        Event.PutObject "bucket" "A1234ASDF/" [("db-identifier", "db")],
        Event.UploadLargeFile (some "/var/tmp/rds-log-A1234ASDF-0") "Hello World!"
          "A1234ASDF/rds_log_A1234ASDF_1708677000",
        Event.Remove "/var/tmp/rds-log-A1234ASDF-0"]
      downloadedLogsTotal := 0
      uploadedS3LogsTotal := 1
      sizeUploadedLogsBytes := 0 } (by decide)).2 ⟨Date 2024 2 23 8 30 0 0 UTC, by decide⟩

/-- C25 (counterexample). The lookup succeeds and the first instance carries
a cluster identifier that is the empty string: `CreateDBSnapshot` makes a
`CreateDBClusterSnapshot` request, for the empty identifier, and no
`CreateDBSnapshot` request. -/
theorem cluster_snapshot_for_empty_identifier :
    (belongsToACluster emptyClusterEnv (CreateRDSClient sampleCtx) "db" World.init).1
      = ("", true) ∧
    (CreateDBSnapshot emptyClusterEnv (CreateRDSClient sampleCtx) "db"
        (Date 2024 2 23 13 0 0 0 UTC) World.init).2.trace =
      [Event.Sleep 3600000000000,
        Event.DescribeDBInstances "db",
        Event.CreateDBClusterSnapshot "" "pgreplay-A1234ASDF" [("app", "rdsrecorder")]] := by
  decide

/-- C25 (amended). Go `CreateDBSnapshot` makes exactly one snapshot request,
with the identifier `pgreplay-` followed by the process identifier and the
tag `app=rdsrecorder`, after it has slept until the start and looked the
instance up: a `CreateDBClusterSnapshot` for the cluster identifier of the
first instance when the lookup succeeds, returns an instance, and the first
one carries a cluster identifier, be it the empty string; a
`CreateDBSnapshot` for the instance when the lookup fails, returns no
instance, or the first one carries no cluster identifier. It returns the
error of the request it made. -/
theorem CreateDBSnapshot_spec (env : Env) (client : RDSClient) (dbName : String)
    (startAt : Time) (w : World) :
    (∀ id rest,
      env.describeDBInstances (w.trace ++ [Event.Sleep (startAt.Sub (env.now w.clock))]) dbName
        = .ok (some id :: rest) →
      (CreateDBSnapshot env client dbName startAt w).1 =
        env.createDBClusterSnapshot
          (w.trace ++ [Event.Sleep (startAt.Sub (env.now w.clock)),
            Event.DescribeDBInstances dbName])
          id ("pgreplay-" ++ GetProcessID client.ctx) [("app", "rdsrecorder")] ∧
      (CreateDBSnapshot env client dbName startAt w).2.trace =
        w.trace ++ [Event.Sleep (startAt.Sub (env.now w.clock)),
          Event.DescribeDBInstances dbName,
          Event.CreateDBClusterSnapshot id ("pgreplay-" ++ GetProcessID client.ctx)
            [("app", "rdsrecorder")]]) ∧
    ((¬ ∃ id rest,
        env.describeDBInstances (w.trace ++ [Event.Sleep (startAt.Sub (env.now w.clock))]) dbName
          = .ok (some id :: rest)) →
      (CreateDBSnapshot env client dbName startAt w).1 =
        env.createDBSnapshot
          (w.trace ++ [Event.Sleep (startAt.Sub (env.now w.clock)),
            Event.DescribeDBInstances dbName])
          dbName ("pgreplay-" ++ GetProcessID client.ctx) [("app", "rdsrecorder")] ∧
      (CreateDBSnapshot env client dbName startAt w).2.trace =
        w.trace ++ [Event.Sleep (startAt.Sub (env.now w.clock)),
          Event.DescribeDBInstances dbName,
          Event.CreateDBSnapshot dbName ("pgreplay-" ++ GetProcessID client.ctx)
            [("app", "rdsrecorder")]]) ∧
    (∃ evs, (CreateDBSnapshot env client dbName startAt w).2.trace = w.trace ++ evs ∧
      countSnapshots evs = 1) := by
  have hbi := buildSnapshotIdentifier_eq client.ctx
  refine ⟨?_, ?_, CreateDBSnapshot_delta env client dbName startAt w⟩
  · intro id rest hd
    unfold CreateDBSnapshot Until belongsToACluster
    simp only [World.emit, hd, hbi, buildTagsSnapshot, List.append_assoc, List.singleton_append, List.cons_append, List.nil_append,
      true_and]
  · intro hno
    unfold CreateDBSnapshot Until belongsToACluster
    simp only [World.emit]
    cases hd : env.describeDBInstances (w.trace ++ [Event.Sleep (startAt.Sub (env.now w.clock))])
        dbName with
    | error e =>
      simp only [hbi, buildTagsSnapshot, List.append_assoc, List.singleton_append, List.cons_append, List.nil_append, true_and]
    | ok ids =>
      match ids, hd with
      | [], _ =>
        simp only [hbi, buildTagsSnapshot, List.append_assoc, List.singleton_append, List.cons_append, List.nil_append, true_and]
      | none :: _, _ =>
        simp only [hbi, buildTagsSnapshot, List.append_assoc, List.singleton_append, List.cons_append, List.nil_append, true_and]
      | some id :: rest, hd => exact absurd ⟨id, rest, hd⟩ hno

theorem CreateDBSnapshot_spec_witness :
    (CreateDBSnapshot clusterEnv (CreateRDSClient sampleCtx) "db"
        (Date 2024 2 23 13 0 0 0 UTC) World.init).2.trace =
      World.init.trace ++ [Event.Sleep ((Date 2024 2 23 13 0 0 0 UTC).Sub
          (clusterEnv.now World.init.clock)),
        Event.DescribeDBInstances "db",
        Event.CreateDBClusterSnapshot "cluster-1"
          ("pgreplay-" ++ GetProcessID (CreateRDSClient sampleCtx).ctx)
          [("app", "rdsrecorder")]] :=
  ((CreateDBSnapshot_spec clusterEnv (CreateRDSClient sampleCtx) "db"
    (Date 2024 2 23 13 0 0 0 UTC) World.init).1 "cluster-1" [] rfl).2

end RdsRecorder
